import Mathlib

/-! Verification of sodium-native `binding.cc`: incremental stream XOR engine, secretstream
session and async key-derivation tasks.

A shallow embedding of the stateful parts of `src/binding.cc` and the properties proved of
them.

Conventions.
* A byte (`unsigned char`) is a `Nat`; buffers are `List Nat`.  XOR never leaves the byte
  range, so no reduction modulo 256 is needed.
* `uint64_t` values are `Nat` reduced modulo `2 ^ 64` where the source computes a new value;
  `uint32_t` sums and differences are reduced modulo `2 ^ 32`.
* `int remainder` is an `Int`.
* A JavaScript exception raised by `SN_THROWS` is the `thrown` component of a result; a failed
  C `assert` aborts the process and is the `none` of an `Option`.
* The five families `crypto_stream` (xsalsa20), `chacha20`, `chacha20_ietf`, `xchacha20`,
  `salsa20` have textually identical `_xor_wrap_init/_update/_final` bodies that differ only
  in the libsodium constants and in the `_xor_ic` primitive they call; the embedding takes
  these as the fields of `Family`.  The primitive's `ic` parameter is a `uint64_t` in four
  families and a `uint32_t` in `chacha20_ietf`, so passing the `uint64_t` block counter
  converts it modulo `2 ^ 32` there; the width is the field `ic_bits`.
* libsodium itself is outside the sources: its stream primitive is a field of `Family`, its
  secretstream primitive the structure `secretstream`, and what is assumed of them is stated
  as `xor_ic_spec` and `roundtrip_contract`.

The file has three parts: the definitions, lemmas about them, and the claims `C1`, `C2`, ...
-/

namespace SodiumNative

/-! ## Incremental XOR engine (`binding.cc` 2801-3264) -/

/-- The libsodium constants and primitive one family of `_xor_wrap_*` functions is built on:
`crypto_stream_*_NONCEBYTES`, `crypto_stream_*_KEYBYTES`, `sizeof` of the family's state
struct, and `crypto_stream_*_xor_ic (c, m, mlen, n, ic, k)`, here a function from the input
`m` (of length `mlen`), the nonce, the initial block counter and the key to the output `c`.
`ic_bits` is the width of the primitive's `ic` parameter: 64 (`uint64_t`) for xsalsa20,
chacha20, xchacha20 and salsa20, 32 (`uint32_t`) for chacha20_ietf. -/
structure Family where
  NONCEBYTES : Nat
  KEYBYTES : Nat
  STATEBYTES : Nat
  ic_bits : Nat
  xor_ic : List Nat → List Nat → Nat → List Nat → List Nat

/-- The struct `sn_crypto_stream_xor_state` (2801-2807) and its four siblings:
`n`, `k`, `next_block[64]`, `int remainder`, `uint64_t block_counter`. -/
structure sn_crypto_stream_xor_state where
  n : List Nat
  k : List Nat
  next_block : List Nat
  remainder : Int
  block_counter : Nat
deriving DecidableEq, Repr

/-- Which check of a binding function raised the JavaScript exception: a wrong state buffer
size, nonce length, key length, output length or header length, or a primitive that returned
a non-zero result. -/
inductive sn_thrown where
  | state_size
  | n_length
  | k_length
  | c_size
  | header_length
  | call_failed
deriving DecidableEq, Repr

/-- Result of `_xor_wrap_init` and `_xor_wrap_final`: the exception raised, if any, and the
state buffer after the call. -/
structure state_result where
  thrown : Option sn_thrown
  state : sn_crypto_stream_xor_state
deriving DecidableEq, Repr

/-- Result of `_xor_wrap_update`: the exception raised, if any, the state buffer and the
output buffer `c` after the call. -/
structure update_result where
  thrown : Option sn_thrown
  state : sn_crypto_stream_xor_state
  c : List Nat
deriving DecidableEq, Repr

/-- Modelled from the spec: the macro `SN_THROWS (condition, message)` of `macros.h`, which is
not part of the sources.  When the condition holds the call is rejected at once (the spec's
"reject immediately, no state mutated"): the exception is raised and the function returns
with every buffer as it was; otherwise execution continues with the rest of the body. -/
def SN_THROWS {α : Type} (condition : Bool) (message : α) (rest : α) : α :=
  if condition then message else rest

/-- Modelled from the spec: the macro `SN_ASSERT_LENGTH (length, constant, name)` of
`macros.h`, which is not part of the sources: a fixed-size field is validated against its
algorithm constant and the call is rejected when they differ. -/
def SN_ASSERT_LENGTH {α : Type} (length constant : Nat) (message : α) (rest : α) : α :=
  SN_THROWS (length != constant) message rest

/-- The function `sn_crypto_stream_xor_wrap_init` (2809-2827) and its siblings.
`state_size` is the byte length of the state buffer, `state` its prior content seen through
the struct, `n_data` and `k_data` the nonce and key arrays.  The two `memcpy` calls fill the
whole `n` and `k` arrays of the struct. -/
def sn_crypto_stream_xor_wrap_init (F : Family) (state_size : Nat)
    (state : sn_crypto_stream_xor_state) (n_data k_data : List Nat) : state_result :=
  SN_THROWS (state_size != F.STATEBYTES) ⟨some .state_size, state⟩ <|
  SN_ASSERT_LENGTH n_data.length F.NONCEBYTES ⟨some .n_length, state⟩ <|
  SN_ASSERT_LENGTH k_data.length F.KEYBYTES ⟨some .k_length, state⟩ <|
  let state := { state with remainder := 0 }
  let state := { state with block_counter := 0 }
  let state := { state with n := n_data.take F.NONCEBYTES }
  let state := { state with k := k_data.take F.KEYBYTES }
  ⟨none, state⟩

/-- The loop at 2846-2850,
`while (rem < 64 && offset < m_size) { c[offset] = next_block[rem] ^ m[offset]; offset++; rem++; }`,
by recursion on the input still to be read.  Returns the bytes written to `c` (their number
is the final `offset`) and the final `rem`.  A read of `next_block` past its end, which is
undefined in C, yields 0, and a negative `rem`, equally undefined, reads index 0; neither
arises on a state produced by `init` and `update`. -/
def gap_loop (next_block : List Nat) : Int → List Nat → List Nat × Int
  | rem, [] => ([], rem)
  | rem, b :: m =>
    if rem < 64 then
      let r := gap_loop next_block (rem + 1) m
      ((next_block.getD rem.toNat 0 ^^^ b) :: r.1, r.2)
    else ([], rem)

/-- Lines 2860-2873 of `_xor_wrap_update`: the whole blocks of `m` are XORed by one call of
the primitive at the current block counter; a tail of `m_size & 63` bytes is XORed through
`next_block`, which is zeroed from `remainder` on, receives the tail in front, and is then
encrypted in place as one 64-byte block.  Both calls pass the `uint64_t`
`state->block_counter` as the argument `ic`, which converts it to the parameter's type: the
value the primitive receives is the counter modulo `2 ^ ic_bits` (3048 and 3055 for
chacha20_ietf, whose `ic` is a `uint32_t`).  Returns the state and the bytes written to
`c`. -/
def update_blocks (F : Family) (state : sn_crypto_stream_xor_state) (m : List Nat) :
    sn_crypto_stream_xor_state × List Nat :=
  let remainder : Nat := m.length &&& 63
  let state := { state with remainder := (remainder : Int) }
  let m_size := m.length - remainder
  let c := F.xor_ic (m.take m_size) state.n (state.block_counter % 2 ^ F.ic_bits) state.k
  let state := { state with block_counter := (state.block_counter + m_size / 64) % 2 ^ 64 }
  if state.remainder ≠ 0 then
    let next_block := (m.drop m_size).take remainder ++ List.replicate (64 - remainder) 0
    let next_block :=
      F.xor_ic next_block state.n (state.block_counter % 2 ^ F.ic_bits) state.k
    let c := c ++ next_block.take remainder
    let state := { state with next_block := next_block }
    let state := { state with block_counter := (state.block_counter + 1) % 2 ^ 64 }
    (state, c)
  else (state, c)

/-- The function `sn_crypto_stream_xor_wrap_update` (2829-2876) and its siblings.  `c` is the
prior content of the output buffer, `m` the input.  Every byte of `c` is written by an
accepted call (`c_size == m_size`), so the output buffer afterwards is the list of bytes
written. -/
def sn_crypto_stream_xor_wrap_update (F : Family) (state_size : Nat)
    (state : sn_crypto_stream_xor_state) (c m : List Nat) : update_result :=
  SN_THROWS (state_size != F.STATEBYTES) ⟨some .state_size, state, c⟩ <|
  SN_THROWS (c.length != m.length) ⟨some .c_size, state, c⟩ <|
  if state.remainder ≠ 0 then
    let r := gap_loop state.next_block state.remainder m
    let offset := r.1.length
    let rem := r.2
    let m := m.drop offset
    let state := { state with remainder := if rem = 64 then 0 else rem }
    if m.length = 0 then ⟨none, state, r.1⟩
    else
      let u := update_blocks F state m
      ⟨none, u.1, r.1 ++ u.2⟩
  else
    let u := update_blocks F state m
    ⟨none, u.1, u.2⟩

/-- The function `sn_crypto_stream_xor_wrap_final` (2878-2892) and its siblings: the three
`sodium_memzero` calls clear the whole `n`, `k` and `next_block` arrays, then
`state->remainder = 0`. -/
def sn_crypto_stream_xor_wrap_final (F : Family) (state_size : Nat)
    (state : sn_crypto_stream_xor_state) : state_result :=
  SN_THROWS (state_size != F.STATEBYTES) ⟨some .state_size, state⟩ <|
  let state := { state with n := List.replicate F.NONCEBYTES 0 }
  let state := { state with k := List.replicate F.KEYBYTES 0 }
  let state := { state with next_block := List.replicate 64 0 }
  let state := { state with remainder := 0 }
  ⟨none, state⟩

/-! ### The primitive's contract and the one-shot reference -/

/-- XOR of `m` with the keystream bytes `ks pos`, `ks (pos + 1)`, ... -/
def xor_from (ks : Nat → Nat) : Nat → List Nat → List Nat
  | _, [] => []
  | pos, b :: m => (b ^^^ ks pos) :: xor_from ks (pos + 1) m

/-- Keystream byte number `pos` for a nonce and key, from the cipher's block function
`block n k counter j` (byte `j < 64` of the 64-byte block with 64-bit counter `counter`). -/
def keystream (block : List Nat → List Nat → Nat → Nat → Nat) (n k : List Nat) (pos : Nat) :
    Nat :=
  block n k (pos / 64 % 2 ^ 64) (pos % 64)

/-- The assumption on a family's `_xor_ic` primitive: it XORs its input with the keystream
starting at byte `64 * ic`. -/
def xor_ic_spec (xor_ic : List Nat → List Nat → Nat → List Nat → List Nat)
    (block : List Nat → List Nat → Nat → Nat → Nat) : Prop :=
  ∀ m n ic k, xor_ic m n ic k = xor_from (keystream block n k) (64 * ic) m

/-- A caller that feeds the chunks `ms` to `_xor_wrap_update` in order, each with a fresh
output buffer of the chunk's length, and concatenates the outputs; `none` when a call
throws. -/
def xor_session (F : Family) (state_size : Nat) :
    sn_crypto_stream_xor_state → List (List Nat) → Option (sn_crypto_stream_xor_state × List Nat)
  | state, [] => some (state, [])
  | state, m :: ms =>
    let r := sn_crypto_stream_xor_wrap_update F state_size state (List.replicate m.length 0) m
    match r.thrown with
    | some _ => none
    | none =>
      match xor_session F state_size r.state ms with
      | some (s, out) => some (s, r.c ++ out)
      | none => none

/-- A toy block function used to run the engine on concrete inputs. -/
def toy_block (n k : List Nat) (counter j : Nat) : Nat :=
  (n.sum + 3 * k.sum + 7 * counter + 11 * j) % 256

/-- A toy family with the constants of `crypto_stream_chacha20` (8-byte nonce, 32-byte key,
120-byte state struct, 64-bit `ic`) whose primitive is the keystream XOR of `toy_block`. -/
def toy_family : Family where
  NONCEBYTES := 8
  KEYBYTES := 32
  STATEBYTES := 120
  ic_bits := 64
  xor_ic := fun m n ic k => xor_from (keystream toy_block n k) (64 * ic) m

/-- A toy block function whose blocks `counter` and `counter + 2 ^ 32` differ. -/
def toy_block_ietf (n k : List Nat) (counter j : Nat) : Nat :=
  (n.sum + 3 * k.sum + 7 * counter + 11 * j + 5 * (counter / 2 ^ 32)) % 256

/-- A toy family with the constants of `crypto_stream_chacha20_ietf` (12-byte nonce, 32-byte
key, 120-byte state struct, 32-bit `ic`) whose primitive is the keystream XOR of
`toy_block_ietf`. -/
def toy_ietf_family : Family where
  NONCEBYTES := 12
  KEYBYTES := 32
  STATEBYTES := 120
  ic_bits := 32
  xor_ic := fun m n ic k => xor_from (keystream toy_block_ietf n k) (64 * ic) m

/-- An arbitrary prior content of a state buffer. -/
def junk_state : sn_crypto_stream_xor_state :=
  ⟨List.replicate 8 9, List.replicate 32 8, List.replicate 64 5, 17, 4⟩

/-- State of a session with nonce `n` and key `k` that has processed `T` message bytes since
`init`: the nonce and key are stored, `remainder` is `T mod 64`, `block_counter` is the
number of keystream blocks started (modulo `2 ^ 64`), and while a block is partly used the
cache holds its unused bytes at the positions from `remainder` on. -/
def session_inv (block : List Nat → List Nat → Nat → Nat → Nat) (n k : List Nat) (T : Nat)
    (st : sn_crypto_stream_xor_state) : Prop :=
  st.n = n ∧ st.k = k ∧ st.remainder = ((T % 64 : Nat) : Int) ∧
  st.block_counter = (T + 63) / 64 % 2 ^ 64 ∧
  (T % 64 ≠ 0 → ∀ j, T % 64 ≤ j → j < 64 →
    st.next_block.getD j 0 = keystream block n k (T / 64 * 64 + j))

/-- An 8-byte nonce for the toy family. -/
def demo_nonce : List Nat := [1, 2, 3, 4, 5, 6, 7, 8]
/-- A 32-byte key for the toy family. -/
def demo_key : List Nat := List.replicate 32 9
/-- A 12-byte nonce for the toy family with a 32-bit `ic`. -/
def demo_nonce_ietf : List Nat := [1, 2, 3, 4, 5, 6, 7, 8, 9, 10, 11, 12]
/-- A message of `2 ^ 38` zero bytes (`2 ^ 32` blocks) as 64 chunks of `2 ^ 32` bytes. -/
def long_chunks : List (List Nat) := List.replicate 64 (List.replicate (2 ^ 32) 0)
/-- The toy session after `init`. -/
def demo_ready : sn_crypto_stream_xor_state :=
  (sn_crypto_stream_xor_wrap_init toy_family 120 junk_state demo_nonce demo_key).state
/-- The toy session after `init` and an `update` of the single byte 7. -/
def demo_after_one_byte : sn_crypto_stream_xor_state :=
  (sn_crypto_stream_xor_wrap_update toy_family 120 demo_ready [0] [7]).state
/-- The toy session after `init`, a one-byte `update` and `final`. -/
def demo_closed : sn_crypto_stream_xor_state :=
  (sn_crypto_stream_xor_wrap_final toy_family 120 demo_after_one_byte).state

/-! ## Secretstream session (`binding.cc` 2054-2208) -/

/-- What `crypto_secretstream_xchacha20poly1305_init_push (state, header, k)` leaves: its
return value, the state and the `HEADERBYTES` bytes written to `header`. -/
structure prim_init_push_result (S : Type) where
  res : Int
  state : S
  header : List Nat

/-- What `crypto_secretstream_xchacha20poly1305_init_pull (state, header, k)` leaves. -/
structure prim_init_pull_result (S : Type) where
  res : Int
  state : S

/-- What `crypto_secretstream_xchacha20poly1305_push` leaves: its return value, the state,
the bytes written at `c` and the value stored in `*clen_p`. -/
structure prim_push_result (S : Type) where
  res : Int
  state : S
  c : List Nat
  clen : Nat

/-- What `crypto_secretstream_xchacha20poly1305_pull` leaves: its return value, the state,
the bytes written at `m`, the value stored in `*mlen_p` and the bytes written at `tag_p`. -/
structure prim_pull_result (S : Type) where
  res : Int
  state : S
  m : List Nat
  mlen : Nat
  tag : List Nat

/-- The libsodium secretstream primitive the binding fronts, with state struct content `S`:
its constants (`sizeof` of the state struct, `HEADERBYTES`, `KEYBYTES`, `ABYTES`) and its four
functions.  `init_push` draws the header at random; the bytes it draws are its second
argument.  `push state m ad tag` and `pull state c ad` receive the `mlen`, `adlen` and `clen`
bytes the C call can read. -/
structure secretstream (S : Type) where
  STATEBYTES : Nat
  HEADERBYTES : Nat
  KEYBYTES : Nat
  ABYTES : Nat
  init_push : S → List Nat → List Nat → prim_init_push_result S
  init_pull : S → List Nat → List Nat → prim_init_pull_result S
  push : S → List Nat → List Nat → Nat → prim_push_result S
  pull : S → List Nat → List Nat → prim_pull_result S

/-- The constant `crypto_secretstream_xchacha20poly1305_TAG_MESSAGE` of libsodium. -/
def TAG_MESSAGE : Nat := 0
/-- The constant `crypto_secretstream_xchacha20poly1305_TAG_PUSH` of libsodium. -/
def TAG_PUSH : Nat := 1
/-- The constant `crypto_secretstream_xchacha20poly1305_TAG_REKEY` of libsodium. -/
def TAG_REKEY : Nat := 2
/-- The constant `crypto_secretstream_xchacha20poly1305_TAG_FINAL` of libsodium
(`TAG_PUSH | TAG_REKEY`). -/
def TAG_FINAL : Nat := 3

/-- Result of `sn_crypto_secretstream_xchacha20poly1305_init_push`: the exception thrown, if
any, the state buffer and the header buffer after the call. -/
structure init_push_result (S : Type) where
  thrown : Option sn_thrown
  state : S
  header : List Nat

/-- Result of `sn_crypto_secretstream_xchacha20poly1305_init_pull`. -/
structure init_pull_result (S : Type) where
  thrown : Option sn_thrown
  state : S

/-- Result of the binding's `push`: the `int64_t` returned, the state and the output view
`c` after the call. -/
structure push_result (S : Type) where
  ret : Int
  state : S
  c : List Nat

/-- Result of the binding's `pull`: the `int64_t` returned, the state, the message view `m`
and the tag view after the call. -/
structure pull_result (S : Type) where
  ret : Int
  state : S
  m : List Nat
  tag : List Nat

/-- Bytes `written` stored at the start of the view `buf`. -/
def store (buf written : List Nat) : List Nat :=
  written ++ buf.drop written.length

/-- Conversion of an `unsigned long long` to the `int64_t` a function returns. -/
def to_int64 (x : Nat) : Int :=
  if x % 2 ^ 64 < 2 ^ 63 then ((x % 2 ^ 64 : Nat) : Int) else ((x % 2 ^ 64 : Nat) : Int) - 2 ^ 64

/-- Modelled from the spec: the macro `SN_RETURN (call, message)` of `macros.h`, which is not
part of the sources: the primitive is called, and a non-zero result is reported as a thrown
error ("initial push failed"), after the call has had its effects. -/
def SN_RETURN {α : Type} (res : Int) (message : α) (ok : α) : α :=
  SN_THROWS (res != 0) message ok

/-- The function `sn_crypto_secretstream_xchacha20poly1305_init_push` (2054-2067).
`rnd` are the random bytes the primitive draws for the header. -/
def sn_crypto_secretstream_xchacha20poly1305_init_push {S : Type} (P : secretstream S)
    (state_size : Nat) (state : S) (header k rnd : List Nat) : init_push_result S :=
  SN_THROWS (state_size != P.STATEBYTES) ⟨some .state_size, state, header⟩ <|
  SN_ASSERT_LENGTH header.length P.HEADERBYTES ⟨some .header_length, state, header⟩ <|
  SN_ASSERT_LENGTH k.length P.KEYBYTES ⟨some .k_length, state, header⟩ <|
  let r := P.init_push state rnd k
  SN_RETURN r.res ⟨some .call_failed, r.state, store header r.header⟩
    ⟨none, r.state, store header r.header⟩

/-- The function `sn_crypto_secretstream_xchacha20poly1305_init_pull` (2124-2137). -/
def sn_crypto_secretstream_xchacha20poly1305_init_pull {S : Type} (P : secretstream S)
    (state_size : Nat) (state : S) (header k : List Nat) : init_pull_result S :=
  SN_THROWS (state_size != P.STATEBYTES) ⟨some .state_size, state⟩ <|
  SN_ASSERT_LENGTH header.length P.HEADERBYTES ⟨some .header_length, state⟩ <|
  SN_ASSERT_LENGTH k.length P.KEYBYTES ⟨some .k_length, state⟩ <|
  let r := P.init_pull state header k
  SN_RETURN r.res ⟨some .call_failed, r.state⟩ ⟨none, r.state⟩

/-- The two length assertions of `push` (2101-2102) on the `uint32_t` lengths:
`c_len == m_len + ABYTES`, the sum taken in 32-bit unsigned arithmetic, and
`c_len <= 0xffffffff`. -/
def push_length_check (ABYTES m_len c_len : Nat) : Bool :=
  c_len == (m_len + ABYTES) % 2 ^ 32 && decide (c_len ≤ 0xffffffff)

/-- The three length assertions of `pull` (2172-2175) on the `uint32_t` lengths:
`c_len >= ABYTES`, `tag_len == 1`, `m_len == c_len - ABYTES` in 32-bit unsigned arithmetic,
and `m_len <= 0xffffffff`. -/
def pull_length_check (ABYTES c_len m_len tag_len : Nat) : Bool :=
  decide (c_len ≥ ABYTES) && tag_len == 1 && m_len == (c_len + 2 ^ 32 - ABYTES) % 2 ^ 32
    && decide (m_len ≤ 0xffffffff)

/-- The lines 2104-2114 (and 2177-2187): `ad_data` is `NULL` when `ad_len` is 0; otherwise
the arraybuffer `ad` must hold `ad_len + ad_offset` bytes (a 32-bit unsigned sum) and
`ad_data` points at offset `ad_offset` of it.  The result is the `ad_len` bytes the
primitive reads there, or `none` when the assertion fails. -/
def ad_bytes (ad : List Nat) (ad_offset ad_len : Nat) : Option (List Nat) :=
  if ad_len ≠ 0 then
    if (ad_len + ad_offset) % 2 ^ 32 ≤ ad.length then some ((ad.drop ad_offset).take ad_len)
    else none
  else some []

/-- The function `sn_crypto_secretstream_xchacha20poly1305_push` (2069-2122).  A typed-array
argument (arraybuffer span, offset, length) is given by the bytes of its view, whose length
is the `uint32_t` length argument, so `assert_bounds` holds by construction; `ad` is the
whole arraybuffer.  `tag` is narrowed from `uint32_t` to the primitive's `unsigned char`.
`none` is a failed `assert`. -/
def sn_crypto_secretstream_xchacha20poly1305_push {S : Type} (P : secretstream S)
    (state : S) (state_len : Nat) (c m : List Nat) (ad : List Nat) (ad_offset ad_len : Nat)
    (tag : Nat) : Option (push_result S) :=
  if state_len ≠ P.STATEBYTES then none
  else if ¬ push_length_check P.ABYTES m.length c.length then none
  else
    match ad_bytes ad ad_offset ad_len with
    | none => none
    | some ad_data =>
      let r := P.push state m ad_data (tag % 256)
      if r.res < 0 then some ⟨-1, r.state, store c r.c⟩
      else some ⟨to_int64 r.clen, r.state, store c r.c⟩

/-- The function `sn_crypto_secretstream_xchacha20poly1305_pull` (2139-2195), with the same
conventions as `push`. -/
def sn_crypto_secretstream_xchacha20poly1305_pull {S : Type} (P : secretstream S)
    (state : S) (state_len : Nat) (m tag c : List Nat) (ad : List Nat)
    (ad_offset ad_len : Nat) : Option (pull_result S) :=
  if state_len ≠ P.STATEBYTES then none
  else if ¬ pull_length_check P.ABYTES c.length m.length tag.length then none
  else
    match ad_bytes ad ad_offset ad_len with
    | none => none
    | some ad_data =>
      let r := P.pull state c ad_data
      if r.res < 0 then some ⟨-1, r.state, store m r.m, store tag r.tag⟩
      else some ⟨to_int64 r.mlen, r.state, store m r.m, store tag r.tag⟩

/-- One chunk handed to `push`: plaintext, associated data (empty for none) and tag. -/
structure chunk where
  m : List Nat
  ad : List Nat
  tag : Nat
deriving DecidableEq, Repr

/-- A caller that pushes the chunks in order, each into a fresh output view of
`m.length + ABYTES` bytes, and collects what `push` returned and the ciphertexts; `none`
when an assertion fails. -/
def push_all {S : Type} (P : secretstream S) :
    S → List chunk → Option (List (Int × List Nat))
  | _, [] => some []
  | state, ch :: rest =>
    match sn_crypto_secretstream_xchacha20poly1305_push P state P.STATEBYTES
        (List.replicate (ch.m.length + P.ABYTES) 0) ch.m ch.ad 0 ch.ad.length ch.tag with
    | none => none
    | some r =>
      match push_all P r.state rest with
      | none => none
      | some out => some ((r.ret, r.c) :: out)

/-- A caller that pulls the ciphertexts in order, each with its associated data, into a
fresh message view of `c.length - ABYTES` bytes and a one-byte tag view, and collects what
`pull` returned, the message view and the tag view; `none` when an assertion fails. -/
def pull_all {S : Type} (P : secretstream S) :
    S → List (List Nat × List Nat) → Option (List (Int × List Nat × List Nat))
  | _, [] => some []
  | state, (c, ad) :: rest =>
    match sn_crypto_secretstream_xchacha20poly1305_pull P state P.STATEBYTES
        (List.replicate (c.length - P.ABYTES) 0) [0] c ad 0 ad.length with
    | none => none
    | some r =>
      match pull_all P r.state rest with
      | none => none
      | some out => some ((r.ret, r.m, r.tag) :: out)

/-- The contract of the libsodium primitive that a push/pull round trip relies on, for a
relation `matched` between a pushing and a pulling state: `init_push` succeeds and writes a
`HEADERBYTES` header, `init_pull` on that header and key succeeds and yields a matching
state; on matching states `push` of a message with one of the four tags succeeds with
`mlen + ABYTES` ciphertext bytes, and `pull` of that ciphertext with the same associated
data succeeds, writes the message and the tag, and leaves the states matching. -/
structure roundtrip_contract {S : Type} (P : secretstream S) (matched : S → S → Prop) :
    Prop where
  init : ∀ (s1 s2 : S) (rnd k : List Nat), k.length = P.KEYBYTES →
    (P.init_push s1 rnd k).res = 0 ∧ (P.init_push s1 rnd k).header.length = P.HEADERBYTES ∧
    (P.init_pull s2 (P.init_push s1 rnd k).header k).res = 0 ∧
    matched (P.init_push s1 rnd k).state (P.init_pull s2 (P.init_push s1 rnd k).header k).state
  step : ∀ (s1 s2 : S) (m ad : List Nat) (tag : Nat), matched s1 s2 → tag < 4 →
    (P.push s1 m ad tag).res = 0 ∧ (P.push s1 m ad tag).c.length = m.length + P.ABYTES ∧
    (P.push s1 m ad tag).clen = m.length + P.ABYTES ∧
    (P.pull s2 (P.push s1 m ad tag).c ad).res = 0 ∧
    (P.pull s2 (P.push s1 m ad tag).c ad).m = m ∧
    (P.pull s2 (P.push s1 m ad tag).c ad).mlen = m.length ∧
    (P.pull s2 (P.push s1 m ad tag).c ad).tag = [tag] ∧
    matched (P.push s1 m ad tag).state (P.pull s2 (P.push s1 m ad tag).c ad).state

/-- A toy primitive with a counter as state, used to run the binding on concrete inputs:
the ciphertext is the tag byte, the message and a 16-byte check value. -/
def toy_secretstream : secretstream Nat where
  STATEBYTES := 52
  HEADERBYTES := 24
  KEYBYTES := 32
  ABYTES := 17
  init_push := fun _ rnd k => ⟨0, k.sum + (rnd.take 24 ++ List.replicate (24 - rnd.length) 0).sum,
    rnd.take 24 ++ List.replicate (24 - rnd.length) 0⟩
  init_pull := fun _ header k => ⟨0, k.sum + header.sum⟩
  push := fun s m ad tag =>
    ⟨0, s + 1, [tag] ++ m ++ List.replicate 16 ((s + ad.sum) % 256), m.length + 17⟩
  pull := fun s c ad =>
    if 17 ≤ c.length ∧ c.drop (c.length - 16) = List.replicate 16 ((s + ad.sum) % 256) then
      ⟨0, s + 1, (c.drop 1).take (c.length - 17), c.length - 17, c.take 1⟩
    else ⟨-1, s, [], 0, [255]⟩


/-- The tag values a chunk may carry. -/
def valid_tags : List Nat := [TAG_MESSAGE, TAG_PUSH, TAG_REKEY, TAG_FINAL]

/-- A chunk the binding can be called with: one of the four tags, and lengths that fit the
`uint32_t` length arguments (the ciphertext length `m.length + ABYTES` included). -/
def chunk_ok (ABYTES : Nat) (ch : chunk) : Prop :=
  ch.tag ∈ valid_tags ∧ ch.m.length + ABYTES < 2 ^ 32 ∧ ch.ad.length < 2 ^ 32

instance (ABYTES : Nat) (ch : chunk) : Decidable (chunk_ok ABYTES ch) := by
  unfold chunk_ok
  infer_instance

/-- Two example chunks: a 3-byte message with tag MESSAGE and no associated data, and an
empty message with tag FINAL and 2 bytes of associated data. -/
def demo_chunks : List chunk := [⟨[1, 2, 3], [], TAG_MESSAGE⟩, ⟨[], [9, 9], TAG_FINAL⟩]

/-! ## Key derivation: one-shot bindings (`binding.cc` 1204-1326, 3415-3431) and async
bindings (2210-2799, 3433-3529) -/

/-- The libsodium constants of one password-hashing family, `crypto_pwhash_*` (Argon2) or
`crypto_pwhash_scryptsalsa208sha256_*` (scrypt). -/
structure pwhash_constants where
  BYTES_MIN : Nat
  BYTES_MAX : Nat
  SALTBYTES : Nat
  STRBYTES : Nat
  OPSLIMIT_MIN : Nat
  OPSLIMIT_MAX : Nat
  MEMLIMIT_MIN : Nat
  MEMLIMIT_MAX : Nat

/-- The constants `sn__extension_pbkdf2_sha512_ITERATIONS_MIN` and `_BYTES_MAX` of the
PBKDF2 extension header. -/
structure pbkdf2_constants where
  ITERATIONS_MIN : Nat
  BYTES_MAX : Nat

/-- Which check of a key-derivation binding raised the JavaScript exception, or
`call_failed` for the error `SN_RETURN` raises when the primitive returns non-zero. -/
inductive kdf_thrown where
  | out_min
  | out_max
  | salt_length
  | opslimit_min
  | opslimit_max
  | memlimit_min
  | memlimit_max
  | alg
  | out_length
  | str_length
  | iterations_min
  | outlen_max
  | out_short
  | callback
  | call_failed
deriving DecidableEq, Repr

/-- Modelled from the spec: the macro `SN_ASSERT_MIN_LENGTH (length, constant, name)` of
`macros.h`, which is not part of the sources: a bounded parameter is validated against its
lower bound and the call is rejected when it is below it. -/
def SN_ASSERT_MIN_LENGTH {α : Type} (length constant : Nat) (message : α) (rest : α) : α :=
  SN_THROWS (decide (length < constant)) message rest

/-- Modelled from the spec: the macro `SN_ASSERT_MAX_LENGTH (length, constant, name)` of
`macros.h`, which is not part of the sources: a bounded parameter is validated against its
upper bound and the call is rejected when it is above it. -/
def SN_ASSERT_MAX_LENGTH {α : Type} (length constant : Nat) (message : α) (rest : α) : α :=
  SN_THROWS (decide (length > constant)) message rest

/-- Modelled from the spec: the macro `SN_ASSERT_OPT_CALLBACK (pos)` of `macros.h`, which is
not part of the sources.  The trailing callback argument is optional; `cb` is `none` when it
is absent and `some f` when it is present, `f` telling whether it is a function.  A present
argument that is not a function rejects the call. -/
def SN_ASSERT_OPT_CALLBACK {α : Type} (cb : Option Bool) (message : α) (rest : α) : α :=
  SN_THROWS (cb == some false) message rest

/-- The arguments of `crypto_pwhash` and `crypto_pwhash_scryptsalsa208sha256` (one-shot and
async) after `SN_ARGV_*`: the byte size of `out`, the password and salt bytes, the `uint64_t`
limits and the `uint8_t` algorithm (unused by scrypt). -/
structure pwhash_args where
  out_size : Nat
  passwd : List Nat
  salt : List Nat
  opslimit : Nat
  memlimit : Nat
  alg : Nat
deriving DecidableEq, Repr

/-- The arguments of `crypto_pwhash_str` and its scrypt sibling (one-shot and async). -/
structure pwhash_str_args where
  out_size : Nat
  passwd : List Nat
  opslimit : Nat
  memlimit : Nat
deriving DecidableEq, Repr

/-- The arguments of `crypto_pwhash_str_verify` and its scrypt sibling. -/
structure pwhash_str_verify_args where
  str : List Nat
  passwd : List Nat
deriving DecidableEq, Repr

/-- The arguments of `extension_pbkdf2_sha512` (one-shot and async). -/
structure pbkdf2_args where
  out_size : Nat
  passwd : List Nat
  salt : List Nat
  iter : Nat
  outlen : Nat
deriving DecidableEq, Repr

/-- One invocation of an underlying primitive with the values it is passed (buffers by
content, the output buffer by its length).  The `_str` and `_str_verify` shapes stand for the
Argon2 and the scrypt primitive alike. -/
inductive primitive_call where
  | crypto_pwhash (outlen : Nat) (passwd : List Nat) (passwdlen : Nat) (salt : List Nat)
      (opslimit memlimit alg : Nat)
  | crypto_pwhash_scryptsalsa208sha256 (outlen : Nat) (passwd : List Nat) (passwdlen : Nat)
      (salt : List Nat) (opslimit memlimit : Nat)
  | crypto_pwhash_str (passwd : List Nat) (passwdlen : Nat) (opslimit memlimit : Nat)
  | crypto_pwhash_str_verify (str : List Nat) (passwd : List Nat) (passwdlen : Nat)
  | pbkdf2_sha512 (passwd : List Nat) (passwdlen : Nat) (salt : List Nat) (saltlen : Nat)
      (iter : Nat) (outlen : Nat)
deriving DecidableEq, Repr

/-- Result of a one-shot binding: the exception thrown, if any, the primitive invocation
made, if any, and the boolean returned by a verify binding. -/
structure oneshot_result where
  thrown : Option kdf_thrown
  call : Option primitive_call
  value : Option Bool
deriving DecidableEq, Repr

/-- Modelled from the spec: the macro `SN_RETURN (call, message)` of `macros.h` for a
key-derivation binding: the primitive is invoked and a non-zero result is thrown. -/
def SN_RETURN_call (prim : primitive_call → Int) (call : primitive_call) : oneshot_result :=
  SN_THROWS (prim call != 0) ⟨some .call_failed, some call, none⟩ ⟨none, some call, none⟩

/-- Modelled from the spec: the macro `SN_RETURN_BOOLEAN (call)` of `macros.h`: the primitive
is invoked and the boolean "result is 0" is returned. -/
def SN_RETURN_BOOLEAN (prim : primitive_call → Int) (call : primitive_call) : oneshot_result :=
  ⟨none, some call, some (prim call == 0)⟩

/-- The validation of `sn_crypto_pwhash` (1216-1223): the first check that fails. -/
def sn_crypto_pwhash_validate (K : pwhash_constants) (a : pwhash_args) : Option kdf_thrown :=
  SN_ASSERT_MIN_LENGTH a.out_size K.BYTES_MIN (some .out_min) <|
  SN_ASSERT_MAX_LENGTH a.out_size K.BYTES_MAX (some .out_max) <|
  SN_ASSERT_LENGTH a.salt.length K.SALTBYTES (some .salt_length) <|
  SN_ASSERT_MIN_LENGTH a.opslimit K.OPSLIMIT_MIN (some .opslimit_min) <|
  SN_ASSERT_MAX_LENGTH a.opslimit K.OPSLIMIT_MAX (some .opslimit_max) <|
  SN_ASSERT_MIN_LENGTH a.memlimit K.MEMLIMIT_MIN (some .memlimit_min) <|
  SN_ASSERT_MAX_LENGTH a.memlimit K.MEMLIMIT_MAX (some .memlimit_max) <|
  SN_THROWS (decide (a.alg < 1) || decide (a.alg > 2)) (some .alg) <|
  none

/-- The function `sn_crypto_pwhash` (1205-1226). -/
def sn_crypto_pwhash (K : pwhash_constants) (prim : primitive_call → Int) (a : pwhash_args) :
    oneshot_result :=
  match sn_crypto_pwhash_validate K a with
  | some e => ⟨some e, none, none⟩
  | none =>
    SN_RETURN_call prim
      (.crypto_pwhash a.out_size a.passwd a.passwd.length a.salt a.opslimit a.memlimit a.alg)

/-- The validation of `sn_crypto_pwhash_str` (1237-1241) and of
`sn_crypto_pwhash_scryptsalsa208sha256_str` (1307-1311). -/
def sn_crypto_pwhash_str_validate (K : pwhash_constants) (a : pwhash_str_args) :
    Option kdf_thrown :=
  SN_ASSERT_LENGTH a.out_size K.STRBYTES (some .out_length) <|
  SN_ASSERT_MIN_LENGTH a.opslimit K.OPSLIMIT_MIN (some .opslimit_min) <|
  SN_ASSERT_MAX_LENGTH a.opslimit K.OPSLIMIT_MAX (some .opslimit_max) <|
  SN_ASSERT_MIN_LENGTH a.memlimit K.MEMLIMIT_MIN (some .memlimit_min) <|
  SN_ASSERT_MAX_LENGTH a.memlimit K.MEMLIMIT_MAX (some .memlimit_max) <|
  none

/-- The function `sn_crypto_pwhash_str` (1228-1244) and its scrypt sibling (1298-1314). -/
def sn_crypto_pwhash_str (K : pwhash_constants) (prim : primitive_call → Int)
    (a : pwhash_str_args) : oneshot_result :=
  match sn_crypto_pwhash_str_validate K a with
  | some e => ⟨some e, none, none⟩
  | none => SN_RETURN_call prim (.crypto_pwhash_str a.passwd a.passwd.length a.opslimit a.memlimit)

/-- The validation of `sn_crypto_pwhash_str_verify` (1253) and of its scrypt sibling
(1323). -/
def sn_crypto_pwhash_str_verify_validate (K : pwhash_constants) (a : pwhash_str_verify_args) :
    Option kdf_thrown :=
  SN_ASSERT_LENGTH a.str.length K.STRBYTES (some .str_length) <|
  none

/-- The function `sn_crypto_pwhash_str_verify` (1246-1256) and its scrypt sibling
(1316-1326). -/
def sn_crypto_pwhash_str_verify (K : pwhash_constants) (prim : primitive_call → Int)
    (a : pwhash_str_verify_args) : oneshot_result :=
  match sn_crypto_pwhash_str_verify_validate K a with
  | some e => ⟨some e, none, none⟩
  | none => SN_RETURN_BOOLEAN prim (.crypto_pwhash_str_verify a.str a.passwd a.passwd.length)

/-- The validation of `sn_crypto_pwhash_scryptsalsa208sha256` (1287-1293). -/
def sn_crypto_pwhash_scryptsalsa208sha256_validate (K : pwhash_constants) (a : pwhash_args) :
    Option kdf_thrown :=
  SN_ASSERT_MIN_LENGTH a.out_size K.BYTES_MIN (some .out_min) <|
  SN_ASSERT_MAX_LENGTH a.out_size K.BYTES_MAX (some .out_max) <|
  SN_ASSERT_LENGTH a.salt.length K.SALTBYTES (some .salt_length) <|
  SN_ASSERT_MIN_LENGTH a.opslimit K.OPSLIMIT_MIN (some .opslimit_min) <|
  SN_ASSERT_MAX_LENGTH a.opslimit K.OPSLIMIT_MAX (some .opslimit_max) <|
  SN_ASSERT_MIN_LENGTH a.memlimit K.MEMLIMIT_MIN (some .memlimit_min) <|
  SN_ASSERT_MAX_LENGTH a.memlimit K.MEMLIMIT_MAX (some .memlimit_max) <|
  none

/-- The function `sn_crypto_pwhash_scryptsalsa208sha256` (1277-1296). -/
def sn_crypto_pwhash_scryptsalsa208sha256 (K : pwhash_constants)
    (prim : primitive_call → Int) (a : pwhash_args) : oneshot_result :=
  match sn_crypto_pwhash_scryptsalsa208sha256_validate K a with
  | some e => ⟨some e, none, none⟩
  | none =>
    SN_RETURN_call prim
      (.crypto_pwhash_scryptsalsa208sha256 a.out_size a.passwd a.passwd.length a.salt
        a.opslimit a.memlimit)

/-- The validation of `sn_extension_pbkdf2_sha512` (3425-3428). -/
def sn_extension_pbkdf2_sha512_validate (K : pbkdf2_constants) (a : pbkdf2_args) :
    Option kdf_thrown :=
  SN_ASSERT_MIN_LENGTH a.iter K.ITERATIONS_MIN (some .iterations_min) <|
  SN_ASSERT_MAX_LENGTH a.outlen K.BYTES_MAX (some .outlen_max) <|
  SN_ASSERT_MIN_LENGTH a.out_size a.outlen (some .out_short) <|
  none

/-- The function `sn_extension_pbkdf2_sha512` (3415-3431). -/
def sn_extension_pbkdf2_sha512 (K : pbkdf2_constants) (prim : primitive_call → Int)
    (a : pbkdf2_args) : oneshot_result :=
  match sn_extension_pbkdf2_sha512_validate K a with
  | some e => ⟨some e, none, none⟩
  | none =>
    SN_RETURN_call prim
      (.pbkdf2_sha512 a.passwd a.passwd.length a.salt a.salt.length a.iter a.outlen)

/-! ### The async task framework (`binding.cc` 2210-2799, 3433-3529) -/

/-- The enum of `sn_async_task_t` (2213-2216). -/
inductive sn_async_task_type where
  | sn_async_task_promise
  | sn_async_task_callback
deriving DecidableEq, Repr

/-- A JavaScript value handed to a deferred or a callback: `null`, `undefined`, a boolean or
an error object. -/
inductive js_value where
  | null
  | undefined
  | boolean (b : Bool)
  | error
deriving DecidableEq, Repr

/-- The buffer argument a `js_ref_t` created at submission keeps alive. -/
inductive js_ref where
  | out
  | pwd
  | salt
  | str
deriving DecidableEq, Repr

/-- What an async binding does, in order: allocations, references taken and released, the
completion handle created, the work queued, the primitive invoked on the worker thread, the
completion delivered, the frees. -/
inductive js_event where
  | alloc_request
  | alloc_task
  | create_callback_reference
  | create_promise
  | create_reference (r : js_ref)
  | queue_work
  | primitive (call : primitive_call)
  | resolve_deferred (value : js_value)
  | reject_deferred (value : js_value)
  | call_function (argv : List js_value)
  | delete_reference (r : js_ref)
  | free_request
  | free_task
deriving DecidableEq, Repr

/-- The struct `sn_async_task_t` (2210-2223) for a request type `Req`.  `deferred` and `cb`
tell whether the task holds a deferred handle and a callback reference; `code` is written by
the execute function (0 stands for its unset value before). -/
structure sn_async_task_t (Req : Type) where
  type : sn_async_task_type
  req : Req
  code : Int
  deferred : Bool
  cb : Bool

/-- Result of an async binding: the exception thrown synchronously, if any, whether a
promise is returned, and everything the call causes, in order, up to the end of the task. -/
structure async_result where
  thrown : Option kdf_thrown
  promise : Bool
  events : List js_event
deriving DecidableEq, Repr

/-- Modelled from the spec: the macro `SN_ASYNC_TASK (cb_pos)` of `macros.h`, which is not
part of the sources: the completion strategy is "chosen at call time by whether a trailing
callback argument was supplied".  With a callback the task is of callback kind and holds a
reference to it; without, it is of promise kind and holds the deferred of a new promise.
Returns the task and the events. -/
def SN_ASYNC_TASK {Req : Type} (req : Req) (cb : Option Bool) :
    sn_async_task_t Req × List js_event :=
  match cb with
  | some _ => (⟨.sn_async_task_callback, req, 0, false, true⟩, [.create_callback_reference])
  | none => (⟨.sn_async_task_promise, req, 0, true, false⟩, [.create_promise])

/-- Modelled from the spec: the macro `SN_QUEUE_TASK (task, execute, complete)` of
`macros.h`, which is not part of the sources: the work is queued, the background phase runs
the execute function ("invoke the underlying blocking primitive exactly once, capture its
numeric result code"), and the completion phase then runs the complete function on the
control thread. -/
def SN_QUEUE_TASK {Req : Type} (task : sn_async_task_t Req)
    (execute : sn_async_task_t Req → sn_async_task_t Req × List js_event)
    (complete : sn_async_task_t Req → List js_event) : List js_event :=
  js_event.queue_work :: ((execute task).2 ++ complete (execute task).1)

/-- Modelled from the spec: the macro `SN_ASYNC_COMPLETE (message)` of `macros.h`, which is
not part of the sources: "if `kind == promise`, resolve/reject a single deferred result
exactly once; if `kind == callback`, invoke the callback exactly once with `(error,
result)`", where "background execution failures surface as a rejected/err completion". -/
def SN_ASYNC_COMPLETE {Req : Type} (task : sn_async_task_t Req) : List js_event :=
  match task.type with
  | .sn_async_task_promise =>
    if task.code = 0 then [.resolve_deferred .null] else [.reject_deferred .error]
  | .sn_async_task_callback =>
    if task.code = 0 then [.call_function [.null, .undefined]]
    else [.call_function [.error, .undefined]]

/-- Modelled from the spec: the macro `SN_CALL_FUNCTION (env, global, callback, argc, argv,
result)` of `macros.h`, which is not part of the sources: the callback is invoked once with
the first `argc` values of `argv`. -/
def SN_CALL_FUNCTION (argc : Nat) (argv : List js_value) : List js_event :=
  [.call_function (argv.take argc)]

/-- The struct `sn_async_pwhash_request` (2225-2238); `opslimit`, `memlimit` and `alg` are
`uint32_t` fields. -/
structure sn_async_pwhash_request where
  out_ref : Option js_ref
  out_size : Nat
  pwd_ref : Option js_ref
  pwd_data : List Nat
  pwd_size : Nat
  salt_ref : Option js_ref
  salt : List Nat
  opslimit : Nat
  memlimit : Nat
  alg : Nat
deriving DecidableEq, Repr

/-- The event of `js_delete_reference (env, ref)` on a reference field of a request. -/
def delete_ref (r : Option js_ref) : List js_event :=
  match r with
  | some x => [.delete_reference x]
  | none => []

/-- The function `async_pwhash_execute` (2240-2251). -/
def async_pwhash_execute (prim : primitive_call → Int)
    (task : sn_async_task_t sn_async_pwhash_request) :
    sn_async_task_t sn_async_pwhash_request × List js_event :=
  let req := task.req
  let call := primitive_call.crypto_pwhash req.out_size req.pwd_data req.pwd_size req.salt
    req.opslimit req.memlimit req.alg
  ({ task with code := prim call }, [.primitive call])

/-- The function `async_pwhash_complete` (2253-2280). -/
def async_pwhash_complete (task : sn_async_task_t sn_async_pwhash_request) : List js_event :=
  let req := task.req
  SN_ASYNC_COMPLETE task
    ++ delete_ref req.out_ref ++ delete_ref req.pwd_ref ++ delete_ref req.salt_ref
    ++ [.free_request, .free_task]

/-- The validation of `sn_crypto_pwhash_async` (2293-2301). -/
def sn_crypto_pwhash_async_validate (K : pwhash_constants) (a : pwhash_args)
    (cb : Option Bool) : Option kdf_thrown :=
  SN_ASSERT_MIN_LENGTH a.out_size K.BYTES_MIN (some .out_min) <|
  SN_ASSERT_MAX_LENGTH a.out_size K.BYTES_MAX (some .out_max) <|
  SN_ASSERT_LENGTH a.salt.length K.SALTBYTES (some .salt_length) <|
  SN_ASSERT_MIN_LENGTH a.opslimit K.OPSLIMIT_MIN (some .opslimit_min) <|
  SN_ASSERT_MAX_LENGTH a.opslimit K.OPSLIMIT_MAX (some .opslimit_max) <|
  SN_ASSERT_MIN_LENGTH a.memlimit K.MEMLIMIT_MIN (some .memlimit_min) <|
  SN_ASSERT_MAX_LENGTH a.memlimit K.MEMLIMIT_MAX (some .memlimit_max) <|
  SN_THROWS (decide (a.alg < 1) || decide (a.alg > 2)) (some .alg) <|
  SN_ASSERT_OPT_CALLBACK cb (some .callback) <|
  none

/-- The function `sn_crypto_pwhash_async` (2282-2328).  The assignments to the `uint32_t`
fields of the request narrow the `uint64_t` limits modulo `2 ^ 32`. -/
def sn_crypto_pwhash_async (K : pwhash_constants) (prim : primitive_call → Int)
    (a : pwhash_args) (cb : Option Bool) : async_result :=
  match sn_crypto_pwhash_async_validate K a cb with
  | some e => ⟨some e, false, []⟩
  | none =>
    let req : sn_async_pwhash_request :=
      { out_ref := none, out_size := a.out_size, pwd_ref := none, pwd_data := a.passwd,
        pwd_size := a.passwd.length, salt_ref := none, salt := a.salt,
        opslimit := a.opslimit % 2 ^ 32, memlimit := a.memlimit % 2 ^ 32,
        alg := a.alg % 2 ^ 32 }
    let t := SN_ASYNC_TASK req cb
    let req := { req with out_ref := some .out }
    let req := { req with pwd_ref := some .pwd }
    let req := { req with salt_ref := some .salt }
    let task := { t.1 with req := req }
    ⟨none, cb.isNone,
      [.alloc_request, .alloc_task] ++ t.2
        ++ [.create_reference .out, .create_reference .pwd, .create_reference .salt]
        ++ SN_QUEUE_TASK task (async_pwhash_execute prim) async_pwhash_complete⟩

/-- The struct `sn_async_pwhash_str_request` (2330-2340) and its scrypt sibling
(2614-2624); `opslimit` and `memlimit` are `uint32_t` fields. -/
structure sn_async_pwhash_str_request where
  out_ref : Option js_ref
  pwd_ref : Option js_ref
  pwd_data : List Nat
  pwd_size : Nat
  opslimit : Nat
  memlimit : Nat
deriving DecidableEq, Repr

/-- The function `async_pwhash_str_execute` (2342-2350) and its scrypt sibling
(2626-2634). -/
def async_pwhash_str_execute (prim : primitive_call → Int)
    (task : sn_async_task_t sn_async_pwhash_str_request) :
    sn_async_task_t sn_async_pwhash_str_request × List js_event :=
  let req := task.req
  let call := primitive_call.crypto_pwhash_str req.pwd_data req.pwd_size req.opslimit
    req.memlimit
  ({ task with code := prim call }, [.primitive call])

/-- The function `async_pwhash_str_complete` (2352-2376) and its scrypt sibling
(2636-2661). -/
def async_pwhash_str_complete (task : sn_async_task_t sn_async_pwhash_str_request) :
    List js_event :=
  let req := task.req
  SN_ASYNC_COMPLETE task
    ++ delete_ref req.out_ref ++ delete_ref req.pwd_ref
    ++ [.free_request, .free_task]

/-- The validation of `sn_crypto_pwhash_str_async` (2387-2392) and of its scrypt sibling
(2672-2677). -/
def sn_crypto_pwhash_str_async_validate (K : pwhash_constants) (a : pwhash_str_args)
    (cb : Option Bool) : Option kdf_thrown :=
  SN_ASSERT_LENGTH a.out_size K.STRBYTES (some .out_length) <|
  SN_ASSERT_MIN_LENGTH a.opslimit K.OPSLIMIT_MIN (some .opslimit_min) <|
  SN_ASSERT_MAX_LENGTH a.opslimit K.OPSLIMIT_MAX (some .opslimit_max) <|
  SN_ASSERT_MIN_LENGTH a.memlimit K.MEMLIMIT_MIN (some .memlimit_min) <|
  SN_ASSERT_MAX_LENGTH a.memlimit K.MEMLIMIT_MAX (some .memlimit_max) <|
  SN_ASSERT_OPT_CALLBACK cb (some .callback) <|
  none

/-- The function `sn_crypto_pwhash_str_async` (2378-2413) and its scrypt sibling
(2663-2699). -/
def sn_crypto_pwhash_str_async (K : pwhash_constants) (prim : primitive_call → Int)
    (a : pwhash_str_args) (cb : Option Bool) : async_result :=
  match sn_crypto_pwhash_str_async_validate K a cb with
  | some e => ⟨some e, false, []⟩
  | none =>
    let req : sn_async_pwhash_str_request :=
      { out_ref := none, pwd_ref := none, pwd_data := a.passwd, pwd_size := a.passwd.length,
        opslimit := a.opslimit % 2 ^ 32, memlimit := a.memlimit % 2 ^ 32 }
    let t := SN_ASYNC_TASK req cb
    let req := { req with out_ref := some .out }
    let req := { req with pwd_ref := some .pwd }
    let task := { t.1 with req := req }
    ⟨none, cb.isNone,
      [.alloc_request, .alloc_task] ++ t.2
        ++ [.create_reference .out, .create_reference .pwd]
        ++ SN_QUEUE_TASK task (async_pwhash_str_execute prim) async_pwhash_str_complete⟩

/-- The struct `sn_async_pwhash_str_verify_request` (2415-2423) and its scrypt sibling
(2701-2709). -/
structure sn_async_pwhash_str_verify_request where
  str_ref : Option js_ref
  str_data : List Nat
  pwd_ref : Option js_ref
  pwd_data : List Nat
  pwd_size : Nat
deriving DecidableEq, Repr

/-- The function `async_pwhash_str_verify_execute` (2425-2429) and its scrypt sibling
(2711-2715). -/
def async_pwhash_str_verify_execute (prim : primitive_call → Int)
    (task : sn_async_task_t sn_async_pwhash_str_verify_request) :
    sn_async_task_t sn_async_pwhash_str_verify_request × List js_event :=
  let req := task.req
  let call := primitive_call.crypto_pwhash_str_verify req.str_data req.pwd_data req.pwd_size
  ({ task with code := prim call }, [.primitive call])

/-- The function `async_pwhash_str_verify_complete` (2431-2483) and its scrypt sibling
(2717-2770): `argv[0]` is `null`, `argv[1]` the boolean `task->code == 0`; a promise task
resolves its deferred with `argv[1]`, a callback task calls the callback with both. -/
def async_pwhash_str_verify_complete
    (task : sn_async_task_t sn_async_pwhash_str_verify_request) : List js_event :=
  let req := task.req
  let argv : List js_value := [.null, .boolean (task.code == 0)]
  (match task.type with
    | .sn_async_task_promise => [js_event.resolve_deferred (argv.getD 1 .undefined)]
    | .sn_async_task_callback => SN_CALL_FUNCTION 2 argv)
    ++ delete_ref req.str_ref ++ delete_ref req.pwd_ref
    ++ [.free_request, .free_task]

/-- The validation of `sn_crypto_pwhash_str_verify_async` (2492-2493) and of its scrypt
sibling (2779-2780). -/
def sn_crypto_pwhash_str_verify_async_validate (K : pwhash_constants)
    (a : pwhash_str_verify_args) (cb : Option Bool) : Option kdf_thrown :=
  SN_ASSERT_LENGTH a.str.length K.STRBYTES (some .str_length) <|
  SN_ASSERT_OPT_CALLBACK cb (some .callback) <|
  none

/-- The function `sn_crypto_pwhash_str_verify_async` (2485-2512) and its scrypt sibling
(2772-2799). -/
def sn_crypto_pwhash_str_verify_async (K : pwhash_constants) (prim : primitive_call → Int)
    (a : pwhash_str_verify_args) (cb : Option Bool) : async_result :=
  match sn_crypto_pwhash_str_verify_async_validate K a cb with
  | some e => ⟨some e, false, []⟩
  | none =>
    let req : sn_async_pwhash_str_verify_request :=
      { str_ref := none, str_data := a.str, pwd_ref := none, pwd_data := a.passwd,
        pwd_size := a.passwd.length }
    let t := SN_ASYNC_TASK req cb
    let req := { req with str_ref := some .str }
    let req := { req with pwd_ref := some .pwd }
    let task := { t.1 with req := req }
    ⟨none, cb.isNone,
      [.alloc_request, .alloc_task] ++ t.2
        ++ [.create_reference .str, .create_reference .pwd]
        ++ SN_QUEUE_TASK task (async_pwhash_str_verify_execute prim)
            async_pwhash_str_verify_complete⟩

/-- The struct `sn_async_pwhash_scryptsalsa208sha256_request` (2514-2527); `opslimit` and
`memlimit` are `uint32_t` fields. -/
structure sn_async_pwhash_scryptsalsa208sha256_request where
  out_ref : Option js_ref
  out_size : Nat
  pwd_ref : Option js_ref
  pwd_data : List Nat
  pwd_size : Nat
  salt_ref : Option js_ref
  salt : List Nat
  opslimit : Nat
  memlimit : Nat
deriving DecidableEq, Repr

/-- The function `async_pwhash_scryptsalsa208sha256_execute` (2529-2539). -/
def async_pwhash_scryptsalsa208sha256_execute (prim : primitive_call → Int)
    (task : sn_async_task_t sn_async_pwhash_scryptsalsa208sha256_request) :
    sn_async_task_t sn_async_pwhash_scryptsalsa208sha256_request × List js_event :=
  let req := task.req
  let call := primitive_call.crypto_pwhash_scryptsalsa208sha256 req.out_size req.pwd_data
    req.pwd_size req.salt req.opslimit req.memlimit
  ({ task with code := prim call }, [.primitive call])

/-- The function `async_pwhash_scryptsalsa208sha256_complete` (2541-2568). -/
def async_pwhash_scryptsalsa208sha256_complete
    (task : sn_async_task_t sn_async_pwhash_scryptsalsa208sha256_request) : List js_event :=
  let req := task.req
  SN_ASYNC_COMPLETE task
    ++ delete_ref req.out_ref ++ delete_ref req.pwd_ref ++ delete_ref req.salt_ref
    ++ [.free_request, .free_task]

/-- The validation of `sn_crypto_pwhash_scryptsalsa208sha256_async` (2580-2587). -/
def sn_crypto_pwhash_scryptsalsa208sha256_async_validate (K : pwhash_constants)
    (a : pwhash_args) (cb : Option Bool) : Option kdf_thrown :=
  SN_ASSERT_MIN_LENGTH a.out_size K.BYTES_MIN (some .out_min) <|
  SN_ASSERT_MAX_LENGTH a.out_size K.BYTES_MAX (some .out_max) <|
  SN_ASSERT_LENGTH a.salt.length K.SALTBYTES (some .salt_length) <|
  SN_ASSERT_MIN_LENGTH a.opslimit K.OPSLIMIT_MIN (some .opslimit_min) <|
  SN_ASSERT_MAX_LENGTH a.opslimit K.OPSLIMIT_MAX (some .opslimit_max) <|
  SN_ASSERT_MIN_LENGTH a.memlimit K.MEMLIMIT_MIN (some .memlimit_min) <|
  SN_ASSERT_MAX_LENGTH a.memlimit K.MEMLIMIT_MAX (some .memlimit_max) <|
  SN_ASSERT_OPT_CALLBACK cb (some .callback) <|
  none

/-- The function `sn_crypto_pwhash_scryptsalsa208sha256_async` (2570-2612). -/
def sn_crypto_pwhash_scryptsalsa208sha256_async (K : pwhash_constants)
    (prim : primitive_call → Int) (a : pwhash_args) (cb : Option Bool) : async_result :=
  match sn_crypto_pwhash_scryptsalsa208sha256_async_validate K a cb with
  | some e => ⟨some e, false, []⟩
  | none =>
    let req : sn_async_pwhash_scryptsalsa208sha256_request :=
      { out_ref := none, out_size := a.out_size, pwd_ref := none, pwd_data := a.passwd,
        pwd_size := a.passwd.length, salt_ref := none, salt := a.salt,
        opslimit := a.opslimit % 2 ^ 32, memlimit := a.memlimit % 2 ^ 32 }
    let t := SN_ASYNC_TASK req cb
    let req := { req with out_ref := some .out }
    let req := { req with pwd_ref := some .pwd }
    let req := { req with salt_ref := some .salt }
    let task := { t.1 with req := req }
    ⟨none, cb.isNone,
      [.alloc_request, .alloc_task] ++ t.2
        ++ [.create_reference .out, .create_reference .pwd, .create_reference .salt]
        ++ SN_QUEUE_TASK task (async_pwhash_scryptsalsa208sha256_execute prim)
            async_pwhash_scryptsalsa208sha256_complete⟩

/-- The struct `sn_async_pbkdf2_sha512_request` (3433-3446); `iter` is a `uint64_t` and
`outlen` a `size_t` field. -/
structure sn_async_pbkdf2_sha512_request where
  out_size : Nat
  out_ref : Option js_ref
  outlen : Nat
  pwd_ref : Option js_ref
  pwd_data : List Nat
  pwd_size : Nat
  salt_ref : Option js_ref
  salt_data : List Nat
  salt_size : Nat
  iter : Nat
deriving DecidableEq, Repr

/-- The function `async_pbkdf2_sha512_execute` (3448-3458). -/
def async_pbkdf2_sha512_execute (prim : primitive_call → Int)
    (task : sn_async_task_t sn_async_pbkdf2_sha512_request) :
    sn_async_task_t sn_async_pbkdf2_sha512_request × List js_event :=
  let req := task.req
  let call := primitive_call.pbkdf2_sha512 req.pwd_data req.pwd_size req.salt_data
    req.salt_size req.iter req.outlen
  ({ task with code := prim call }, [.primitive call])

/-- The function `async_pbkdf2_sha512_complete` (3460-3487). -/
def async_pbkdf2_sha512_complete (task : sn_async_task_t sn_async_pbkdf2_sha512_request) :
    List js_event :=
  let req := task.req
  SN_ASYNC_COMPLETE task
    ++ delete_ref req.out_ref ++ delete_ref req.pwd_ref ++ delete_ref req.salt_ref
    ++ [.free_request, .free_task]

/-- The validation of `sn_extension_pbkdf2_sha512_async` (3499-3502). -/
def sn_extension_pbkdf2_sha512_async_validate (K : pbkdf2_constants) (a : pbkdf2_args)
    (cb : Option Bool) : Option kdf_thrown :=
  SN_ASSERT_MIN_LENGTH a.iter K.ITERATIONS_MIN (some .iterations_min) <|
  SN_ASSERT_MAX_LENGTH a.outlen K.BYTES_MAX (some .outlen_max) <|
  SN_ASSERT_MIN_LENGTH a.out_size a.outlen (some .out_short) <|
  SN_ASSERT_OPT_CALLBACK cb (some .callback) <|
  none

/-- The function `sn_extension_pbkdf2_sha512_async` (3489-3529). -/
def sn_extension_pbkdf2_sha512_async (K : pbkdf2_constants) (prim : primitive_call → Int)
    (a : pbkdf2_args) (cb : Option Bool) : async_result :=
  match sn_extension_pbkdf2_sha512_async_validate K a cb with
  | some e => ⟨some e, false, []⟩
  | none =>
    let req : sn_async_pbkdf2_sha512_request :=
      { out_size := a.out_size, out_ref := none, outlen := a.outlen, pwd_ref := none,
        pwd_data := a.passwd, pwd_size := a.passwd.length, salt_ref := none,
        salt_data := a.salt, salt_size := a.salt.length, iter := a.iter }
    let t := SN_ASYNC_TASK req cb
    let req := { req with out_ref := some .out }
    let req := { req with pwd_ref := some .pwd }
    let req := { req with salt_ref := some .salt }
    let task := { t.1 with req := req }
    ⟨none, cb.isNone,
      [.alloc_request, .alloc_task] ++ t.2
        ++ [.create_reference .out, .create_reference .pwd, .create_reference .salt]
        ++ SN_QUEUE_TASK task (async_pbkdf2_sha512_execute prim) async_pbkdf2_sha512_complete⟩

/-! ### Reading a trace -/

/-- The buffer references taken in a trace, in order. -/
def created_refs (evs : List js_event) : List js_ref :=
  evs.filterMap (fun e => match e with
    | .create_reference r => some r
    | _ => none)

/-- The buffer references released in a trace, in order. -/
def deleted_refs (evs : List js_event) : List js_ref :=
  evs.filterMap (fun e => match e with
    | .delete_reference r => some r
    | _ => none)

/-- The primitive invocations in a trace, in order. -/
def primitive_calls (evs : List js_event) : List primitive_call :=
  evs.filterMap (fun e => match e with
    | .primitive c => some c
    | _ => none)

/-- The values a deferred is settled with in a trace: resolutions and rejections. -/
def deferred_actions (evs : List js_event) : List js_event :=
  evs.filter (fun e => match e with
    | .resolve_deferred _ => true
    | .reject_deferred _ => true
    | _ => false)

/-- The callback invocations in a trace. -/
def callback_actions (evs : List js_event) : List js_event :=
  evs.filter (fun e => match e with
    | .call_function _ => true
    | _ => false)

/-- The constants `crypto_pwhash_*` of libsodium on a 64-bit platform (Argon2id):
`BYTES_MIN` 16, `BYTES_MAX` 4294967295, `SALTBYTES` 16, `STRBYTES` 128, `OPSLIMIT` 1 to
4294967295, `MEMLIMIT` 8192 to 4398046510080. -/
def crypto_pwhash_constants : pwhash_constants where
  BYTES_MIN := 16
  BYTES_MAX := 4294967295
  SALTBYTES := 16
  STRBYTES := 128
  OPSLIMIT_MIN := 1
  OPSLIMIT_MAX := 4294967295
  MEMLIMIT_MIN := 8192
  MEMLIMIT_MAX := 4398046510080

/-- A primitive that always succeeds, used to run the bindings on concrete inputs. -/
def prim_ok (_ : primitive_call) : Int := 0

/-- A primitive that always fails, used to run the bindings on concrete inputs. -/
def prim_fail (_ : primitive_call) : Int := -1

/-- A `crypto_pwhash` argument tuple with a 32-byte output, a 16-byte salt, `opslimit` 2,
`alg` 2 (Argon2id) and a memory limit of 4 GiB + 64 MiB, inside the accepted range. -/
def demo_pwhash_args : pwhash_args :=
  ⟨32, [112, 119], List.replicate 16 1, 2, 4362076160, 2⟩

/-- A task of the given kind and result code for a verify request. -/
def demo_verify_task (type : sn_async_task_type) (code : Int) :
    sn_async_task_t sn_async_pwhash_str_verify_request :=
  ⟨type, ⟨some .str, List.replicate 128 0, some .pwd, [112, 119], 2⟩, code,
    type == .sn_async_task_promise, type == .sn_async_task_callback⟩

/-- A trace in which the buffer references `R` are taken before the single primitive
invocation and released, each once and in the same order, only after it. -/
def refs_released_after_work (evs : List js_event) (R : List js_ref) : Prop :=
  ∃ pre call post, evs = pre ++ js_event.primitive call :: post ∧
    primitive_calls pre = [] ∧ primitive_calls post = [] ∧
    created_refs pre = R ∧ created_refs post = [] ∧
    deleted_refs pre = [] ∧ deleted_refs post = R ∧ R.Nodup

/-- A task of the given kind and result code for a `crypto_pwhash` request. -/
def demo_pwhash_task (type : sn_async_task_type) (code : Int) :
    sn_async_task_t sn_async_pwhash_request :=
  ⟨type, ⟨some .out, 32, some .pwd, [112, 119], 2, some .salt, List.replicate 16 1, 2, 8192, 2⟩,
    code, type == .sn_async_task_promise, type == .sn_async_task_callback⟩

/-- The completion actions in a trace: the settlements of a deferred and the callback
invocations, in order. -/
def completion_actions (evs : List js_event) : List js_event :=
  evs.filter (fun e => match e with
    | .resolve_deferred _ => true
    | .reject_deferred _ => true
    | .call_function _ => true
    | _ => false)

/-- An error completion: a rejected deferred, or a callback invoked with a first argument
that is not `null`. -/
def is_error_completion (e : js_event) : Bool :=
  match e with
  | .reject_deferred _ => true
  | .call_function (.null :: _) => false
  | .call_function (_ :: _) => true
  | _ => false

/-- A success completion: a resolved deferred, or a callback invoked with `null` as its
first argument. -/
def is_success_completion (e : js_event) : Bool :=
  match e with
  | .resolve_deferred _ => true
  | .call_function (.null :: _) => true
  | _ => false

/-! ## Lemmas on the keystream XOR -/

theorem xor_from_length (ks : Nat → Nat) (m : List Nat) :
    ∀ pos, (xor_from ks pos m).length = m.length := by
  induction m with
  | nil => intro pos; rfl
  | cons b m ih => intro pos; simp [xor_from, ih]

theorem xor_from_append (ks : Nat → Nat) (a b : List Nat) :
    ∀ pos, xor_from ks pos (a ++ b) = xor_from ks pos a ++ xor_from ks (pos + a.length) b := by
  induction a with
  | nil => intro pos; simp [xor_from]
  | cons x a ih =>
    intro pos
    have h : pos + 1 + a.length = pos + (a.length + 1) := by omega
    show (x ^^^ ks pos) :: xor_from ks (pos + 1) (a ++ b) = _
    rw [ih (pos + 1), h]
    rfl

theorem xor_from_congr (ks ks2 : Nat → Nat) (m : List Nat) :
    ∀ p q, (∀ i, i < m.length → ks (p + i) = ks2 (q + i)) →
      xor_from ks p m = xor_from ks2 q m := by
  induction m with
  | nil => intro p q _; rfl
  | cons b m ih =>
    intro p q h
    have h0 := h 0 (by simp)
    simp only [Nat.add_zero] at h0
    simp only [xor_from, h0]
    congr 1
    apply ih
    intro i hi
    have := h (i + 1) (by simp; omega)
    have e1 : p + 1 + i = p + (i + 1) := by omega
    have e2 : q + 1 + i = q + (i + 1) := by omega
    rw [e1, e2]; exact this

theorem xor_from_take (ks : Nat → Nat) (m : List Nat) :
    ∀ pos j, (xor_from ks pos m).take j = xor_from ks pos (m.take j) := by
  induction m with
  | nil => intro pos j; simp [xor_from]
  | cons b m ih =>
    intro pos j
    cases j with
    | zero => simp [xor_from]
    | succ j => simp [xor_from, ih]

theorem xor_from_getD (ks : Nat → Nat) (m : List Nat) :
    ∀ pos i, i < m.length → (xor_from ks pos m).getD i 0 = m.getD i 0 ^^^ ks (pos + i) := by
  induction m with
  | nil => intro pos i h; simp at h
  | cons b m ih =>
    intro pos i h
    cases i with
    | zero => simp [xor_from]
    | succ i =>
      have hi : i < m.length := by simpa using h
      have e : pos + 1 + i = pos + (i + 1) := by omega
      simp only [xor_from, List.getD_cons_succ, ih (pos + 1) i hi, e]

theorem getD_replicate_zero (z : Nat) : ∀ i, (List.replicate z 0).getD i 0 = 0 := by
  induction z with
  | zero => intro i; simp
  | succ z ih =>
    intro i
    cases i with
    | zero => simp [List.replicate_succ]
    | succ i => simp [List.replicate_succ, ih i]

theorem keystream_wrap (block : List Nat → List Nat → Nat → Nat → Nat) (n k : List Nat)
    (x i : Nat) :
    keystream block n k (64 * (x % 2 ^ 64) + i) = keystream block n k (64 * x + i) := by
  unfold keystream
  have h1 : (64 * (x % 2 ^ 64) + i) / 64 % 2 ^ 64 = (64 * x + i) / 64 % 2 ^ 64 := by omega
  have h2 : (64 * (x % 2 ^ 64) + i) % 64 = (64 * x + i) % 64 := by omega
  rw [h1, h2]

theorem gap_loop_spec (ks : Nat → Nat) (base : Nat) (next_block : List Nat) (m : List Nat) :
    ∀ rem : Nat, rem ≤ 64 →
      (∀ j, rem ≤ j → j < 64 → next_block.getD j 0 = ks (base + j)) →
      gap_loop next_block (rem : Int) m =
        (xor_from ks (base + rem) (m.take (64 - rem)),
          ((rem + min (64 - rem) m.length : Nat) : Int)) := by
  induction m with
  | nil => intro rem _ _; simp [gap_loop, xor_from]
  | cons b m ih =>
    intro rem hle hc
    by_cases h : rem < 64
    · have hlt : (rem : Int) < 64 := by omega
      have e : (rem : Int) + 1 = ((rem + 1 : Nat) : Int) := by push_cast; rfl
      have ht : 64 - rem = (64 - (rem + 1)) + 1 := by omega
      simp only [gap_loop, hlt, if_true, e]
      rw [ih (rem + 1) (by omega) (fun j h1 h2 => hc j (by omega) h2)]
      rw [ht, List.take_succ_cons]
      simp only [xor_from, Int.toNat_ofNat, hc rem (Nat.le_refl _) h, List.length_cons]
      refine Prod.ext ?_ ?_
      · simp only
        rw [Nat.xor_comm]
        have : base + rem + 1 = base + (rem + 1) := by omega
        rw [this]
      · simp only
        congr 1
        omega
    · have h64 : rem = 64 := by omega
      subst h64
      simp [gap_loop, xor_from]

theorem narrow_ic (F : Family) (bc : Nat) (hb : bc < 2 ^ 64)
    (h : F.ic_bits < 64 → bc < 2 ^ F.ic_bits) : bc % 2 ^ F.ic_bits = bc := by
  apply Nat.mod_eq_of_lt
  by_cases hw : F.ic_bits < 64
  · exact h hw
  · exact lt_of_lt_of_le hb (Nat.pow_le_pow_right (by decide) (by omega))

theorem ic_range (F : Family) (hw : F.ic_bits < 64) : 2 ^ F.ic_bits < 2 ^ 64 :=
  Nat.pow_lt_pow_right (by decide) hw

theorem update_blocks_spec (F : Family) (block : List Nat → List Nat → Nat → Nat → Nat)
    (hspec : xor_ic_spec F.xor_ic block) (n k : List Nat) (T : Nat)
    (st : sn_crypto_stream_xor_state) (m : List Nat)
    (hn : st.n = n) (hk : st.k = k) (hT : T % 64 = 0)
    (hbc : st.block_counter = T / 64 % 2 ^ 64)
    (hnar : F.ic_bits < 64 → T + m.length ≤ 64 * 2 ^ F.ic_bits) :
    (update_blocks F st m).2 = xor_from (keystream block n k) T m ∧
      session_inv block n k (T + m.length) (update_blocks F st m).1 := by
  have hand : m.length &&& 63 = m.length % 64 := Nat.and_pow_two_sub_one_eq_mod m.length 6
  have hq : ∀ i, keystream block n k (64 * (T / 64 % 2 ^ 64) + i) = keystream block n k (T + i) := by
    intro i
    rw [keystream_wrap]
    congr 1; omega
  have hq2 : ∀ i, keystream block n k
      (64 * ((T / 64 % 2 ^ 64 + (m.length - m.length % 64) / 64) % 2 ^ 64) + i)
        = keystream block n k (T + (m.length - m.length % 64) + i) := by
    intro i
    rw [keystream_wrap]
    unfold keystream
    have h1 : (64 * (T / 64 % 2 ^ 64 + (m.length - m.length % 64) / 64) + i) / 64 % 2 ^ 64
        = (T + (m.length - m.length % 64) + i) / 64 % 2 ^ 64 := by omega
    have h2 : (64 * (T / 64 % 2 ^ 64 + (m.length - m.length % 64) / 64) + i) % 64
        = (T + (m.length - m.length % 64) + i) % 64 := by omega
    rw [h1, h2]
  have hc1 : F.xor_ic (m.take (m.length - m.length % 64)) n
        (T / 64 % 2 ^ 64 % 2 ^ F.ic_bits) k
      = xor_from (keystream block n k) T (m.take (m.length - m.length % 64)) := by
    by_cases hq0 : m.length - m.length % 64 = 0
    · rw [hq0, List.take_zero, hspec]
      rfl
    · have hnic : T / 64 % 2 ^ 64 % 2 ^ F.ic_bits = T / 64 % 2 ^ 64 :=
        narrow_ic F _ (Nat.mod_lt _ (by decide)) (fun hw => by
          have h1 := hnar hw
          have h2 := ic_range F hw
          omega)
      rw [hnic, hspec]
      exact xor_from_congr _ _ _ _ _ (fun i _ => hq i)
  by_cases hr : m.length % 64 = 0
  · have hr2 : ((m.length % 64 : Nat) : Int) = 0 := by omega
    simp only [update_blocks, hand, hn, hk, hbc, hr2, ne_eq, not_true_eq_false, if_false, hc1]
    simp only [hr, Nat.sub_zero, List.take_length, true_and]
    refine ⟨rfl, rfl, ?_, ?_, ?_⟩
    · show (0 : Int) = _
      omega
    · show (T / 64 % 2 ^ 64 + m.length / 64) % 2 ^ 64 = _
      omega
    · intro h; omega
  · have hr2 : ¬ ((m.length % 64 : Nat) : Int) = 0 := by omega
    simp only [update_blocks, hand, hn, hk, hbc, hr2, ne_eq, not_false_eq_true, if_true, hc1]
    have hdl : (m.drop (m.length - m.length % 64)).length = m.length % 64 := by
      rw [List.length_drop]; omega
    have htk : (m.drop (m.length - m.length % 64)).take (m.length % 64)
        = m.drop (m.length - m.length % 64) := List.take_of_length_le (by omega)
    have hnb : F.xor_ic (m.drop (m.length - m.length % 64)
          ++ List.replicate (64 - m.length % 64) 0) n
          ((T / 64 % 2 ^ 64 + (m.length - m.length % 64) / 64) % 2 ^ 64 % 2 ^ F.ic_bits) k
        = xor_from (keystream block n k) (T + (m.length - m.length % 64))
            (m.drop (m.length - m.length % 64) ++ List.replicate (64 - m.length % 64) 0) := by
      have hnic : (T / 64 % 2 ^ 64 + (m.length - m.length % 64) / 64) % 2 ^ 64
            % 2 ^ F.ic_bits
          = (T / 64 % 2 ^ 64 + (m.length - m.length % 64) / 64) % 2 ^ 64 :=
        narrow_ic F _ (Nat.mod_lt _ (by decide)) (fun hw => by
          have h1 := hnar hw
          have h2 := ic_range F hw
          omega)
      rw [hnic, hspec]
      exact xor_from_congr _ _ _ _ _ (fun i _ => hq2 i)
    rw [htk, hnb]
    constructor
    · show _ ++ List.take _ _ = _
      have hl : (m.take (m.length - m.length % 64)).length = m.length - m.length % 64 := by
        rw [List.length_take]; omega
      have hsplit : xor_from (keystream block n k) T m
          = xor_from (keystream block n k) T (m.take (m.length - m.length % 64))
            ++ xor_from (keystream block n k) (T + (m.length - m.length % 64))
              (m.drop (m.length - m.length % 64)) := by
        conv_lhs => rw [← List.take_append_drop (m.length - m.length % 64) m]
        rw [xor_from_append, hl]
      rw [xor_from_take, List.take_append_of_le_length (by rw [hdl]), htk, hsplit]
    · refine ⟨rfl, rfl, ?_, ?_, ?_⟩
      · show ((m.length % 64 : Nat) : Int) = _
        congr 1; omega
      · show ((T / 64 % 2 ^ 64 + (m.length - m.length % 64) / 64) % 2 ^ 64 + 1) % 2 ^ 64 = _
        omega
      · intro _ j hj1 hj2
        show List.getD (xor_from _ _ _) j 0 = _
        rw [xor_from_getD _ _ _ _ (by simp [hdl]; omega)]
        rw [List.getD_append_right _ _ _ _ (by omega)]
        rw [getD_replicate_zero]
        rw [Nat.zero_xor]
        congr 1
        omega

theorem update_step (F : Family) (block : List Nat → List Nat → Nat → Nat → Nat)
    (hspec : xor_ic_spec F.xor_ic block) (n k : List Nat) (T : Nat)
    (st : sn_crypto_stream_xor_state) (c m : List Nat)
    (hinv : session_inv block n k T st) (hlen : c.length = m.length)
    (hnar : F.ic_bits < 64 → T + m.length ≤ 64 * 2 ^ F.ic_bits) :
    (sn_crypto_stream_xor_wrap_update F F.STATEBYTES st c m).thrown = none ∧
      (sn_crypto_stream_xor_wrap_update F F.STATEBYTES st c m).c
        = xor_from (keystream block n k) T m ∧
      session_inv block n k (T + m.length)
        (sn_crypto_stream_xor_wrap_update F F.STATEBYTES st c m).state := by
  obtain ⟨hn, hk, hrem, hbc, hcache⟩ := hinv
  by_cases h0 : T % 64 = 0
  · have hr0 : st.remainder = 0 := by rw [hrem]; omega
    have hb := update_blocks_spec F block hspec n k T st m hn hk h0 (by rw [hbc]; omega)
      hnar
    simp only [sn_crypto_stream_xor_wrap_update, SN_THROWS, bne_self_eq_false, hlen, hr0,
      ne_eq, not_true_eq_false, if_false, Bool.false_eq_true]
    exact ⟨trivial, hb.1, hb.2⟩
  · have hr0 : ¬ st.remainder = 0 := by rw [hrem]; omega
    have hg := gap_loop_spec (keystream block n k) (T / 64 * 64) st.next_block m (T % 64)
      (by omega) (hcache h0)
    have hbase : T / 64 * 64 + T % 64 = T := by omega
    have hr1 : ¬ ((T % 64 : Nat) : Int) = 0 := by omega
    rw [hbase] at hg
    simp only [sn_crypto_stream_xor_wrap_update, SN_THROWS, bne_self_eq_false, hlen, hr1,
      ne_eq, not_false_eq_true, if_true, if_false, Bool.false_eq_true, hrem, hg,
      xor_from_length, List.length_take, List.length_drop]
    by_cases hfit : m.length ≤ 64 - T % 64
    · have hz : m.length - min (64 - T % 64) m.length = 0 := by omega
      simp only [hz, if_true]
      refine ⟨trivial, ?_, hn, hk, ?_, ?_, ?_⟩
      · show xor_from _ _ (m.take _) = _
        rw [List.take_of_length_le hfit]
      · show (if ((T % 64 + min (64 - T % 64) m.length : Nat) : Int) = 64 then (0 : Int)
            else ((T % 64 + min (64 - T % 64) m.length : Nat) : Int)) = _
        split <;> omega
      · show st.block_counter = _
        rw [hbc]; omega
      · intro hne j hj1 hj2
        show st.next_block.getD j 0 = _
        rw [hcache h0 j (by omega) hj2]
        congr 1
        omega
    · have hz : ¬ m.length - min (64 - T % 64) m.length = 0 := by omega
      have hmin : min (64 - T % 64) m.length = 64 - T % 64 := by omega
      have h64 : ((T % 64 + (64 - T % 64) : Nat) : Int) = 64 := by omega
      have hz2 : ¬ m.length - (64 - T % 64) = 0 := by omega
      simp only [hz, hz2, if_false, hmin, h64, if_true]
      have hb := update_blocks_spec F block hspec n k (T + (64 - T % 64))
        { st with remainder := 0 } (m.drop (64 - T % 64)) hn hk (by omega)
        (by show st.block_counter = _; rw [hbc]; omega)
        (fun hw => by
          have h1 := hnar hw
          rw [List.length_drop]
          omega)
      refine ⟨trivial, ?_, ?_⟩
      · show _ ++ (update_blocks F _ _).2 = _
        rw [hb.1]
        have hl : (m.take (64 - T % 64)).length = 64 - T % 64 := by
          rw [List.length_take]; omega
        conv_rhs => rw [← List.take_append_drop (64 - T % 64) m]
        rw [xor_from_append, hl]
      · have e : T + (64 - T % 64) + (m.drop (64 - T % 64)).length = T + m.length := by
          rw [List.length_drop]; omega
        have := hb.2
        rw [e] at this
        exact this

theorem xor_session_spec (F : Family) (block : List Nat → List Nat → Nat → Nat → Nat)
    (hspec : xor_ic_spec F.xor_ic block) (n k : List Nat) (ms : List (List Nat)) :
    ∀ (T : Nat) (st : sn_crypto_stream_xor_state), session_inv block n k T st →
      (F.ic_bits < 64 → T + ms.flatten.length ≤ 64 * 2 ^ F.ic_bits) →
      ∃ st2, xor_session F F.STATEBYTES st ms
          = some (st2, xor_from (keystream block n k) T ms.flatten) ∧
        session_inv block n k (T + ms.flatten.length) st2 := by
  induction ms with
  | nil => intro T st h _; exact ⟨st, rfl, by simpa using h⟩
  | cons m ms ih =>
    intro T st h hnar
    have hfl : (m :: ms).flatten.length = m.length + ms.flatten.length := by
      rw [List.flatten_cons, List.length_append]
    obtain ⟨h1, h2, h3⟩ := update_step F block hspec n k T st (List.replicate m.length 0) m h
      (by simp) (fun hw => by
        have h1 := hnar hw
        rw [hfl] at h1
        omega)
    obtain ⟨st2, h4, h5⟩ := ih (T + m.length) _ h3 (fun hw => by
      have h1 := hnar hw
      rw [hfl] at h1
      omega)
    refine ⟨st2, ?_, ?_⟩
    · simp only [xor_session, h1, h4, h2, List.flatten_cons, xor_from_append]
    · simpa [Nat.add_assoc] using h5

theorem update_blocks_counters (F : Family) (T : Nat) (st : sn_crypto_stream_xor_state)
    (m : List Nat) (hT : T % 64 = 0) (hbc : st.block_counter = T / 64 % 2 ^ 64) :
    (update_blocks F st m).1.remainder = (((T + m.length) % 64 : Nat) : Int) ∧
      (update_blocks F st m).1.block_counter = (T + m.length + 63) / 64 % 2 ^ 64 ∧
      (update_blocks F st m).1.n = st.n ∧ (update_blocks F st m).1.k = st.k := by
  have hand : m.length &&& 63 = m.length % 64 := Nat.and_pow_two_sub_one_eq_mod m.length 6
  by_cases hr : m.length % 64 = 0
  · have hr2 : ((m.length % 64 : Nat) : Int) = 0 := by omega
    simp only [update_blocks, hand, hbc, hr2, ne_eq, not_true_eq_false, if_false]
    refine ⟨?_, ?_, trivial, trivial⟩
    · show (0 : Int) = _
      omega
    · show (T / 64 % 2 ^ 64 + (m.length - m.length % 64) / 64) % 2 ^ 64 = _
      omega
  · have hr2 : ¬ ((m.length % 64 : Nat) : Int) = 0 := by omega
    simp only [update_blocks, hand, hbc, hr2, ne_eq, not_false_eq_true, if_true]
    refine ⟨?_, ?_, trivial, trivial⟩
    · show ((m.length % 64 : Nat) : Int) = _
      congr 1; omega
    · show ((T / 64 % 2 ^ 64 + (m.length - m.length % 64) / 64) % 2 ^ 64 + 1) % 2 ^ 64 = _
      omega

theorem update_counters (F : Family) (T : Nat) (st : sn_crypto_stream_xor_state)
    (c m : List Nat) (hrem : st.remainder = ((T % 64 : Nat) : Int))
    (hbc : st.block_counter = (T + 63) / 64 % 2 ^ 64) (hlen : c.length = m.length) :
    (sn_crypto_stream_xor_wrap_update F F.STATEBYTES st c m).thrown = none ∧
      (sn_crypto_stream_xor_wrap_update F F.STATEBYTES st c m).state.remainder
        = (((T + m.length) % 64 : Nat) : Int) ∧
      (sn_crypto_stream_xor_wrap_update F F.STATEBYTES st c m).state.block_counter
        = (T + m.length + 63) / 64 % 2 ^ 64 ∧
      (sn_crypto_stream_xor_wrap_update F F.STATEBYTES st c m).state.n = st.n ∧
      (sn_crypto_stream_xor_wrap_update F F.STATEBYTES st c m).state.k = st.k := by
  by_cases h0 : T % 64 = 0
  · have hr0 : st.remainder = 0 := by rw [hrem]; omega
    have hb := update_blocks_counters F T st m h0 (by rw [hbc]; omega)
    simp only [sn_crypto_stream_xor_wrap_update, SN_THROWS, bne_self_eq_false, hlen, hr0,
      ne_eq, not_true_eq_false, if_false, Bool.false_eq_true]
    exact ⟨trivial, hb⟩
  · have hg := gap_loop_spec (fun j => st.next_block.getD j 0) 0 st.next_block m (T % 64)
      (by omega) (fun j _ _ => by simp)
    have hr1 : ¬ ((T % 64 : Nat) : Int) = 0 := by omega
    simp only [sn_crypto_stream_xor_wrap_update, SN_THROWS, bne_self_eq_false, hlen, hr1,
      ne_eq, not_false_eq_true, if_true, if_false, Bool.false_eq_true, hrem, hg,
      xor_from_length, List.length_take, List.length_drop]
    by_cases hfit : m.length ≤ 64 - T % 64
    · have hz : m.length - min (64 - T % 64) m.length = 0 := by omega
      simp only [hz, if_true]
      refine ⟨trivial, ?_, ?_, trivial, trivial⟩
      · show (if ((T % 64 + min (64 - T % 64) m.length : Nat) : Int) = 64 then (0 : Int)
            else ((T % 64 + min (64 - T % 64) m.length : Nat) : Int)) = _
        split <;> omega
      · show st.block_counter = _
        rw [hbc]; omega
    · have hz : ¬ m.length - min (64 - T % 64) m.length = 0 := by omega
      have hmin : min (64 - T % 64) m.length = 64 - T % 64 := by omega
      have h64 : ((T % 64 + (64 - T % 64) : Nat) : Int) = 64 := by omega
      have hz2 : ¬ m.length - (64 - T % 64) = 0 := by omega
      simp only [hz, hz2, if_false, hmin, h64, if_true]
      have hb := update_blocks_counters F (T + (64 - T % 64))
        { st with remainder := 0 } (m.drop (64 - T % 64)) (by omega)
        (by show st.block_counter = _; rw [hbc]; omega)
      have e : T + (64 - T % 64) + (m.drop (64 - T % 64)).length = T + m.length := by
        rw [List.length_drop]; omega
      rw [e] at hb
      exact ⟨trivial, hb⟩

theorem xor_session_counters (F : Family) (ms : List (List Nat)) :
    ∀ (T : Nat) (st : sn_crypto_stream_xor_state),
      st.remainder = ((T % 64 : Nat) : Int) → st.block_counter = (T + 63) / 64 % 2 ^ 64 →
      ∃ st2 out, xor_session F F.STATEBYTES st ms = some (st2, out) ∧
        st2.remainder = (((T + ms.flatten.length) % 64 : Nat) : Int) ∧
        st2.block_counter = (T + ms.flatten.length + 63) / 64 % 2 ^ 64 ∧
        st2.n = st.n ∧ st2.k = st.k := by
  induction ms with
  | nil => intro T st h1 h2; exact ⟨st, [], rfl, by simpa using h1, by simpa using h2, rfl, rfl⟩
  | cons m ms ih =>
    intro T st h1 h2
    obtain ⟨a1, a2, a3, a4, a5⟩ :=
      update_counters F T st (List.replicate m.length 0) m h1 h2 (by simp)
    obtain ⟨st2, out, b1, b2, b3, b4, b5⟩ := ih (T + m.length) _ a2 a3
    refine ⟨st2, (sn_crypto_stream_xor_wrap_update F F.STATEBYTES st
      (List.replicate m.length 0) m).c ++ out, ?_, ?_, ?_, ?_, ?_⟩
    · simp only [xor_session, a1, b1]
    · simpa [Nat.add_assoc] using b2
    · simpa [Nat.add_assoc] using b3
    · rw [b4, a4]
    · rw [b5, a5]


theorem init_accepted (F : Family) (st : sn_crypto_stream_xor_state) (n k : List Nat)
    (hn : n.length = F.NONCEBYTES) (hk : k.length = F.KEYBYTES) :
    sn_crypto_stream_xor_wrap_init F F.STATEBYTES st n k
      = ⟨none, { st with remainder := 0, block_counter := 0, n := n, k := k }⟩ := by
  have h1 : n.take F.NONCEBYTES = n := List.take_of_length_le (by omega)
  have h2 : k.take F.KEYBYTES = k := List.take_of_length_le (by omega)
  simp only [sn_crypto_stream_xor_wrap_init, SN_THROWS, SN_ASSERT_LENGTH, hn, hk, h1, h2,
    bne_self_eq_false, Bool.false_eq_true, if_false]

/-! ## Lemmas on the secretstream binding -/

theorem store_full (buf written : List Nat) (h : buf.length = written.length) :
    store buf written = written := by
  unfold store
  rw [List.drop_of_length_le (by omega), List.append_nil]

theorem ad_bytes_whole (ad : List Nat) : ad_bytes ad 0 ad.length = some ad := by
  unfold ad_bytes
  by_cases h : ad.length = 0
  · have : ad = [] := List.length_eq_zero.mp h
    subst this
    rfl
  · have h2 : (ad.length + 0) % 2 ^ 32 ≤ ad.length := by
      rw [Nat.add_zero]; exact Nat.mod_le _ _
    simp only [ne_eq, h, not_false_eq_true, if_true, h2, List.drop_zero, List.take_length]

theorem to_int64_small (x : Nat) (h : x < 2 ^ 32) : to_int64 x = (x : Int) := by
  unfold to_int64
  have h1 : x % 2 ^ 64 = x := Nat.mod_eq_of_lt (by omega)
  rw [h1]
  have h2 : x < 2 ^ 63 := by omega
  simp only [h2, if_true]

theorem push_pull_chunks {S : Type} (P : secretstream S) (matched : S → S → Prop)
    (hP : roundtrip_contract P matched) (chunks : List chunk) :
    ∀ (s1 s2 : S), matched s1 s2 → (∀ ch ∈ chunks, chunk_ok P.ABYTES ch) →
      ∃ cs, push_all P s1 chunks = some cs ∧
        cs.map Prod.fst = chunks.map (fun ch => ((ch.m.length + P.ABYTES : Nat) : Int)) ∧
        pull_all P s2 ((cs.map Prod.snd).zip (chunks.map chunk.ad))
          = some (chunks.map (fun ch => (((ch.m.length : Nat) : Int), ch.m, [ch.tag]))) := by
  induction chunks with
  | nil => intro s1 s2 _ _; exact ⟨[], rfl, rfl, rfl⟩
  | cons ch rest ih =>
    intro s1 s2 hm hok
    obtain ⟨htag, hlen, hadlen⟩ := hok ch (List.mem_cons_self _ _)
    have htag4 : ch.tag < 4 := by
      simp only [valid_tags, TAG_MESSAGE, TAG_PUSH, TAG_REKEY, TAG_FINAL, List.mem_cons,
        List.mem_singleton, List.not_mem_nil, or_false] at htag
      omega
    have htag256 : ch.tag % 256 = ch.tag := Nat.mod_eq_of_lt (by omega)
    obtain ⟨p1, p2, p3, q1, q2, q3, q4, hm2⟩ := hP.step s1 s2 ch.m ch.ad ch.tag hm htag4
    obtain ⟨cs, c1, c2, c3⟩ := ih _ _ hm2 (fun x hx => hok x (List.mem_cons_of_mem _ hx))
    have hpc : push_length_check P.ABYTES ch.m.length
        (List.replicate (ch.m.length + P.ABYTES) 0).length = true := by
      simp only [push_length_check, List.length_replicate, Nat.mod_eq_of_lt hlen, beq_self_eq_true,
        Bool.true_and, decide_eq_true_eq]
      omega
    have hpush : sn_crypto_secretstream_xchacha20poly1305_push P s1 P.STATEBYTES
        (List.replicate (ch.m.length + P.ABYTES) 0) ch.m ch.ad 0 ch.ad.length ch.tag
        = some ⟨((ch.m.length + P.ABYTES : Nat) : Int), (P.push s1 ch.m ch.ad ch.tag).state,
            (P.push s1 ch.m ch.ad ch.tag).c⟩ := by
      have hs : store (List.replicate (ch.m.length + P.ABYTES) 0) (P.push s1 ch.m ch.ad ch.tag).c
          = (P.push s1 ch.m ch.ad ch.tag).c := store_full _ _ (by simp [p2])
      simp only [sn_crypto_secretstream_xchacha20poly1305_push, ne_eq, not_true_eq_false,
        if_false, hpc, Bool.not_eq_true, ad_bytes_whole, htag256, p1, p3, hs,
        to_int64_small _ hlen]
      simp
    have hlc : pull_length_check P.ABYTES (P.push s1 ch.m ch.ad ch.tag).c.length
        (List.replicate ((P.push s1 ch.m ch.ad ch.tag).c.length - P.ABYTES) 0).length
        ([0] : List Nat).length = true := by
      have e : (ch.m.length + P.ABYTES + 2 ^ 32 - P.ABYTES) % 2 ^ 32 = ch.m.length := by
        have : ch.m.length + P.ABYTES + 2 ^ 32 - P.ABYTES = ch.m.length + 2 ^ 32 := by omega
        rw [this]
        omega
      simp only [pull_length_check, p2, List.length_replicate, Nat.add_sub_cancel, e,
        List.length_singleton, beq_self_eq_true, Bool.and_true, Bool.true_and,
        Bool.and_eq_true, decide_eq_true_eq]
      omega
    have hpull : sn_crypto_secretstream_xchacha20poly1305_pull P s2 P.STATEBYTES
        (List.replicate ((P.push s1 ch.m ch.ad ch.tag).c.length - P.ABYTES) 0) [0]
        (P.push s1 ch.m ch.ad ch.tag).c ch.ad 0 ch.ad.length
        = some ⟨((ch.m.length : Nat) : Int),
            (P.pull s2 (P.push s1 ch.m ch.ad ch.tag).c ch.ad).state, ch.m, [ch.tag]⟩ := by
      have hs1 : store (List.replicate ((P.push s1 ch.m ch.ad ch.tag).c.length - P.ABYTES) 0)
          ch.m = ch.m := store_full _ _ (by simp [p2])
      have hs2 : store [0] [ch.tag] = [ch.tag] := store_full _ _ rfl
      simp only [sn_crypto_secretstream_xchacha20poly1305_pull, ne_eq, not_true_eq_false,
        if_false, hlc, Bool.not_eq_true, ad_bytes_whole, q1, q2, q3, q4, hs1, hs2,
        to_int64_small _ (by omega : ch.m.length < 2 ^ 32)]
      simp
    refine ⟨(((ch.m.length + P.ABYTES : Nat) : Int), (P.push s1 ch.m ch.ad ch.tag).c) :: cs,
      ?_, ?_, ?_⟩
    · simp only [push_all, hpush, c1]
    · simp only [List.map_cons, c2]
    · have hz : (List.map Prod.snd ((((ch.m.length + P.ABYTES : Nat) : Int),
          (P.push s1 ch.m ch.ad ch.tag).c) :: cs)).zip (List.map chunk.ad (ch :: rest))
          = ((P.push s1 ch.m ch.ad ch.tag).c, ch.ad)
            :: (List.map Prod.snd cs).zip (List.map chunk.ad rest) := rfl
      rw [hz, pull_all, hpull]
      simp only [c3, List.map_cons]

theorem toy_roundtrip_contract : roundtrip_contract toy_secretstream Eq where
  init := by
    intro s1 s2 rnd k _
    refine ⟨rfl, ?_, rfl, rfl⟩
    simp only [toy_secretstream, List.length_append, List.length_take, List.length_replicate]
    omega
  step := by
    intro s1 s2 m ad tag hm _
    subst hm
    have hl : ([tag] ++ m ++ List.replicate 16 ((s1 + ad.sum) % 256)).length = m.length + 17 := by
      simp only [List.length_append, List.length_singleton, List.length_replicate]; omega
    have hd : ([tag] ++ m ++ List.replicate 16 ((s1 + ad.sum) % 256)).drop (m.length + 17 - 16)
        = List.replicate 16 ((s1 + ad.sum) % 256) := by
      apply List.drop_left'
      simp only [List.length_append, List.length_singleton]; omega
    have hc : 17 ≤ m.length + 17 ∧
        ([tag] ++ m ++ List.replicate 16 ((s1 + ad.sum) % 256)).drop (m.length + 17 - 16)
          = List.replicate 16 ((s1 + ad.sum) % 256) := ⟨by omega, hd⟩
    simp only [toy_secretstream, hl, hc, and_self, if_true]
    refine ⟨trivial, trivial, trivial, trivial, ?_, ?_, ?_, trivial⟩
    · simp
    · omega
    · simp

/-! ## Lemmas on the return conversion -/

theorem to_int64_nonneg (x : Nat) (h : x < 2 ^ 63) : to_int64 x = (x : Int) := by
  unfold to_int64
  have h1 : x % 2 ^ 64 = x := Nat.mod_eq_of_lt (by omega)
  rw [h1]
  simp only [h, if_true]

/-! ## Lemmas on the async bindings -/

theorem opt_callback_accepts {α : Type} (cb : Option Bool) (hcb : cb ≠ some false)
    (message rest : α) : SN_ASSERT_OPT_CALLBACK cb message rest = rest := by
  cases cb with
  | none => rfl
  | some f =>
    cases f with
    | true => rfl
    | false => exact absurd rfl hcb

theorem pwhash_async_thrown (K : pwhash_constants) (prim : primitive_call → Int)
    (a : pwhash_args) (cb : Option Bool) :
    (sn_crypto_pwhash_async K prim a cb).thrown = sn_crypto_pwhash_async_validate K a cb := by
  unfold sn_crypto_pwhash_async
  cases sn_crypto_pwhash_async_validate K a cb <;> rfl

theorem pwhash_str_async_thrown (K : pwhash_constants) (prim : primitive_call → Int)
    (a : pwhash_str_args) (cb : Option Bool) :
    (sn_crypto_pwhash_str_async K prim a cb).thrown
      = sn_crypto_pwhash_str_async_validate K a cb := by
  unfold sn_crypto_pwhash_str_async
  cases sn_crypto_pwhash_str_async_validate K a cb <;> rfl

theorem pwhash_str_verify_async_thrown (K : pwhash_constants) (prim : primitive_call → Int)
    (a : pwhash_str_verify_args) (cb : Option Bool) :
    (sn_crypto_pwhash_str_verify_async K prim a cb).thrown
      = sn_crypto_pwhash_str_verify_async_validate K a cb := by
  unfold sn_crypto_pwhash_str_verify_async
  cases sn_crypto_pwhash_str_verify_async_validate K a cb <;> rfl

theorem scrypt_async_thrown (K : pwhash_constants) (prim : primitive_call → Int)
    (a : pwhash_args) (cb : Option Bool) :
    (sn_crypto_pwhash_scryptsalsa208sha256_async K prim a cb).thrown
      = sn_crypto_pwhash_scryptsalsa208sha256_async_validate K a cb := by
  unfold sn_crypto_pwhash_scryptsalsa208sha256_async
  cases sn_crypto_pwhash_scryptsalsa208sha256_async_validate K a cb <;> rfl

theorem pbkdf2_async_thrown (K : pbkdf2_constants) (prim : primitive_call → Int)
    (a : pbkdf2_args) (cb : Option Bool) :
    (sn_extension_pbkdf2_sha512_async K prim a cb).thrown
      = sn_extension_pbkdf2_sha512_async_validate K a cb := by
  unfold sn_extension_pbkdf2_sha512_async
  cases sn_extension_pbkdf2_sha512_async_validate K a cb <;> rfl

theorem return_call_some (prim : primitive_call → Int) (call : primitive_call) :
    (SN_RETURN_call prim call).call = some call := by
  unfold SN_RETURN_call SN_THROWS
  split <;> rfl

theorem pwhash_call_iff (K : pwhash_constants) (prim : primitive_call → Int)
    (a : pwhash_args) :
    (sn_crypto_pwhash K prim a).call ≠ none ↔ sn_crypto_pwhash_validate K a = none := by
  unfold sn_crypto_pwhash
  cases sn_crypto_pwhash_validate K a <;> simp [return_call_some]

theorem pwhash_str_call_iff (K : pwhash_constants) (prim : primitive_call → Int)
    (a : pwhash_str_args) :
    (sn_crypto_pwhash_str K prim a).call ≠ none ↔ sn_crypto_pwhash_str_validate K a = none := by
  unfold sn_crypto_pwhash_str
  cases sn_crypto_pwhash_str_validate K a <;> simp [return_call_some]

theorem pwhash_str_verify_call_iff (K : pwhash_constants) (prim : primitive_call → Int)
    (a : pwhash_str_verify_args) :
    (sn_crypto_pwhash_str_verify K prim a).call ≠ none ↔
      sn_crypto_pwhash_str_verify_validate K a = none := by
  unfold sn_crypto_pwhash_str_verify
  cases sn_crypto_pwhash_str_verify_validate K a <;> simp [SN_RETURN_BOOLEAN]

theorem scrypt_call_iff (K : pwhash_constants) (prim : primitive_call → Int)
    (a : pwhash_args) :
    (sn_crypto_pwhash_scryptsalsa208sha256 K prim a).call ≠ none ↔
      sn_crypto_pwhash_scryptsalsa208sha256_validate K a = none := by
  unfold sn_crypto_pwhash_scryptsalsa208sha256
  cases sn_crypto_pwhash_scryptsalsa208sha256_validate K a <;> simp [return_call_some]

theorem pbkdf2_call_iff (K : pbkdf2_constants) (prim : primitive_call → Int)
    (a : pbkdf2_args) :
    (sn_extension_pbkdf2_sha512 K prim a).call ≠ none ↔
      sn_extension_pbkdf2_sha512_validate K a = none := by
  unfold sn_extension_pbkdf2_sha512
  cases sn_extension_pbkdf2_sha512_validate K a <;> simp [return_call_some]

theorem throws_ne_none {α : Type} (c : Bool) (e : α) (rest : Option α) :
    SN_THROWS c (some e) rest ≠ none ↔ (c = true ∨ rest ≠ none) := by
  cases c <;> simp [SN_THROWS]

/-! ## Lemmas for single updates -/

theorem gap_loop_cache (next_block : List Nat) (m : List Nat) (rem : Nat) (h : rem ≤ 64) :
    gap_loop next_block (rem : Int) m =
      (xor_from (fun j => next_block.getD j 0) rem (m.take (64 - rem)),
        ((rem + min (64 - rem) m.length : Nat) : Int)) := by
  have h := gap_loop_spec (fun j => next_block.getD j 0) 0 next_block m rem h
    (fun j _ _ => by simp)
  simpa using h

theorem update_blocks_frame (F : Family) (st : sn_crypto_stream_xor_state) (m : List Nat) :
    (update_blocks F st m).1.n = st.n ∧ (update_blocks F st m).1.k = st.k := by
  unfold update_blocks
  simp only
  split <;> exact ⟨rfl, rfl⟩

theorem xor_from_involutive (ks : Nat → Nat) (m : List Nat) :
    ∀ pos, xor_from ks pos (xor_from ks pos m) = m := by
  induction m with
  | nil => intro pos; rfl
  | cons b m ih =>
    intro pos
    simp only [xor_from, ih]
    rw [Nat.xor_assoc, Nat.xor_self, Nat.xor_zero]

theorem getD_drop (l : List Nat) (a i : Nat) : (l.drop a).getD i 0 = l.getD (a + i) 0 := by
  simp [List.getD_eq_getElem?_getD, List.getElem?_drop]

theorem init_session_inv (F : Family) (block : List Nat → List Nat → Nat → Nat → Nat)
    (st0 : sn_crypto_stream_xor_state) (n k : List Nat)
    (hn : n.length = F.NONCEBYTES) (hk : k.length = F.KEYBYTES) :
    session_inv block n k 0 (sn_crypto_stream_xor_wrap_init F F.STATEBYTES st0 n k).state := by
  rw [init_accepted F st0 n k hn hk]
  exact ⟨rfl, rfl, rfl, rfl, fun h => absurd rfl h⟩

theorem keystream_block (block : List Nat → List Nat → Nat → Nat → Nat) (n k : List Nat)
    (B j : Nat) (hj : j < 64) :
    keystream block n k (64 * B + j) = block n k (B % 2 ^ 64) j := by
  unfold keystream
  have h1 : (64 * B + j) / 64 = B := by omega
  have h2 : (64 * B + j) % 64 = j := by omega
  rw [h1, h2]

theorem session_inv_cache (block : List Nat → List Nat → Nat → Nat → Nat) (n k : List Nat)
    (T : Nat) (st : sn_crypto_stream_xor_state) (hinv : session_inv block n k T st)
    (hT : T % 64 ≠ 0) :
    ∀ j, T % 64 ≤ j → j < 64 →
      st.next_block.getD j 0 = block n k ((st.block_counter + (2 ^ 64 - 1)) % 2 ^ 64) j := by
  obtain ⟨_, _, _, hbc, hcache⟩ := hinv
  intro j h1 h2
  rw [hcache hT j h1 h2]
  have e : T / 64 * 64 + j = 64 * (T / 64) + j := by omega
  have e2 : T / 64 % 2 ^ 64 = ((T + 63) / 64 % 2 ^ 64 + (2 ^ 64 - 1)) % 2 ^ 64 := by omega
  rw [e, keystream_block block n k (T / 64) j h2, hbc, e2]

theorem update_blocks_cache (F : Family) (block : List Nat → List Nat → Nat → Nat → Nat)
    (hspec : xor_ic_spec F.xor_ic block) (st : sn_crypto_stream_xor_state) (m : List Nat)
    (hr : m.length % 64 ≠ 0) :
    (update_blocks F st m).1.next_block
      = xor_from (keystream block st.n st.k)
          (64 * ((st.block_counter + (m.length - m.length % 64) / 64) % 2 ^ 64
            % 2 ^ F.ic_bits))
          (m.drop (m.length - m.length % 64) ++ List.replicate (64 - m.length % 64) 0) ∧
    (update_blocks F st m).1.block_counter
      = ((st.block_counter + (m.length - m.length % 64) / 64) % 2 ^ 64 + 1) % 2 ^ 64 := by
  have hand : m.length &&& 63 = m.length % 64 := Nat.and_pow_two_sub_one_eq_mod m.length 6
  have hr2 : ¬ ((m.length % 64 : Nat) : Int) = 0 := by omega
  have htk : (m.drop (m.length - m.length % 64)).take (m.length % 64)
      = m.drop (m.length - m.length % 64) :=
    List.take_of_length_le (by rw [List.length_drop]; omega)
  simp only [update_blocks, hand, hr2, ne_eq, not_false_eq_true, if_true, htk]
  exact ⟨hspec _ _ _ _, trivial⟩

theorem update_reaches_blocks (F : Family) (st : sn_crypto_stream_xor_state)
    (c m : List Nat) (r0 : Nat) (hr : st.remainder = (r0 : Int)) (hr0 : r0 < 64)
    (hlen : c.length = m.length) (hreach : r0 = 0 ∨ 64 - r0 < m.length) :
    (sn_crypto_stream_xor_wrap_update F F.STATEBYTES st c m).state
      = (update_blocks F { st with remainder := 0 }
          (m.drop (if r0 = 0 then 0 else 64 - r0))).1 := by
  by_cases h0 : r0 = 0
  · subst h0
    have hst : { st with remainder := 0 } = st := by
      cases st
      simp only [Nat.cast_zero] at hr
      simp only [hr]
    simp only [sn_crypto_stream_xor_wrap_update, SN_THROWS, bne_self_eq_false, hlen, hr,
      Nat.cast_zero, ne_eq, not_true_eq_false, if_false, Bool.false_eq_true, if_true,
      List.drop_zero, hst]
  · have hlt : 64 - r0 < m.length := by
      rcases hreach with h | h
      · exact absurd h h0
      · exact h
    have hrz : ¬ ((r0 : Nat) : Int) = 0 := by omega
    have hg := gap_loop_cache st.next_block m r0 (by omega)
    have hmin : min (64 - r0) m.length = 64 - r0 := by omega
    have h64 : ((r0 + (64 - r0) : Nat) : Int) = 64 := by omega
    have hl : (m.take (64 - r0)).length = 64 - r0 := by
      rw [List.length_take]; omega
    have hd : ¬ m.length - (64 - r0) = 0 := by omega
    rw [hmin, h64] at hg
    simp only [sn_crypto_stream_xor_wrap_update, SN_THROWS, bne_self_eq_false, hlen, hr, hrz,
      ne_eq, not_false_eq_true, if_true, if_false, Bool.false_eq_true, hg, xor_from_length,
      hl, List.length_drop, hd, h0]

theorem xor_session_append (F : Family) (s : Nat) (ms1 ms2 : List (List Nat)) :
    ∀ st st1 out1 st2 out2, xor_session F s st ms1 = some (st1, out1) →
      xor_session F s st1 ms2 = some (st2, out2) →
      xor_session F s st (ms1 ++ ms2) = some (st2, out1 ++ out2) := by
  induction ms1 with
  | nil =>
    intro st st1 out1 st2 out2 h1 h2
    simp only [xor_session, Option.some.injEq, Prod.mk.injEq] at h1
    obtain ⟨rfl, rfl⟩ := h1
    simpa using h2
  | cons m ms ih =>
    intro st st1 out1 st2 out2 h1 h2
    rw [List.cons_append]
    unfold xor_session at h1 ⊢
    simp only at h1 ⊢
    split at h1
    · exact absurd h1 (by simp)
    · split at h1
      · rename_i s1 o1 hs
        simp only [Option.some.injEq, Prod.mk.injEq] at h1
        obtain ⟨rfl, rfl⟩ := h1
        rw [ih _ _ _ _ _ hs h2]
        simp only [List.append_assoc]
      · exact absurd h1 (by simp)

theorem flatten_replicate_length (a b x : Nat) :
    (List.replicate a (List.replicate b x)).flatten.length = a * b := by
  induction a with
  | zero => simp
  | succ a ih =>
    rw [List.replicate_succ, List.flatten_cons, List.length_append, ih, List.length_replicate,
      Nat.succ_mul, Nat.add_comm]

theorem long_chunks_length : long_chunks.flatten.length = 64 * 2 ^ 32 :=
  flatten_replicate_length 64 (2 ^ 32) 0

theorem update_after_counter_range (F : Family)
    (block : List Nat → List Nat → Nat → Nat → Nat) (hspec : xor_ic_spec F.xor_ic block)
    (hw : F.ic_bits < 64) (n k : List Nat) (st : sn_crypto_stream_xor_state)
    (hinv : session_inv block n k (64 * 2 ^ F.ic_bits) st) (b : Nat) :
    (sn_crypto_stream_xor_wrap_update F F.STATEBYTES st [0] [b]).thrown = none ∧
    (sn_crypto_stream_xor_wrap_update F F.STATEBYTES st [0] [b]).c
      = [b ^^^ keystream block n k 0] := by
  obtain ⟨hn, hk, hrem, hbc, _⟩ := hinv
  have hW := ic_range F hw
  have hr0 : st.remainder = 0 := by rw [hrem]; omega
  have hbc2 : st.block_counter = 2 ^ F.ic_bits := by rw [hbc]; omega
  have hand : (1 : Nat) &&& 63 = 1 := by decide
  have hone : ¬ ((1 : Nat) : Int) = 0 := by decide
  have hmod : (2 ^ F.ic_bits + 0 / 64) % 2 ^ 64 = 2 ^ F.ic_bits := by omega
  simp only [sn_crypto_stream_xor_wrap_update, SN_THROWS, bne_self_eq_false, hr0, ne_eq,
    not_true_eq_false, if_false, Bool.false_eq_true, update_blocks, List.length_singleton,
    hand, hone, not_false_eq_true, if_true, Nat.sub_self, List.take_zero, List.drop_zero,
    hbc2, hmod, Nat.mod_self, hspec [] , hspec (_ :: _), hn, hk, List.take_succ_cons,
    List.cons_append, List.nil_append, xor_from, Nat.mul_zero, true_and]

theorem session_past_counter_range (F : Family)
    (block : List Nat → List Nat → Nat → Nat → Nat) (hspec : xor_ic_spec F.xor_ic block)
    (hw : F.ic_bits < 64) (st0 : sn_crypto_stream_xor_state) (n k : List Nat)
    (hn : n.length = F.NONCEBYTES) (hk : k.length = F.KEYBYTES) (ms : List (List Nat))
    (hlen : ms.flatten.length = 64 * 2 ^ F.ic_bits) (b : Nat) :
    ∃ st, xor_session F F.STATEBYTES
        (sn_crypto_stream_xor_wrap_init F F.STATEBYTES st0 n k).state (ms ++ [[b]])
      = some (st, xor_from (keystream block n k) 0 ms.flatten
          ++ [b ^^^ keystream block n k 0]) := by
  obtain ⟨st2, h1, h2⟩ := xor_session_spec F block hspec n k ms 0 _
    (init_session_inv F block st0 n k hn hk) (fun _ => by rw [Nat.zero_add, hlen])
  rw [Nat.zero_add, hlen] at h2
  obtain ⟨h3, h4⟩ := update_after_counter_range F block hspec hw n k st2 h2 b
  have h5 : xor_session F F.STATEBYTES st2 [[b]]
      = some ((sn_crypto_stream_xor_wrap_update F F.STATEBYTES st2 [0] [b]).state,
          [b ^^^ keystream block n k 0]) := by
    simp only [xor_session, List.length_singleton, List.replicate_one, h3, h4,
      List.append_nil]
  exact ⟨_, xor_session_append F F.STATEBYTES ms [[b]] _ _ _ _ _ h1 h5⟩

/-! ## The claims -/

/-- C1 as stated fails for a family whose primitive takes a 32-bit `ic`, as
`crypto_stream_chacha20_ietf_xor_ic` does: the toy family of that shape meets the claim's
assumption, and after `init` and 64 chunks of `2 ^ 32` bytes (`2 ^ 32` blocks) the counter
`2 ^ 32` reaches the primitive as 0, so the next byte is XORed with byte 0 of keystream
block 0 again (174), while the one-shot XOR of the same `2 ^ 38 + 1` bytes uses byte 0 of
block `2 ^ 32` (179): the concatenated outputs are not the one-shot result. -/
theorem C1_stream_past_counter_range_counterexample :
    xor_ic_spec toy_ietf_family.xor_ic toy_block_ietf ∧
    demo_nonce_ietf.length = toy_ietf_family.NONCEBYTES ∧
    demo_key.length = toy_ietf_family.KEYBYTES ∧
    (long_chunks ++ [[0]]).flatten.length = 2 ^ 38 + 1 ∧
    ∃ st out, xor_session toy_ietf_family toy_ietf_family.STATEBYTES
        (sn_crypto_stream_xor_wrap_init toy_ietf_family toy_ietf_family.STATEBYTES junk_state
          demo_nonce_ietf demo_key).state (long_chunks ++ [[0]]) = some (st, out) ∧
      out.getD (2 ^ 38) 0 = 174 ∧
      (toy_ietf_family.xor_ic (long_chunks ++ [[0]]).flatten demo_nonce_ietf 0
        demo_key).getD (2 ^ 38) 0 = 179 ∧
      out ≠ toy_ietf_family.xor_ic (long_chunks ++ [[0]]).flatten demo_nonce_ietf 0
        demo_key := by
  have hs : xor_ic_spec toy_ietf_family.xor_ic toy_block_ietf := fun _ _ _ _ => rfl
  have hfl : (long_chunks ++ [[0]]).flatten = long_chunks.flatten ++ [0] := by
    simp only [List.flatten_append, List.flatten_cons, List.flatten_nil, List.append_nil]
  have hL : long_chunks.flatten.length = 2 ^ 38 := long_chunks_length
  obtain ⟨st, h⟩ := session_past_counter_range toy_ietf_family toy_block_ietf hs
    (by decide) junk_state demo_nonce_ietf demo_key (by decide) (by decide) long_chunks
    long_chunks_length 0
  have hX : (xor_from (keystream toy_block_ietf demo_nonce_ietf demo_key) 0
      long_chunks.flatten).length = 2 ^ 38 := by
    rw [xor_from_length, hL]
  have h1 : (xor_from (keystream toy_block_ietf demo_nonce_ietf demo_key) 0
        long_chunks.flatten
      ++ [0 ^^^ keystream toy_block_ietf demo_nonce_ietf demo_key 0]).getD (2 ^ 38) 0
      = 174 := by
    rw [List.getD_append_right _ _ _ _ (by rw [hX]), hX, Nat.sub_self, List.getD_cons_zero]
    decide
  have h2 : (toy_ietf_family.xor_ic (long_chunks ++ [[0]]).flatten demo_nonce_ietf 0
      demo_key).getD (2 ^ 38) 0 = 179 := by
    rw [hs, hfl, xor_from_append, Nat.mul_zero, Nat.zero_add, hL,
      List.getD_append_right _ _ _ _ (by rw [hX]), hX, Nat.sub_self]
    decide
  refine ⟨hs, by decide, by decide, ?_, st, _, h, h1, h2, ?_⟩
  · rw [hfl, List.length_append, hL]
    rfl
  · intro he
    rw [he, h2] at h1
    exact absurd h1 (by decide)

/-- C1, amended: for every family whose `_xor_ic` primitive XORs its input with the keystream
starting at byte `64 * ic`, every nonce and key of the family's lengths, every message `M`
(of at most `2 ^ ic_bits` blocks when the primitive's `ic` is narrower than 64 bits, that is
`2 ^ 38` bytes for chacha20_ietf) and every split `ms` of `M` into consecutive chunks (empty
chunks included): `init` is accepted, every `update` is accepted, and the concatenated
outputs are the one-shot `xor_ic` of `M` at block 0, whose byte `i` is
`M[i] XOR keystream byte i`. -/
theorem C1_chunked_updates_equal_one_shot (F : Family)
    (block : List Nat → List Nat → Nat → Nat → Nat) (hspec : xor_ic_spec F.xor_ic block)
    (st0 : sn_crypto_stream_xor_state) (n k : List Nat)
    (hn : n.length = F.NONCEBYTES) (hk : k.length = F.KEYBYTES)
    (M : List Nat) (ms : List (List Nat)) (hsplit : ms.flatten = M)
    (hrange : F.ic_bits < 64 → M.length ≤ 64 * 2 ^ F.ic_bits) :
    (sn_crypto_stream_xor_wrap_init F F.STATEBYTES st0 n k).thrown = none ∧
    (∃ st, xor_session F F.STATEBYTES
        (sn_crypto_stream_xor_wrap_init F F.STATEBYTES st0 n k).state ms
          = some (st, F.xor_ic M n 0 k)) ∧
    (F.xor_ic M n 0 k).length = M.length ∧
    ∀ i, i < M.length → (F.xor_ic M n 0 k).getD i 0 = M.getD i 0 ^^^ keystream block n k i := by
  have hinit := init_accepted F st0 n k hn hk
  have hinv : session_inv block n k 0
      (sn_crypto_stream_xor_wrap_init F F.STATEBYTES st0 n k).state := by
    rw [hinit]
    exact ⟨rfl, rfl, rfl, rfl, fun h => absurd rfl h⟩
  have hone : F.xor_ic M n 0 k = xor_from (keystream block n k) 0 M := by
    rw [hspec]
  obtain ⟨st, h1, _⟩ := xor_session_spec F block hspec n k ms 0 _ hinv
    (fun hw => by rw [Nat.zero_add, hsplit]; exact hrange hw)
  refine ⟨by rw [hinit], ⟨st, ?_⟩, ?_, ?_⟩
  · rw [h1, hsplit, hone]
  · rw [hone, xor_from_length]
  · intro i hi
    rw [hone, xor_from_getD _ _ _ _ hi, Nat.zero_add]

/-- Witness of C1 on the toy family with a 64-bit `ic`: 133 bytes split as
60 + 0 + 4 + 64 + 5, with chunk boundaries before, at and after multiples of 64; and on the
toy family with a 32-bit `ic`: 70 bytes split as 3 + 67. -/
theorem C1_chunked_updates_equal_one_shot_witness :
    xor_ic_spec toy_family.xor_ic toy_block ∧
    demo_nonce.length = toy_family.NONCEBYTES ∧ demo_key.length = toy_family.KEYBYTES ∧
    ¬ toy_family.ic_bits < 64 ∧
    (∃ st, xor_session toy_family toy_family.STATEBYTES
        (sn_crypto_stream_xor_wrap_init toy_family toy_family.STATEBYTES junk_state
          demo_nonce demo_key).state
        [List.replicate 60 1, [], List.replicate 4 2, List.replicate 64 3, List.replicate 5 4]
          = some (st, toy_family.xor_ic
              (List.replicate 60 1 ++ List.replicate 4 2 ++ List.replicate 64 3
                ++ List.replicate 5 4) demo_nonce 0 demo_key)) ∧
    xor_ic_spec toy_ietf_family.xor_ic toy_block_ietf ∧
    (List.replicate 3 1 ++ List.replicate 67 2).length ≤ 64 * 2 ^ toy_ietf_family.ic_bits ∧
    (∃ st, xor_session toy_ietf_family toy_ietf_family.STATEBYTES
        (sn_crypto_stream_xor_wrap_init toy_ietf_family toy_ietf_family.STATEBYTES junk_state
          demo_nonce_ietf demo_key).state [List.replicate 3 1, List.replicate 67 2]
          = some (st, toy_ietf_family.xor_ic (List.replicate 3 1 ++ List.replicate 67 2)
              demo_nonce_ietf 0 demo_key)) :=
  ⟨fun _ _ _ _ => rfl, by decide, by decide, by decide,
    (C1_chunked_updates_equal_one_shot toy_family toy_block (fun _ _ _ _ => rfl) junk_state
      demo_nonce demo_key (by decide) (by decide)
      (List.replicate 60 1 ++ List.replicate 4 2 ++ List.replicate 64 3 ++ List.replicate 5 4)
      [List.replicate 60 1, [], List.replicate 4 2, List.replicate 64 3, List.replicate 5 4]
      (by simp) (fun h => absurd h (by decide))).2.1,
    fun _ _ _ _ => rfl, by simp [toy_ietf_family],
    (C1_chunked_updates_equal_one_shot toy_ietf_family toy_block_ietf (fun _ _ _ _ => rfl)
      junk_state demo_nonce_ietf demo_key (by decide) (by decide)
      (List.replicate 3 1 ++ List.replicate 67 2) [List.replicate 3 1, List.replicate 67 2]
      (by simp) (fun _ => by simp [toy_ietf_family])).2.1⟩

/-- C2: when `c` and `m` have different byte lengths, `update` throws (the length check when
the state buffer is correctly sized) and leaves the whole state and the output buffer as
they were. -/
theorem C2_update_length_mismatch_rejected (F : Family) (state_size : Nat)
    (st : sn_crypto_stream_xor_state) (c m : List Nat) (h : c.length ≠ m.length) :
    (sn_crypto_stream_xor_wrap_update F state_size st c m).thrown ≠ none ∧
    (state_size = F.STATEBYTES →
      (sn_crypto_stream_xor_wrap_update F state_size st c m).thrown = some .c_size) ∧
    (sn_crypto_stream_xor_wrap_update F state_size st c m).state = st ∧
    (sn_crypto_stream_xor_wrap_update F state_size st c m).c = c := by
  by_cases hs : state_size = F.STATEBYTES
  · simp [sn_crypto_stream_xor_wrap_update, SN_THROWS, hs, h]
  · simp [sn_crypto_stream_xor_wrap_update, SN_THROWS, hs]

/-- Witness of C2: a 2-byte output buffer with a 1-byte input on a session in use. -/
theorem C2_update_length_mismatch_rejected_witness :
    ([0, 0] : List Nat).length ≠ ([7] : List Nat).length ∧
    (sn_crypto_stream_xor_wrap_update toy_family 120 demo_after_one_byte [0, 0] [7]).thrown
      = some .c_size ∧
    (sn_crypto_stream_xor_wrap_update toy_family 120 demo_after_one_byte [0, 0] [7]).state
      = demo_after_one_byte ∧
    (sn_crypto_stream_xor_wrap_update toy_family 120 demo_after_one_byte [0, 0] [7]).c
      = [0, 0] :=
  have h := C2_update_length_mismatch_rejected toy_family 120 demo_after_one_byte [0, 0] [7]
    (by decide)
  ⟨by decide, h.2.1 rfl, h.2.2.1, h.2.2.2⟩

/-- C3: with a correctly sized state buffer (any prior content) and a nonce and key of the
family's lengths, `init` is accepted and yields a state whose `n` and `k` are the supplied
nonce and key, whose `remainder` is 0 and whose `block_counter` is 0. -/
theorem C3_init_stores_nonce_key_and_resets (F : Family) (state_size : Nat)
    (st : sn_crypto_stream_xor_state) (n k : List Nat) (hs : state_size = F.STATEBYTES)
    (hn : n.length = F.NONCEBYTES) (hk : k.length = F.KEYBYTES) :
    (sn_crypto_stream_xor_wrap_init F state_size st n k).thrown = none ∧
    (sn_crypto_stream_xor_wrap_init F state_size st n k).state.n = n ∧
    (sn_crypto_stream_xor_wrap_init F state_size st n k).state.k = k ∧
    (sn_crypto_stream_xor_wrap_init F state_size st n k).state.remainder = 0 ∧
    (sn_crypto_stream_xor_wrap_init F state_size st n k).state.block_counter = 0 := by
  subst hs
  rw [init_accepted F st n k hn hk]
  exact ⟨rfl, rfl, rfl, rfl, rfl⟩

/-- Witness of C3 on the toy family with a junk prior state. -/
theorem C3_init_stores_nonce_key_and_resets_witness :
    (120 : Nat) = toy_family.STATEBYTES ∧ demo_nonce.length = toy_family.NONCEBYTES ∧
    demo_key.length = toy_family.KEYBYTES ∧
    (sn_crypto_stream_xor_wrap_init toy_family 120 junk_state demo_nonce demo_key).state.n
      = demo_nonce :=
  ⟨rfl, by decide, by decide,
    (C3_init_stores_nonce_key_and_resets toy_family 120 junk_state demo_nonce demo_key rfl
      (by decide) (by decide)).2.1⟩

/-- C4: `init` is all-or-nothing.  If the state buffer size, the nonce length or the key
length is wrong the call throws and the state is returned unchanged; the call is accepted
exactly when all three checks pass, so the state is written only then. -/
theorem C4_init_all_or_nothing (F : Family) (state_size : Nat)
    (st : sn_crypto_stream_xor_state) (n k : List Nat) :
    ((state_size ≠ F.STATEBYTES ∨ n.length ≠ F.NONCEBYTES ∨ k.length ≠ F.KEYBYTES) →
      (sn_crypto_stream_xor_wrap_init F state_size st n k).thrown ≠ none ∧
      (sn_crypto_stream_xor_wrap_init F state_size st n k).state = st) ∧
    ((sn_crypto_stream_xor_wrap_init F state_size st n k).thrown = none ↔
      (state_size = F.STATEBYTES ∧ n.length = F.NONCEBYTES ∧ k.length = F.KEYBYTES)) ∧
    ((sn_crypto_stream_xor_wrap_init F state_size st n k).state ≠ st →
      (state_size = F.STATEBYTES ∧ n.length = F.NONCEBYTES ∧ k.length = F.KEYBYTES)) := by
  by_cases hs : state_size = F.STATEBYTES <;> by_cases hn : n.length = F.NONCEBYTES <;>
    by_cases hk : k.length = F.KEYBYTES <;>
    simp [sn_crypto_stream_xor_wrap_init, SN_THROWS, SN_ASSERT_LENGTH, hs, hn, hk]

/-- Witness of C4: a 7-byte nonce where 8 bytes are required. -/
theorem C4_init_all_or_nothing_witness :
    (sn_crypto_stream_xor_wrap_init toy_family 120 junk_state [1, 2, 3, 4, 5, 6, 7]
        demo_key).thrown ≠ none ∧
    (sn_crypto_stream_xor_wrap_init toy_family 120 junk_state [1, 2, 3, 4, 5, 6, 7]
        demo_key).state = junk_state :=
  (C4_init_all_or_nothing toy_family 120 junk_state [1, 2, 3, 4, 5, 6, 7] demo_key).1
    (Or.inr (Or.inl (by decide)))

/-- C5: on a correctly sized state buffer `final` is accepted and leaves `n` (all
`NONCEBYTES` bytes), `k` (all `KEYBYTES` bytes) and the 64-byte `next_block` all-zero and
`remainder` equal to 0, whatever the state was. -/
theorem C5_final_zeroes_secrets (F : Family) (state_size : Nat)
    (st : sn_crypto_stream_xor_state) (hs : state_size = F.STATEBYTES) :
    (sn_crypto_stream_xor_wrap_final F state_size st).thrown = none ∧
    (sn_crypto_stream_xor_wrap_final F state_size st).state.n
      = List.replicate F.NONCEBYTES 0 ∧
    (sn_crypto_stream_xor_wrap_final F state_size st).state.k
      = List.replicate F.KEYBYTES 0 ∧
    (sn_crypto_stream_xor_wrap_final F state_size st).state.next_block
      = List.replicate 64 0 ∧
    (sn_crypto_stream_xor_wrap_final F state_size st).state.remainder = 0 := by
  simp [sn_crypto_stream_xor_wrap_final, SN_THROWS, hs]

/-- Witness of C5 on a session that has processed one byte. -/
theorem C5_final_zeroes_secrets_witness :
    (120 : Nat) = toy_family.STATEBYTES ∧
    (sn_crypto_stream_xor_wrap_final toy_family 120 demo_after_one_byte).state.k
      = List.replicate 32 0 :=
  ⟨rfl, (C5_final_zeroes_secrets toy_family 120 demo_after_one_byte rfl).2.2.1⟩

/-- C6, counterexample: after `init` and a one-byte `update` the block counter is 1, and an
accepted `final` leaves it at 1, not 0. -/
theorem C6_final_resets_block_counter_counterexample :
    demo_after_one_byte.block_counter = 1 ∧
    (sn_crypto_stream_xor_wrap_final toy_family 120 demo_after_one_byte).thrown = none ∧
    (sn_crypto_stream_xor_wrap_final toy_family 120 demo_after_one_byte).state.block_counter
      ≠ 0 := by
  decide

/-- C6, amended: `final` never writes `block_counter`; the field keeps the value it had
before the call (it is reset to 0 by the next `init`). -/
theorem C6_final_keeps_block_counter (F : Family) (state_size : Nat)
    (st : sn_crypto_stream_xor_state) :
    (sn_crypto_stream_xor_wrap_final F state_size st).state.block_counter
      = st.block_counter := by
  by_cases hs : state_size = F.STATEBYTES <;>
    simp [sn_crypto_stream_xor_wrap_final, SN_THROWS, hs]

/-- C7, counterexample: on the state left by `final`, a one-byte `update` is accepted, writes
an output byte and changes the state, and a second `final` is accepted as well. -/
theorem C7_closed_session_rejects_counterexample :
    (sn_crypto_stream_xor_wrap_update toy_family 120 demo_closed [0] [5]).thrown = none ∧
    (sn_crypto_stream_xor_wrap_update toy_family 120 demo_closed [0] [5]).c ≠ [0] ∧
    (sn_crypto_stream_xor_wrap_update toy_family 120 demo_closed [0] [5]).state
      ≠ demo_closed ∧
    (sn_crypto_stream_xor_wrap_final toy_family 120 demo_closed).thrown = none := by
  decide

/-- C7, amended: `final` does not close the session.  On the state left by an accepted
`final` and with a correctly sized state buffer, a further `final` is accepted and changes
nothing; an `update` with `c` and `m` of equal length is accepted and processed as an update
at remainder 0 (lines 2860-2873 on the cleared nonce and key and the block counter the
session had reached); an `update` with `c` and `m` of different lengths is rejected and
changes neither the state nor the output buffer. -/
theorem C7_calls_after_final_are_accepted (F : Family) (st : sn_crypto_stream_xor_state)
    (c m : List Nat) :
    sn_crypto_stream_xor_wrap_final F F.STATEBYTES
        (sn_crypto_stream_xor_wrap_final F F.STATEBYTES st).state
      = ⟨none, (sn_crypto_stream_xor_wrap_final F F.STATEBYTES st).state⟩ ∧
    (c.length = m.length →
      sn_crypto_stream_xor_wrap_update F F.STATEBYTES
          (sn_crypto_stream_xor_wrap_final F F.STATEBYTES st).state c m
        = ⟨none,
            (update_blocks F (sn_crypto_stream_xor_wrap_final F F.STATEBYTES st).state m).1,
            (update_blocks F (sn_crypto_stream_xor_wrap_final F F.STATEBYTES st).state m).2⟩) ∧
    (c.length ≠ m.length →
      sn_crypto_stream_xor_wrap_update F F.STATEBYTES
          (sn_crypto_stream_xor_wrap_final F F.STATEBYTES st).state c m
        = ⟨some .c_size, (sn_crypto_stream_xor_wrap_final F F.STATEBYTES st).state, c⟩) := by
  refine ⟨?_, ?_, ?_⟩
  · simp [sn_crypto_stream_xor_wrap_final, SN_THROWS]
  · intro h
    simp [sn_crypto_stream_xor_wrap_final, sn_crypto_stream_xor_wrap_update, SN_THROWS, h]
  · intro h
    simp [sn_crypto_stream_xor_wrap_final, sn_crypto_stream_xor_wrap_update, SN_THROWS, h]

/-- Witness of C7 amended: after `final`, a one-byte update is accepted and a one-byte input
with a two-byte output buffer is rejected. -/
theorem C7_calls_after_final_are_accepted_witness :
    ([0] : List Nat).length = ([5] : List Nat).length ∧
    ([0, 0] : List Nat).length ≠ ([5] : List Nat).length ∧
    (sn_crypto_stream_xor_wrap_update toy_family toy_family.STATEBYTES
        (sn_crypto_stream_xor_wrap_final toy_family toy_family.STATEBYTES
          demo_after_one_byte).state [0] [5]).thrown = none ∧
    (sn_crypto_stream_xor_wrap_update toy_family toy_family.STATEBYTES
        (sn_crypto_stream_xor_wrap_final toy_family toy_family.STATEBYTES
          demo_after_one_byte).state [0, 0] [5]).thrown = some .c_size :=
  ⟨rfl, by decide,
    by rw [(C7_calls_after_final_are_accepted toy_family demo_after_one_byte [0] [5]).2.1 rfl],
    by rw [(C7_calls_after_final_are_accepted toy_family demo_after_one_byte [0, 0] [5]).2.2
      (by decide)]⟩

/-- C8, counterexample: after `init` and one `update` of a single byte, `remainder` is 1 while
`64 * block_counter` minus the bytes processed is 63. -/
theorem C8_remainder_is_unused_count_counterexample :
    ∃ st out, xor_session toy_family toy_family.STATEBYTES demo_ready [[7]] = some (st, out) ∧
      st.remainder = 1 ∧ st.block_counter = 1 ∧
      st.remainder ≠ 64 * (st.block_counter : Int) - (([[7]] : List (List Nat)).flatten.length : Int) :=
  ⟨demo_after_one_byte,
    (sn_crypto_stream_xor_wrap_update toy_family 120 demo_ready [0] [7]).c,
    by decide, by decide, by decide, by decide⟩

/-- C8, amended: after `init` and updates that processed `T` bytes in all, `remainder` is
`T mod 64`, the number of bytes of the cached keystream block already used; the number of
keystream bytes generated and not yet used, `64 * block_counter - T` (while the block
counter has not wrapped), is `64 - remainder` when `remainder > 0` and 0 otherwise. -/
theorem C8_remainder_is_used_count (F : Family) (st0 : sn_crypto_stream_xor_state)
    (n k : List Nat) (hn : n.length = F.NONCEBYTES) (hk : k.length = F.KEYBYTES)
    (ms : List (List Nat)) :
    ∃ st out, xor_session F F.STATEBYTES
        (sn_crypto_stream_xor_wrap_init F F.STATEBYTES st0 n k).state ms = some (st, out) ∧
      st.remainder = ((ms.flatten.length % 64 : Nat) : Int) ∧
      (ms.flatten.length ≤ 64 * (2 ^ 64 - 1) →
        64 * (st.block_counter : Int) - (ms.flatten.length : Int)
          = if st.remainder = 0 then 0 else 64 - st.remainder) := by
  have hinit := init_accepted F st0 n k hn hk
  obtain ⟨st, out, h1, h2, h3, _, _⟩ := xor_session_counters F ms 0
    (sn_crypto_stream_xor_wrap_init F F.STATEBYTES st0 n k).state
    (by rw [hinit]; rfl) (by rw [hinit]; rfl)
  refine ⟨st, out, h1, ?_, ?_⟩
  · simpa using h2
  · intro hT
    rw [h2, h3]
    simp only [Nat.zero_add]
    split <;> omega

/-- Witness of C8 amended: 70 bytes in chunks of 10 and 60 leave `remainder = 6` and
`64 * block_counter - 70 = 58` unused bytes. -/
theorem C8_remainder_is_used_count_witness :
    demo_nonce.length = toy_family.NONCEBYTES ∧ demo_key.length = toy_family.KEYBYTES ∧
    ∃ st out, xor_session toy_family toy_family.STATEBYTES
        (sn_crypto_stream_xor_wrap_init toy_family toy_family.STATEBYTES junk_state
          demo_nonce demo_key).state [List.replicate 10 1, List.replicate 60 2]
          = some (st, out) ∧
      st.remainder = 6 ∧ 64 * (st.block_counter : Int) - 70 = 58 :=
  ⟨by decide, by decide,
    match C8_remainder_is_used_count toy_family junk_state demo_nonce demo_key (by decide)
      (by decide) [List.replicate 10 1, List.replicate 60 2] with
    | ⟨st, out, h1, h2, h3⟩ =>
      ⟨st, out, h1, by rw [h2]; decide, by
        have h4 := h3 (by decide)
        rw [h2] at h4
        simpa using h4⟩⟩

/-- C9: for every secretstream primitive that meets the round-trip contract of libsodium,
every key of `KEYBYTES` bytes and every sequence of chunks (plaintext of any length
including 0, associated data or none, tag in MESSAGE, PUSH, REKEY, FINAL): `init_push` and
`init_pull` with the header `init_push` produced are accepted, every `push` returns the
ciphertext length `m.length + ABYTES`, and pulling the ciphertexts in the same order with
the same associated data returns, for every chunk, the plaintext length (not -1), the
original plaintext in the message view and the original tag in the tag view. -/
theorem C9_push_then_pull_roundtrip {S : Type} (P : secretstream S) (matched : S → S → Prop)
    (hP : roundtrip_contract P matched) (s1 s2 : S) (header rnd k : List Nat)
    (hh : header.length = P.HEADERBYTES) (hk : k.length = P.KEYBYTES)
    (chunks : List chunk) (hok : ∀ ch ∈ chunks, chunk_ok P.ABYTES ch) :
    (sn_crypto_secretstream_xchacha20poly1305_init_push P P.STATEBYTES s1 header k rnd).thrown
      = none ∧
    (sn_crypto_secretstream_xchacha20poly1305_init_pull P P.STATEBYTES s2
      (sn_crypto_secretstream_xchacha20poly1305_init_push P P.STATEBYTES s1 header k rnd).header
      k).thrown = none ∧
    ∃ cs, push_all P
        (sn_crypto_secretstream_xchacha20poly1305_init_push P P.STATEBYTES s1 header k rnd).state
        chunks = some cs ∧
      cs.map Prod.fst = chunks.map (fun ch => ((ch.m.length + P.ABYTES : Nat) : Int)) ∧
      pull_all P
        (sn_crypto_secretstream_xchacha20poly1305_init_pull P P.STATEBYTES s2
          (sn_crypto_secretstream_xchacha20poly1305_init_push P P.STATEBYTES s1 header k
            rnd).header k).state
        ((cs.map Prod.snd).zip (chunks.map chunk.ad))
        = some (chunks.map (fun ch => (((ch.m.length : Nat) : Int), ch.m, [ch.tag]))) := by
  obtain ⟨i1, i2, i3, i4⟩ := hP.init s1 s2 rnd k hk
  have hst : store header (P.init_push s1 rnd k).header = (P.init_push s1 rnd k).header :=
    store_full _ _ (by rw [hh, i2])
  have hip : sn_crypto_secretstream_xchacha20poly1305_init_push P P.STATEBYTES s1 header k rnd
      = ⟨none, (P.init_push s1 rnd k).state, (P.init_push s1 rnd k).header⟩ := by
    simp only [sn_crypto_secretstream_xchacha20poly1305_init_push, SN_THROWS,
      SN_ASSERT_LENGTH, SN_RETURN, hh, hk, i1, hst, bne_self_eq_false, Bool.false_eq_true,
      if_false]
  have hil : sn_crypto_secretstream_xchacha20poly1305_init_pull P P.STATEBYTES s2
      (P.init_push s1 rnd k).header k
      = ⟨none, (P.init_pull s2 (P.init_push s1 rnd k).header k).state⟩ := by
    simp only [sn_crypto_secretstream_xchacha20poly1305_init_pull, SN_THROWS,
      SN_ASSERT_LENGTH, SN_RETURN, i2, hk, i3, bne_self_eq_false, Bool.false_eq_true,
      if_false]
  rw [hip]
  simp only [hil]
  exact ⟨trivial, trivial, push_pull_chunks P matched hP chunks _ _ i4 hok⟩

/-- Witness of C9 on the toy primitive: a 3-byte MESSAGE chunk and an empty FINAL chunk with
associated data. -/
theorem C9_push_then_pull_roundtrip_witness :
    roundtrip_contract toy_secretstream Eq ∧
    (List.replicate 24 0).length = toy_secretstream.HEADERBYTES ∧
    demo_key.length = toy_secretstream.KEYBYTES ∧
    (∀ ch ∈ demo_chunks, chunk_ok toy_secretstream.ABYTES ch) ∧
    ∃ cs, push_all toy_secretstream
        (sn_crypto_secretstream_xchacha20poly1305_init_push toy_secretstream
          toy_secretstream.STATEBYTES 0 (List.replicate 24 0) demo_key demo_nonce).state
        demo_chunks = some cs ∧
      cs.map Prod.fst
        = demo_chunks.map (fun ch => ((ch.m.length + toy_secretstream.ABYTES : Nat) : Int)) ∧
      pull_all toy_secretstream
        (sn_crypto_secretstream_xchacha20poly1305_init_pull toy_secretstream
          toy_secretstream.STATEBYTES 0
          (sn_crypto_secretstream_xchacha20poly1305_init_push toy_secretstream
            toy_secretstream.STATEBYTES 0 (List.replicate 24 0) demo_key demo_nonce).header
          demo_key).state
        ((cs.map Prod.snd).zip (demo_chunks.map chunk.ad))
        = some (demo_chunks.map (fun ch => (((ch.m.length : Nat) : Int), ch.m, [ch.tag]))) :=
  ⟨toy_roundtrip_contract, by decide, by decide, by decide,
    (C9_push_then_pull_roundtrip toy_secretstream Eq toy_roundtrip_contract 0 0
      (List.replicate 24 0) demo_nonce demo_key (by decide) (by decide) demo_chunks
      (by decide)).2.2⟩

/-- C11, evaluated at the failing input: with `ABYTES = 17`, a plaintext length of
4294967286 and a ciphertext length of 7, the length check of `push` passes, because the sum
`m_len + ABYTES` is taken in 32-bit unsigned arithmetic, although 7 is not
`4294967286 + 17` and the ciphertext view is shorter than the bytes the primitive writes. -/
theorem C11_push_length_check_wraps :
    push_length_check 17 4294967286 7 = true ∧ (7 : Nat) ≠ 4294967286 + 17 ∧
    (7 : Nat) < 4294967286 + 17 := by
  decide

/-- C12, counterexample: on the toy primitive, `push` with the tag value 4 and with the tag
value 256 is accepted: it returns the ciphertext length 20 and the session state has moved
from 5 to 6; the tag byte written is 4, respectively 0 (256 narrowed to a byte). -/
theorem C12_push_rejects_unknown_tag_counterexample :
    (sn_crypto_secretstream_xchacha20poly1305_push toy_secretstream 5 52
        (List.replicate 20 0) [1, 2, 3] [] 0 0 4).map (fun r => (r.ret, r.state, r.c.take 4))
      = some (20, 6, [4, 1, 2, 3]) ∧
    (sn_crypto_secretstream_xchacha20poly1305_push toy_secretstream 5 52
        (List.replicate 20 0) [1, 2, 3] [] 0 0 256).map (fun r => (r.ret, r.state, r.c.take 4))
      = some (20, 6, [0, 1, 2, 3]) := by
  decide

/-- C12, amended: `push` performs no check of the tag.  For every tag value that fits a
byte, one of the four named tags or not, a call that passes the state-size, length and
associated-data assertions invokes the primitive with that tag and returns its outcome:
-1 when the primitive fails, the ciphertext length otherwise, with the state and the
ciphertext view as the primitive left them. -/
theorem C12_push_passes_any_tag_byte {S : Type} (P : secretstream S) (state : S)
    (c m ad ad_data : List Nat) (ad_offset ad_len tag : Nat) (htag : tag < 256)
    (hlen : push_length_check P.ABYTES m.length c.length = true)
    (had : ad_bytes ad ad_offset ad_len = some ad_data) :
    sn_crypto_secretstream_xchacha20poly1305_push P state P.STATEBYTES c m ad ad_offset
        ad_len tag
      = some ⟨if (P.push state m ad_data tag).res < 0 then -1
              else to_int64 (P.push state m ad_data tag).clen,
          (P.push state m ad_data tag).state, store c (P.push state m ad_data tag).c⟩ := by
  have h256 : tag % 256 = tag := Nat.mod_eq_of_lt htag
  simp only [sn_crypto_secretstream_xchacha20poly1305_push, ne_eq, not_true_eq_false,
    if_false, hlen, had, h256]
  split <;> rfl

/-- Witness of C12 amended: the tag value 4 on the toy primitive. -/
theorem C12_push_passes_any_tag_byte_witness :
    (4 : Nat) < 256 ∧
    push_length_check toy_secretstream.ABYTES ([1, 2, 3] : List Nat).length
      (List.replicate 20 0).length = true ∧
    ad_bytes [] 0 0 = some [] ∧
    (sn_crypto_secretstream_xchacha20poly1305_push toy_secretstream 5
        toy_secretstream.STATEBYTES (List.replicate 20 0) [1, 2, 3] [] 0 0 4).isSome = true :=
  ⟨by decide, by decide, by decide, by
    rw [C12_push_passes_any_tag_byte toy_secretstream 5 (List.replicate 20 0) [1, 2, 3] [] []
      0 0 4 (by decide) (by decide) (by decide)]
    rfl⟩

/-- C13: when its assertions pass and the length the primitive reports fits a signed 64-bit
integer, `pull` returns -1 if and only if the primitive's result is negative, and otherwise
returns the plaintext length the primitive reported, which is non-negative (0 for an empty
message); likewise `push` returns -1 if and only if the primitive's result is negative and
otherwise the ciphertext length. -/
theorem C13_minus_one_iff_primitive_failed {S : Type} (P : secretstream S) (state : S)
    (m tag c ad ad_data : List Nat) (ad_offset ad_len tagv : Nat)
    (had : ad_bytes ad ad_offset ad_len = some ad_data) :
    (pull_length_check P.ABYTES c.length m.length tag.length = true →
      (P.pull state c ad_data).mlen < 2 ^ 63 →
      ∃ r, sn_crypto_secretstream_xchacha20poly1305_pull P state P.STATEBYTES m tag c ad
          ad_offset ad_len = some r ∧
        (r.ret = -1 ↔ (P.pull state c ad_data).res < 0) ∧
        (¬ (P.pull state c ad_data).res < 0 →
          r.ret = ((P.pull state c ad_data).mlen : Int) ∧ 0 ≤ r.ret)) ∧
    (push_length_check P.ABYTES m.length c.length = true →
      (P.push state m ad_data (tagv % 256)).clen < 2 ^ 63 →
      ∃ r, sn_crypto_secretstream_xchacha20poly1305_push P state P.STATEBYTES c m ad
          ad_offset ad_len tagv = some r ∧
        (r.ret = -1 ↔ (P.push state m ad_data (tagv % 256)).res < 0) ∧
        (¬ (P.push state m ad_data (tagv % 256)).res < 0 →
          r.ret = ((P.push state m ad_data (tagv % 256)).clen : Int) ∧ 0 ≤ r.ret)) := by
  constructor
  · intro hlen hfit
    simp only [sn_crypto_secretstream_xchacha20poly1305_pull, ne_eq, not_true_eq_false,
      if_false, hlen, had]
    by_cases hres : (P.pull state c ad_data).res < 0
    · simp only [hres, if_true]
      exact ⟨_, rfl, by simp, fun h => absurd trivial h⟩
    · simp only [hres, if_false]
      refine ⟨_, rfl, ?_, fun _ => ?_⟩
      · simp only [to_int64_nonneg _ hfit, iff_false]
        omega
      · simp only [to_int64_nonneg _ hfit]
        exact ⟨trivial, by omega⟩
  · intro hlen hfit
    simp only [sn_crypto_secretstream_xchacha20poly1305_push, ne_eq, not_true_eq_false,
      if_false, hlen, had]
    by_cases hres : (P.push state m ad_data (tagv % 256)).res < 0
    · simp only [hres, if_true]
      exact ⟨_, rfl, by simp, fun h => absurd trivial h⟩
    · simp only [hres, if_false]
      refine ⟨_, rfl, ?_, fun _ => ?_⟩
      · simp only [to_int64_nonneg _ hfit, iff_false]
        omega
      · simp only [to_int64_nonneg _ hfit]
        exact ⟨trivial, by omega⟩

/-- Witness of C13: on the toy primitive a pull of a 17-byte ciphertext whose check value is
wrong returns -1, and a pull of a valid 17-byte ciphertext of the empty message returns 0. -/
theorem C13_minus_one_iff_primitive_failed_witness :
    ad_bytes [] 0 0 = some [] ∧
    pull_length_check toy_secretstream.ABYTES (List.replicate 17 9).length
      ([] : List Nat).length ([0] : List Nat).length = true ∧
    (toy_secretstream.pull 5 (List.replicate 17 9) []).mlen < 2 ^ 63 ∧
    (∃ r, sn_crypto_secretstream_xchacha20poly1305_pull toy_secretstream 5
        toy_secretstream.STATEBYTES [] [0] (List.replicate 17 9) [] 0 0 = some r ∧
      (r.ret = -1 ↔ (toy_secretstream.pull 5 (List.replicate 17 9) []).res < 0) ∧
      (¬ (toy_secretstream.pull 5 (List.replicate 17 9) []).res < 0 →
        r.ret = ((toy_secretstream.pull 5 (List.replicate 17 9) []).mlen : Int) ∧
          0 ≤ r.ret)) ∧
    (toy_secretstream.pull 5 (List.replicate 17 9) []).res < 0 ∧
    (sn_crypto_secretstream_xchacha20poly1305_pull toy_secretstream 5 52 [] [0]
        ([0] ++ List.replicate 16 5) [] 0 0).map (fun r => r.ret) = some 0 :=
  ⟨by decide, by decide, by decide,
    (C13_minus_one_iff_primitive_failed toy_secretstream 5 [] [0] (List.replicate 17 9) []
      [] 0 0 0 (by decide)).1 (by decide) (by decide),
    by decide, by decide⟩

/-- C14: `init_push` and `init_pull` reach the primitive only when the state buffer has the
size of the state struct, the header `HEADERBYTES` bytes and the key `KEYBYTES` bytes.  If
any of the three differs the call throws one of the three size errors, the state buffer
(and the header buffer) is returned unchanged, and the result is the same whatever the
primitive is; if all three are right the primitive is invoked and the state is the one it
left. -/
theorem C14_init_validates_before_primitive {S : Type} (P Q : secretstream S)
    (state_size : Nat) (state : S) (header k rnd : List Nat)
    (hQ : Q.STATEBYTES = P.STATEBYTES ∧ Q.HEADERBYTES = P.HEADERBYTES ∧
      Q.KEYBYTES = P.KEYBYTES) :
    ((state_size ≠ P.STATEBYTES ∨ header.length ≠ P.HEADERBYTES ∨ k.length ≠ P.KEYBYTES) →
      ((sn_crypto_secretstream_xchacha20poly1305_init_push P state_size state header k
          rnd).thrown ∈ [some sn_thrown.state_size, some .header_length, some .k_length] ∧
        (sn_crypto_secretstream_xchacha20poly1305_init_push P state_size state header k
          rnd).state = state ∧
        (sn_crypto_secretstream_xchacha20poly1305_init_push P state_size state header k
          rnd).header = header ∧
        sn_crypto_secretstream_xchacha20poly1305_init_push Q state_size state header k rnd
          = sn_crypto_secretstream_xchacha20poly1305_init_push P state_size state header k
              rnd) ∧
      ((sn_crypto_secretstream_xchacha20poly1305_init_pull P state_size state header
          k).thrown ∈ [some sn_thrown.state_size, some .header_length, some .k_length] ∧
        (sn_crypto_secretstream_xchacha20poly1305_init_pull P state_size state header
          k).state = state ∧
        sn_crypto_secretstream_xchacha20poly1305_init_pull Q state_size state header k
          = sn_crypto_secretstream_xchacha20poly1305_init_pull P state_size state header
              k)) ∧
    ((state_size = P.STATEBYTES ∧ header.length = P.HEADERBYTES ∧ k.length = P.KEYBYTES) →
      (sn_crypto_secretstream_xchacha20poly1305_init_push P state_size state header k
          rnd).state = (P.init_push state rnd k).state ∧
      (sn_crypto_secretstream_xchacha20poly1305_init_pull P state_size state header
          k).state = (P.init_pull state header k).state) := by
  obtain ⟨q1, q2, q3⟩ := hQ
  constructor
  · intro h
    by_cases hs : state_size = P.STATEBYTES
    · by_cases hh : header.length = P.HEADERBYTES
      · by_cases hk : k.length = P.KEYBYTES
        · rcases h with h | h | h <;> exact absurd (by assumption) h
        · simp [sn_crypto_secretstream_xchacha20poly1305_init_push,
            sn_crypto_secretstream_xchacha20poly1305_init_pull, SN_THROWS, SN_ASSERT_LENGTH,
            hs, hh, hk, q1, q2, q3]
      · simp [sn_crypto_secretstream_xchacha20poly1305_init_push,
          sn_crypto_secretstream_xchacha20poly1305_init_pull, SN_THROWS, SN_ASSERT_LENGTH,
          hs, hh, q1, q2, q3]
    · simp [sn_crypto_secretstream_xchacha20poly1305_init_push,
        sn_crypto_secretstream_xchacha20poly1305_init_pull, SN_THROWS, SN_ASSERT_LENGTH,
        hs, q1, q2, q3]
  · rintro ⟨hs, hh, hk⟩
    constructor
    · simp only [sn_crypto_secretstream_xchacha20poly1305_init_push, SN_THROWS,
        SN_ASSERT_LENGTH, SN_RETURN, hs, hh, hk, bne_self_eq_false, Bool.false_eq_true,
        if_false]
      split <;> rfl
    · simp only [sn_crypto_secretstream_xchacha20poly1305_init_pull, SN_THROWS,
        SN_ASSERT_LENGTH, SN_RETURN, hs, hh, hk, bne_self_eq_false, Bool.false_eq_true,
        if_false]
      split <;> rfl

/-- Witness of C14: a 31-byte key where 32 bytes are required, on the toy primitive. -/
theorem C14_init_validates_before_primitive_witness :
    (List.replicate 31 9).length ≠ toy_secretstream.KEYBYTES ∧
    (sn_crypto_secretstream_xchacha20poly1305_init_push toy_secretstream 52 7
        (List.replicate 24 0) (List.replicate 31 9) demo_nonce).state = 7 ∧
    (sn_crypto_secretstream_xchacha20poly1305_init_pull toy_secretstream 52 7
        (List.replicate 24 0) (List.replicate 31 9)).state = 7 :=
  have h := (C14_init_validates_before_primitive toy_secretstream toy_secretstream 52 7
    (List.replicate 24 0) (List.replicate 31 9) demo_nonce ⟨rfl, rfl, rfl⟩).1
    (Or.inr (Or.inr (by decide)))
  ⟨by decide, h.1.2.1, h.2.2.1⟩

/-- C15: for each async key-derivation binding (`crypto_pwhash_async`,
`crypto_pwhash_str_async`, `crypto_pwhash_str_verify_async`, their scrypt siblings and
`extension_pbkdf2_sha512_async`), whenever the optional trailing callback is absent or a
function, the synchronous validation reports the same outcome as the validation of the
one-shot binding, and the async call is accepted if and only if the one-shot call passes
validation and reaches its primitive.  The Argon2 and scrypt `_str` and `_str_verify`
bindings are the instances of the shared definitions at their constants. -/
theorem C15_async_validation_matches_one_shot (K : pwhash_constants) (Kp : pbkdf2_constants)
    (prim : primitive_call → Int) (a : pwhash_args) (s : pwhash_str_args)
    (v : pwhash_str_verify_args) (p : pbkdf2_args) (cb : Option Bool)
    (hcb : cb ≠ some false) :
    (sn_crypto_pwhash_async_validate K a cb = sn_crypto_pwhash_validate K a ∧
      ((sn_crypto_pwhash_async K prim a cb).thrown = none ↔
        (sn_crypto_pwhash K prim a).call ≠ none)) ∧
    (sn_crypto_pwhash_str_async_validate K s cb = sn_crypto_pwhash_str_validate K s ∧
      ((sn_crypto_pwhash_str_async K prim s cb).thrown = none ↔
        (sn_crypto_pwhash_str K prim s).call ≠ none)) ∧
    (sn_crypto_pwhash_str_verify_async_validate K v cb
        = sn_crypto_pwhash_str_verify_validate K v ∧
      ((sn_crypto_pwhash_str_verify_async K prim v cb).thrown = none ↔
        (sn_crypto_pwhash_str_verify K prim v).call ≠ none)) ∧
    (sn_crypto_pwhash_scryptsalsa208sha256_async_validate K a cb
        = sn_crypto_pwhash_scryptsalsa208sha256_validate K a ∧
      ((sn_crypto_pwhash_scryptsalsa208sha256_async K prim a cb).thrown = none ↔
        (sn_crypto_pwhash_scryptsalsa208sha256 K prim a).call ≠ none)) ∧
    (sn_extension_pbkdf2_sha512_async_validate Kp p cb
        = sn_extension_pbkdf2_sha512_validate Kp p ∧
      ((sn_extension_pbkdf2_sha512_async Kp prim p cb).thrown = none ↔
        (sn_extension_pbkdf2_sha512 Kp prim p).call ≠ none)) := by
  have h1 : sn_crypto_pwhash_async_validate K a cb = sn_crypto_pwhash_validate K a := by
    simp only [sn_crypto_pwhash_async_validate, sn_crypto_pwhash_validate,
      opt_callback_accepts cb hcb]
  have h2 : sn_crypto_pwhash_str_async_validate K s cb = sn_crypto_pwhash_str_validate K s := by
    simp only [sn_crypto_pwhash_str_async_validate, sn_crypto_pwhash_str_validate,
      opt_callback_accepts cb hcb]
  have h3 : sn_crypto_pwhash_str_verify_async_validate K v cb
      = sn_crypto_pwhash_str_verify_validate K v := by
    simp only [sn_crypto_pwhash_str_verify_async_validate,
      sn_crypto_pwhash_str_verify_validate, opt_callback_accepts cb hcb]
  have h4 : sn_crypto_pwhash_scryptsalsa208sha256_async_validate K a cb
      = sn_crypto_pwhash_scryptsalsa208sha256_validate K a := by
    simp only [sn_crypto_pwhash_scryptsalsa208sha256_async_validate,
      sn_crypto_pwhash_scryptsalsa208sha256_validate, opt_callback_accepts cb hcb]
  have h5 : sn_extension_pbkdf2_sha512_async_validate Kp p cb
      = sn_extension_pbkdf2_sha512_validate Kp p := by
    simp only [sn_extension_pbkdf2_sha512_async_validate,
      sn_extension_pbkdf2_sha512_validate, opt_callback_accepts cb hcb]
  refine ⟨⟨h1, ?_⟩, ⟨h2, ?_⟩, ⟨h3, ?_⟩, ⟨h4, ?_⟩, ⟨h5, ?_⟩⟩
  · rw [pwhash_async_thrown, h1, pwhash_call_iff]
  · rw [pwhash_str_async_thrown, h2, pwhash_str_call_iff]
  · rw [pwhash_str_verify_async_thrown, h3, pwhash_str_verify_call_iff]
  · rw [scrypt_async_thrown, h4, scrypt_call_iff]
  · rw [pbkdf2_async_thrown, h5, pbkdf2_call_iff]

/-- Witness of C15: the Argon2 binding with a callback that is a function, on a tuple both
validations accept. -/
theorem C15_async_validation_matches_one_shot_witness :
    (some true : Option Bool) ≠ some false ∧
    (sn_crypto_pwhash_async crypto_pwhash_constants prim_ok demo_pwhash_args
        (some true)).thrown = none ∧
    (sn_crypto_pwhash crypto_pwhash_constants prim_ok demo_pwhash_args).call ≠ none :=
  ⟨by decide, by decide,
    ((C15_async_validation_matches_one_shot crypto_pwhash_constants ⟨1, 64⟩ prim_ok
      demo_pwhash_args ⟨128, [], 2, 8192⟩ ⟨[], []⟩ ⟨64, [], [], 1, 64⟩ (some true)
      (by decide)).1.2).mp (by decide)⟩

/-- C16, evaluated at the failing input: for `crypto_pwhash_async` with `memlimit`
4362076160 (4 GiB + 64 MiB, accepted by validation) the primitive is invoked with
`memlimit` 67108864, while the one-shot binding invokes it with 4362076160. -/
theorem C16_async_memlimit_narrowed_to_32_bits :
    (sn_crypto_pwhash_async crypto_pwhash_constants prim_ok demo_pwhash_args none).thrown
      = none ∧
    primitive_calls
        (sn_crypto_pwhash_async crypto_pwhash_constants prim_ok demo_pwhash_args none).events
      = [.crypto_pwhash 32 [112, 119] 2 (List.replicate 16 1) 2 67108864 2] ∧
    (sn_crypto_pwhash crypto_pwhash_constants prim_ok demo_pwhash_args).call
      = some (.crypto_pwhash 32 [112, 119] 2 (List.replicate 16 1) 2 4362076160 2) := by
  decide

/-- C17: for every result code of the verification primitive, the completion of an accepted
`crypto_pwhash_str_verify_async` (and of its scrypt sibling, the same definition at the
scrypt constants) is a success carrying the boolean `code == 0`: a promise task resolves its
deferred with it, a callback task calls the callback with `(null, code == 0)`; no deferred
is ever rejected and no error value is ever delivered. -/
theorem C17_verify_completes_with_boolean (K : pwhash_constants)
    (prim : primitive_call → Int) (a : pwhash_str_verify_args) (cb : Option Bool)
    (h : sn_crypto_pwhash_str_verify_async_validate K a cb = none) :
    (cb = none →
      deferred_actions (sn_crypto_pwhash_str_verify_async K prim a cb).events
        = [.resolve_deferred (.boolean
            (prim (.crypto_pwhash_str_verify a.str a.passwd a.passwd.length) == 0))] ∧
      callback_actions (sn_crypto_pwhash_str_verify_async K prim a cb).events = []) ∧
    (cb ≠ none →
      callback_actions (sn_crypto_pwhash_str_verify_async K prim a cb).events
        = [.call_function [.null, .boolean
            (prim (.crypto_pwhash_str_verify a.str a.passwd a.passwd.length) == 0)]] ∧
      deferred_actions (sn_crypto_pwhash_str_verify_async K prim a cb).events = []) ∧
    (((prim (.crypto_pwhash_str_verify a.str a.passwd a.passwd.length) == 0) = true) ↔
      prim (.crypto_pwhash_str_verify a.str a.passwd a.passwd.length) = 0) := by
  refine ⟨?_, ?_, ?_⟩
  · intro hcb
    subst hcb
    simp [sn_crypto_pwhash_str_verify_async, h, SN_ASYNC_TASK, SN_QUEUE_TASK,
      async_pwhash_str_verify_execute, async_pwhash_str_verify_complete, delete_ref,
      deferred_actions, callback_actions]
  · intro hcb
    cases cb with
    | none => exact absurd rfl hcb
    | some f =>
      simp [sn_crypto_pwhash_str_verify_async, h, SN_ASYNC_TASK, SN_QUEUE_TASK,
        async_pwhash_str_verify_execute, async_pwhash_str_verify_complete, delete_ref,
        deferred_actions, callback_actions, SN_CALL_FUNCTION]
  · simp

/-- Witness of C17: a verify request with a wrong password (primitive result -1) in promise
mode resolves with `false`. -/
theorem C17_verify_completes_with_boolean_witness :
    sn_crypto_pwhash_str_verify_async_validate crypto_pwhash_constants
      ⟨List.replicate 128 0, [1]⟩ none = none ∧
    deferred_actions (sn_crypto_pwhash_str_verify_async crypto_pwhash_constants prim_fail
      ⟨List.replicate 128 0, [1]⟩ none).events = [.resolve_deferred (.boolean false)] :=
  ⟨by simp [sn_crypto_pwhash_str_verify_async_validate, SN_ASSERT_LENGTH, SN_THROWS,
      SN_ASSERT_OPT_CALLBACK, crypto_pwhash_constants],
    ((C17_verify_completes_with_boolean crypto_pwhash_constants prim_fail
      ⟨List.replicate 128 0, [1]⟩ none
      (by simp [sn_crypto_pwhash_str_verify_async_validate, SN_ASSERT_LENGTH, SN_THROWS,
        SN_ASSERT_OPT_CALLBACK, crypto_pwhash_constants])).1 rfl).1⟩

/-- C18: every completion function performs exactly one completion action, chosen by the
task kind.  For the two verify completions (the shared `async_pwhash_str_verify_complete`)
and for the five key-derivation completions, which deliver through `SN_ASYNC_COMPLETE`: a
promise task settles its deferred exactly once and calls no callback; a callback task calls
its callback exactly once, with two arguments `(error, result)`, and settles no deferred. -/
theorem C18_exactly_one_completion_action
    (tv : sn_async_task_t sn_async_pwhash_str_verify_request)
    (tp : sn_async_task_t sn_async_pwhash_request)
    (ts : sn_async_task_t sn_async_pwhash_str_request)
    (tc : sn_async_task_t sn_async_pwhash_scryptsalsa208sha256_request)
    (tk : sn_async_task_t sn_async_pbkdf2_sha512_request) :
    (match tv.type with
      | .sn_async_task_promise =>
        (deferred_actions (async_pwhash_str_verify_complete tv)).length = 1 ∧
        callback_actions (async_pwhash_str_verify_complete tv) = []
      | .sn_async_task_callback =>
        (∃ e r, callback_actions (async_pwhash_str_verify_complete tv)
          = [.call_function [e, r]]) ∧
        deferred_actions (async_pwhash_str_verify_complete tv) = []) ∧
    (match tp.type with
      | .sn_async_task_promise =>
        (deferred_actions (async_pwhash_complete tp)).length = 1 ∧
        callback_actions (async_pwhash_complete tp) = []
      | .sn_async_task_callback =>
        (∃ e r, callback_actions (async_pwhash_complete tp) = [.call_function [e, r]]) ∧
        deferred_actions (async_pwhash_complete tp) = []) ∧
    (match ts.type with
      | .sn_async_task_promise =>
        (deferred_actions (async_pwhash_str_complete ts)).length = 1 ∧
        callback_actions (async_pwhash_str_complete ts) = []
      | .sn_async_task_callback =>
        (∃ e r, callback_actions (async_pwhash_str_complete ts) = [.call_function [e, r]]) ∧
        deferred_actions (async_pwhash_str_complete ts) = []) ∧
    (match tc.type with
      | .sn_async_task_promise =>
        (deferred_actions (async_pwhash_scryptsalsa208sha256_complete tc)).length = 1 ∧
        callback_actions (async_pwhash_scryptsalsa208sha256_complete tc) = []
      | .sn_async_task_callback =>
        (∃ e r, callback_actions (async_pwhash_scryptsalsa208sha256_complete tc)
          = [.call_function [e, r]]) ∧
        deferred_actions (async_pwhash_scryptsalsa208sha256_complete tc) = []) ∧
    (match tk.type with
      | .sn_async_task_promise =>
        (deferred_actions (async_pbkdf2_sha512_complete tk)).length = 1 ∧
        callback_actions (async_pbkdf2_sha512_complete tk) = []
      | .sn_async_task_callback =>
        (∃ e r, callback_actions (async_pbkdf2_sha512_complete tk) = [.call_function [e, r]]) ∧
        deferred_actions (async_pbkdf2_sha512_complete tk) = []) := by
  refine ⟨?_, ?_, ?_, ?_, ?_⟩
  · obtain ⟨ty, ⟨r1, d1, r2, d2, n⟩, code, df, cb⟩ := tv
    cases ty <;> cases r1 <;> cases r2 <;>
      simp [async_pwhash_str_verify_complete, SN_CALL_FUNCTION, delete_ref, deferred_actions,
        callback_actions]
  · obtain ⟨ty, ⟨r1, o, r2, d2, n, r3, sl, ol, ml, al⟩, code, df, cb⟩ := tp
    cases ty <;> cases r1 <;> cases r2 <;> cases r3 <;> by_cases hc : code = 0 <;>
      simp [async_pwhash_complete, SN_ASYNC_COMPLETE, delete_ref, deferred_actions,
        callback_actions, hc]
  · obtain ⟨ty, ⟨r1, r2, d2, n, ol, ml⟩, code, df, cb⟩ := ts
    cases ty <;> cases r1 <;> cases r2 <;> by_cases hc : code = 0 <;>
      simp [async_pwhash_str_complete, SN_ASYNC_COMPLETE, delete_ref, deferred_actions,
        callback_actions, hc]
  · obtain ⟨ty, ⟨r1, o, r2, d2, n, r3, sl, ol, ml⟩, code, df, cb⟩ := tc
    cases ty <;> cases r1 <;> cases r2 <;> cases r3 <;> by_cases hc : code = 0 <;>
      simp [async_pwhash_scryptsalsa208sha256_complete, SN_ASYNC_COMPLETE, delete_ref,
        deferred_actions, callback_actions, hc]
  · obtain ⟨ty, ⟨o, r1, ol, r2, d2, n, r3, sd, ss, it⟩, code, df, cb⟩ := tk
    cases ty <;> cases r1 <;> cases r2 <;> cases r3 <;> by_cases hc : code = 0 <;>
      simp [async_pbkdf2_sha512_complete, SN_ASYNC_COMPLETE, delete_ref, deferred_actions,
        callback_actions, hc]

/-- C19: for every accepted async call and every result code of the primitive, the buffer
references taken at submission (output or hash string, password, and salt where the
operation has one) are exactly the references released, each released once, and every
release comes after the single primitive invocation of the background phase: none happens
at submission or before the work has run. -/
theorem C19_references_released_once_after_work (K : pwhash_constants)
    (Kp : pbkdf2_constants) (prim : primitive_call → Int) (a : pwhash_args)
    (s : pwhash_str_args) (v : pwhash_str_verify_args) (p : pbkdf2_args) (cb : Option Bool) :
    (sn_crypto_pwhash_async_validate K a cb = none →
      refs_released_after_work (sn_crypto_pwhash_async K prim a cb).events
        [.out, .pwd, .salt]) ∧
    (sn_crypto_pwhash_str_async_validate K s cb = none →
      refs_released_after_work (sn_crypto_pwhash_str_async K prim s cb).events
        [.out, .pwd]) ∧
    (sn_crypto_pwhash_str_verify_async_validate K v cb = none →
      refs_released_after_work (sn_crypto_pwhash_str_verify_async K prim v cb).events
        [.str, .pwd]) ∧
    (sn_crypto_pwhash_scryptsalsa208sha256_async_validate K a cb = none →
      refs_released_after_work
        (sn_crypto_pwhash_scryptsalsa208sha256_async K prim a cb).events
        [.out, .pwd, .salt]) ∧
    (sn_extension_pbkdf2_sha512_async_validate Kp p cb = none →
      refs_released_after_work (sn_extension_pbkdf2_sha512_async Kp prim p cb).events
        [.out, .pwd, .salt]) := by
  refine ⟨?_, ?_, ?_, ?_, ?_⟩
  · intro h
    unfold sn_crypto_pwhash_async
    rw [h]
    cases cb with
    | none =>
      refine ⟨[.alloc_request, .alloc_task, .create_promise, .create_reference .out, .create_reference .pwd, .create_reference .salt, .queue_work], _, _, rfl, ?_, ?_, ?_, ?_, ?_, ?_, ?_⟩ <;>
        simp [primitive_calls, created_refs, deleted_refs, SN_QUEUE_TASK, SN_ASYNC_TASK,
          async_pwhash_execute, async_pwhash_complete, SN_ASYNC_COMPLETE, delete_ref] <;> split <;> simp
    | some f =>
      refine ⟨[.alloc_request, .alloc_task, .create_callback_reference, .create_reference .out, .create_reference .pwd, .create_reference .salt, .queue_work], _, _, rfl, ?_, ?_, ?_, ?_, ?_, ?_, ?_⟩ <;>
        simp [primitive_calls, created_refs, deleted_refs, SN_QUEUE_TASK, SN_ASYNC_TASK,
          async_pwhash_execute, async_pwhash_complete, SN_ASYNC_COMPLETE, delete_ref] <;> split <;> simp
  · intro h
    unfold sn_crypto_pwhash_str_async
    rw [h]
    cases cb with
    | none =>
      refine ⟨[.alloc_request, .alloc_task, .create_promise, .create_reference .out, .create_reference .pwd, .queue_work], _, _, rfl, ?_, ?_, ?_, ?_, ?_, ?_, ?_⟩ <;>
        simp [primitive_calls, created_refs, deleted_refs, SN_QUEUE_TASK, SN_ASYNC_TASK,
          async_pwhash_str_execute, async_pwhash_str_complete, SN_ASYNC_COMPLETE, delete_ref] <;> split <;> simp
    | some f =>
      refine ⟨[.alloc_request, .alloc_task, .create_callback_reference, .create_reference .out, .create_reference .pwd, .queue_work], _, _, rfl, ?_, ?_, ?_, ?_, ?_, ?_, ?_⟩ <;>
        simp [primitive_calls, created_refs, deleted_refs, SN_QUEUE_TASK, SN_ASYNC_TASK,
          async_pwhash_str_execute, async_pwhash_str_complete, SN_ASYNC_COMPLETE, delete_ref] <;> split <;> simp
  · intro h
    unfold sn_crypto_pwhash_str_verify_async
    rw [h]
    cases cb with
    | none =>
      refine ⟨[.alloc_request, .alloc_task, .create_promise, .create_reference .str, .create_reference .pwd, .queue_work], _, _, rfl, ?_, ?_, ?_, ?_, ?_, ?_, ?_⟩ <;>
        simp [primitive_calls, created_refs, deleted_refs, SN_QUEUE_TASK, SN_ASYNC_TASK,
          async_pwhash_str_verify_execute, async_pwhash_str_verify_complete, SN_CALL_FUNCTION,
          delete_ref]
    | some f =>
      refine ⟨[.alloc_request, .alloc_task, .create_callback_reference, .create_reference .str, .create_reference .pwd, .queue_work], _, _, rfl, ?_, ?_, ?_, ?_, ?_, ?_, ?_⟩ <;>
        simp [primitive_calls, created_refs, deleted_refs, SN_QUEUE_TASK, SN_ASYNC_TASK,
          async_pwhash_str_verify_execute, async_pwhash_str_verify_complete, SN_CALL_FUNCTION,
          delete_ref]
  · intro h
    unfold sn_crypto_pwhash_scryptsalsa208sha256_async
    rw [h]
    cases cb with
    | none =>
      refine ⟨[.alloc_request, .alloc_task, .create_promise, .create_reference .out, .create_reference .pwd, .create_reference .salt, .queue_work], _, _, rfl, ?_, ?_, ?_, ?_, ?_, ?_, ?_⟩ <;>
        simp [primitive_calls, created_refs, deleted_refs, SN_QUEUE_TASK, SN_ASYNC_TASK,
          async_pwhash_scryptsalsa208sha256_execute, async_pwhash_scryptsalsa208sha256_complete, SN_ASYNC_COMPLETE, delete_ref] <;> split <;> simp
    | some f =>
      refine ⟨[.alloc_request, .alloc_task, .create_callback_reference, .create_reference .out, .create_reference .pwd, .create_reference .salt, .queue_work], _, _, rfl, ?_, ?_, ?_, ?_, ?_, ?_, ?_⟩ <;>
        simp [primitive_calls, created_refs, deleted_refs, SN_QUEUE_TASK, SN_ASYNC_TASK,
          async_pwhash_scryptsalsa208sha256_execute, async_pwhash_scryptsalsa208sha256_complete, SN_ASYNC_COMPLETE, delete_ref] <;> split <;> simp
  · intro h
    unfold sn_extension_pbkdf2_sha512_async
    rw [h]
    cases cb with
    | none =>
      refine ⟨[.alloc_request, .alloc_task, .create_promise, .create_reference .out, .create_reference .pwd, .create_reference .salt, .queue_work], _, _, rfl, ?_, ?_, ?_, ?_, ?_, ?_, ?_⟩ <;>
        simp [primitive_calls, created_refs, deleted_refs, SN_QUEUE_TASK, SN_ASYNC_TASK,
          async_pbkdf2_sha512_execute, async_pbkdf2_sha512_complete, SN_ASYNC_COMPLETE, delete_ref] <;> split <;> simp
    | some f =>
      refine ⟨[.alloc_request, .alloc_task, .create_callback_reference, .create_reference .out, .create_reference .pwd, .create_reference .salt, .queue_work], _, _, rfl, ?_, ?_, ?_, ?_, ?_, ?_, ?_⟩ <;>
        simp [primitive_calls, created_refs, deleted_refs, SN_QUEUE_TASK, SN_ASYNC_TASK,
          async_pbkdf2_sha512_execute, async_pbkdf2_sha512_complete, SN_ASYNC_COMPLETE, delete_ref] <;> split <;> simp

/-- Witness of C19: an accepted `crypto_pwhash_async` call in promise mode whose primitive
fails. -/
theorem C19_references_released_once_after_work_witness :
    sn_crypto_pwhash_async_validate crypto_pwhash_constants demo_pwhash_args none = none ∧
    refs_released_after_work
      (sn_crypto_pwhash_async crypto_pwhash_constants prim_fail demo_pwhash_args none).events
      [.out, .pwd, .salt] :=
  ⟨by decide,
    (C19_references_released_once_after_work crypto_pwhash_constants ⟨1, 64⟩ prim_fail
      demo_pwhash_args ⟨128, [], 2, 8192⟩ ⟨[], []⟩ ⟨64, [], [], 1, 64⟩ none).1 (by decide)⟩

/-- C20: when the synchronous validation of an async binding fails, the call throws that
error and causes nothing else: the trace is empty, so no request or task is allocated, no
reference is taken, no work is queued and the primitive is never invoked, and no promise is
returned.  For `crypto_pwhash_async` the validation fails exactly when the output length,
salt length, `opslimit`, `memlimit` or algorithm is out of range or the callback is not a
function; for `crypto_pwhash_str_verify_async` exactly when the hash string length is wrong
or the callback is not a function. -/
theorem C20_failed_validation_starts_nothing (K : pwhash_constants) (Kp : pbkdf2_constants)
    (prim : primitive_call → Int) (a : pwhash_args) (s : pwhash_str_args)
    (v : pwhash_str_verify_args) (p : pbkdf2_args) (cb : Option Bool) (e : kdf_thrown) :
    (sn_crypto_pwhash_async_validate K a cb = some e →
      sn_crypto_pwhash_async K prim a cb = ⟨some e, false, []⟩) ∧
    (sn_crypto_pwhash_str_async_validate K s cb = some e →
      sn_crypto_pwhash_str_async K prim s cb = ⟨some e, false, []⟩) ∧
    (sn_crypto_pwhash_str_verify_async_validate K v cb = some e →
      sn_crypto_pwhash_str_verify_async K prim v cb = ⟨some e, false, []⟩) ∧
    (sn_crypto_pwhash_scryptsalsa208sha256_async_validate K a cb = some e →
      sn_crypto_pwhash_scryptsalsa208sha256_async K prim a cb = ⟨some e, false, []⟩) ∧
    (sn_extension_pbkdf2_sha512_async_validate Kp p cb = some e →
      sn_extension_pbkdf2_sha512_async Kp prim p cb = ⟨some e, false, []⟩) ∧
    (sn_crypto_pwhash_async_validate K a cb ≠ none ↔
      (a.out_size < K.BYTES_MIN ∨ a.out_size > K.BYTES_MAX ∨ a.salt.length ≠ K.SALTBYTES ∨
        a.opslimit < K.OPSLIMIT_MIN ∨ a.opslimit > K.OPSLIMIT_MAX ∨
        a.memlimit < K.MEMLIMIT_MIN ∨ a.memlimit > K.MEMLIMIT_MAX ∨
        a.alg < 1 ∨ a.alg > 2 ∨ cb = some false)) ∧
    (sn_crypto_pwhash_str_verify_async_validate K v cb ≠ none ↔
      (v.str.length ≠ K.STRBYTES ∨ cb = some false)) := by
  refine ⟨?_, ?_, ?_, ?_, ?_, ?_, ?_⟩
  · intro h
    unfold sn_crypto_pwhash_async
    rw [h]
  · intro h
    unfold sn_crypto_pwhash_str_async
    rw [h]
  · intro h
    unfold sn_crypto_pwhash_str_verify_async
    rw [h]
  · intro h
    unfold sn_crypto_pwhash_scryptsalsa208sha256_async
    rw [h]
  · intro h
    unfold sn_extension_pbkdf2_sha512_async
    rw [h]
  · simp only [sn_crypto_pwhash_async_validate, SN_ASSERT_MIN_LENGTH, SN_ASSERT_MAX_LENGTH,
      SN_ASSERT_LENGTH, SN_ASSERT_OPT_CALLBACK, throws_ne_none]
    simp [or_assoc]
  · simp only [sn_crypto_pwhash_str_verify_async_validate, SN_ASSERT_LENGTH,
      SN_ASSERT_OPT_CALLBACK, throws_ne_none]
    simp

/-- Witness of C20: `crypto_pwhash_async` with a callback argument that is not a function. -/
theorem C20_failed_validation_starts_nothing_witness :
    sn_crypto_pwhash_async_validate crypto_pwhash_constants demo_pwhash_args (some false)
      = some .callback ∧
    (sn_crypto_pwhash_async crypto_pwhash_constants prim_ok demo_pwhash_args
      (some false)).events = [] :=
  ⟨by decide,
    by rw [(C20_failed_validation_starts_nothing crypto_pwhash_constants ⟨1, 64⟩ prim_ok
      demo_pwhash_args ⟨128, [], 2, 8192⟩ ⟨[], []⟩ ⟨64, [], [], 1, 64⟩ (some false)
      .callback).1 (by decide)]⟩

/-- C21: for each key-derivation task (`crypto_pwhash`, the `_str` task shared by Argon2 and
scrypt, scrypt, and PBKDF2), of either kind and with any request: the execute function
invokes the primitive once and the completion function then performs one completion action,
which is an error completion (rejected deferred, or callback with a non-null error) exactly
when the primitive returned a non-zero code, and a success completion exactly when it
returned 0. -/
theorem C21_error_completion_iff_nonzero_code (prim : primitive_call → Int)
    (tp : sn_async_task_t sn_async_pwhash_request)
    (ts : sn_async_task_t sn_async_pwhash_str_request)
    (tc : sn_async_task_t sn_async_pwhash_scryptsalsa208sha256_request)
    (tk : sn_async_task_t sn_async_pbkdf2_sha512_request) :
    (∃ call e, (async_pwhash_execute prim tp).2 = [.primitive call] ∧
      completion_actions (async_pwhash_complete (async_pwhash_execute prim tp).1) = [e] ∧
      (is_error_completion e = true ↔ prim call ≠ 0) ∧
      (is_success_completion e = true ↔ prim call = 0)) ∧
    (∃ call e, (async_pwhash_str_execute prim ts).2 = [.primitive call] ∧
      completion_actions (async_pwhash_str_complete (async_pwhash_str_execute prim ts).1)
        = [e] ∧
      (is_error_completion e = true ↔ prim call ≠ 0) ∧
      (is_success_completion e = true ↔ prim call = 0)) ∧
    (∃ call e, (async_pwhash_scryptsalsa208sha256_execute prim tc).2 = [.primitive call] ∧
      completion_actions (async_pwhash_scryptsalsa208sha256_complete
        (async_pwhash_scryptsalsa208sha256_execute prim tc).1) = [e] ∧
      (is_error_completion e = true ↔ prim call ≠ 0) ∧
      (is_success_completion e = true ↔ prim call = 0)) ∧
    (∃ call e, (async_pbkdf2_sha512_execute prim tk).2 = [.primitive call] ∧
      completion_actions (async_pbkdf2_sha512_complete (async_pbkdf2_sha512_execute prim tk).1)
        = [e] ∧
      (is_error_completion e = true ↔ prim call ≠ 0) ∧
      (is_success_completion e = true ↔ prim call = 0)) := by
  refine ⟨?_, ?_, ?_, ?_⟩
  · obtain ⟨ty, ⟨r1, o, r2, d2, n, r3, sl, ol, ml, al⟩, code, df, cb⟩ := tp
    refine ⟨.crypto_pwhash o d2 n sl ol ml al,
      (@SN_ASYNC_COMPLETE Unit
        ⟨ty, (), prim (.crypto_pwhash o d2 n sl ol ml al), df, cb⟩).headD .free_task, rfl, ?_⟩
    cases ty <;> cases r1 <;> cases r2 <;> cases r3 <;>
      by_cases hc : prim (.crypto_pwhash o d2 n sl ol ml al) = 0 <;>
      simp [async_pwhash_execute, async_pwhash_complete, SN_ASYNC_COMPLETE, delete_ref,
        completion_actions, is_error_completion, is_success_completion, hc]
  · obtain ⟨ty, ⟨r1, r2, d2, n, ol, ml⟩, code, df, cb⟩ := ts
    refine ⟨.crypto_pwhash_str d2 n ol ml,
      (@SN_ASYNC_COMPLETE Unit
        ⟨ty, (), prim (.crypto_pwhash_str d2 n ol ml), df, cb⟩).headD .free_task, rfl, ?_⟩
    cases ty <;> cases r1 <;> cases r2 <;>
      by_cases hc : prim (.crypto_pwhash_str d2 n ol ml) = 0 <;>
      simp [async_pwhash_str_execute, async_pwhash_str_complete, SN_ASYNC_COMPLETE, delete_ref,
        completion_actions, is_error_completion, is_success_completion, hc]
  · obtain ⟨ty, ⟨r1, o, r2, d2, n, r3, sl, ol, ml⟩, code, df, cb⟩ := tc
    refine ⟨.crypto_pwhash_scryptsalsa208sha256 o d2 n sl ol ml,
      (@SN_ASYNC_COMPLETE Unit
        ⟨ty, (), prim (.crypto_pwhash_scryptsalsa208sha256 o d2 n sl ol ml), df, cb⟩).headD
          .free_task, rfl, ?_⟩
    cases ty <;> cases r1 <;> cases r2 <;> cases r3 <;>
      by_cases hc : prim (.crypto_pwhash_scryptsalsa208sha256 o d2 n sl ol ml) = 0 <;>
      simp [async_pwhash_scryptsalsa208sha256_execute,
        async_pwhash_scryptsalsa208sha256_complete, SN_ASYNC_COMPLETE, delete_ref,
        completion_actions, is_error_completion, is_success_completion, hc]
  · obtain ⟨ty, ⟨o, r1, ol, r2, d2, n, r3, sd, ss, it⟩, code, df, cb⟩ := tk
    refine ⟨.pbkdf2_sha512 d2 n sd ss it ol,
      (@SN_ASYNC_COMPLETE Unit
        ⟨ty, (), prim (.pbkdf2_sha512 d2 n sd ss it ol), df, cb⟩).headD .free_task, rfl, ?_⟩
    cases ty <;> cases r1 <;> cases r2 <;> cases r3 <;>
      by_cases hc : prim (.pbkdf2_sha512 d2 n sd ss it ol) = 0 <;>
      simp [async_pbkdf2_sha512_execute, async_pbkdf2_sha512_complete, SN_ASYNC_COMPLETE,
        delete_ref, completion_actions, is_error_completion, is_success_completion, hc]

/-- C22: for every state with remainder `r`, `0 < r < 64`, and every input of length `L`
with `L < 64 - r` (and an output buffer of the same length), `update` is accepted, writes
`c[i] = next_block[r + i] XOR m[i]` for every `i < L`, sets `remainder` to `r + L`, which is
still below 64, and leaves `block_counter`, the cache, the nonce and the key unchanged. -/
theorem C22_short_update_reads_cache (F : Family) (st : sn_crypto_stream_xor_state)
    (c m : List Nat) (r : Nat) (hr : st.remainder = (r : Int)) (hpos : 0 < r)
    (hshort : m.length < 64 - r) (hlen : c.length = m.length) :
    (sn_crypto_stream_xor_wrap_update F F.STATEBYTES st c m).thrown = none ∧
    (sn_crypto_stream_xor_wrap_update F F.STATEBYTES st c m).c.length = m.length ∧
    (∀ i, i < m.length →
      (sn_crypto_stream_xor_wrap_update F F.STATEBYTES st c m).c.getD i 0
        = st.next_block.getD (r + i) 0 ^^^ m.getD i 0) ∧
    (sn_crypto_stream_xor_wrap_update F F.STATEBYTES st c m).state
      = { st with remainder := ((r + m.length : Nat) : Int) } ∧
    r + m.length < 64 := by
  have hr0 : ¬ ((r : Nat) : Int) = 0 := by omega
  have hg := gap_loop_cache st.next_block m r (by omega)
  have hmin : min (64 - r) m.length = m.length := by omega
  have htake : m.take (64 - r) = m := List.take_of_length_le (by omega)
  have h64 : ¬ ((r + m.length : Nat) : Int) = 64 := by omega
  rw [hmin, htake] at hg
  simp only [sn_crypto_stream_xor_wrap_update, SN_THROWS, bne_self_eq_false, hlen, hr, hr0,
    ne_eq, not_false_eq_true, if_true, if_false, Bool.false_eq_true, hg, xor_from_length,
    List.length_drop, Nat.sub_self, h64]
  refine ⟨trivial, trivial, ?_, trivial, by omega⟩
  intro i hi
  rw [xor_from_getD _ _ _ _ hi, Nat.xor_comm]

/-- Witness of C22: the toy session after one byte (`remainder = 1`) and a 3-byte input. -/
theorem C22_short_update_reads_cache_witness :
    demo_after_one_byte.remainder = ((1 : Nat) : Int) ∧
    (sn_crypto_stream_xor_wrap_update toy_family toy_family.STATEBYTES demo_after_one_byte
        [0, 0, 0] [1, 2, 3]).state
      = { demo_after_one_byte with remainder := ((1 + 3 : Nat) : Int) } :=
  ⟨by decide,
    (C22_short_update_reads_cache toy_family demo_after_one_byte [0, 0, 0] [1, 2, 3] 1
      (by decide) (by decide) (by decide) (by decide)).2.2.2.1⟩

/-- C23: for every state with `remainder = 0` and block counter `b` (a `uint64_t`), and every
input of length `L` with `tail = L mod 64` (output buffer of the same length), under a
primitive that XORs with the keystream from byte `64 * ic` and takes `ic` as a `uint64_t`
(or, when its `ic` is narrower, for an input that ends within the first `2 ^ ic_bits`
blocks, so that the counter reaches the primitive as it is): `update` is accepted; output byte
`i < L - tail` is `m[i] XOR` byte `i mod 64` of keystream block `b + i / 64`; output byte
`L - tail + i`, `i < tail`, is `m[L - tail + i] XOR` byte `i` of keystream block
`b + (L - tail) / 64`; `remainder` becomes `tail`; and `block_counter` becomes
`b + (L - tail) / 64`, plus 1 when `tail > 0`, all block numbers modulo `2 ^ 64`. -/
theorem C23_aligned_update_blocks_then_tail (F : Family)
    (block : List Nat → List Nat → Nat → Nat → Nat) (hspec : xor_ic_spec F.xor_ic block)
    (st : sn_crypto_stream_xor_state) (c m : List Nat)
    (hr : st.remainder = 0) (hb : st.block_counter < 2 ^ 64) (hlen : c.length = m.length)
    (hrange : F.ic_bits < 64 → 64 * st.block_counter + m.length ≤ 64 * 2 ^ F.ic_bits) :
    (sn_crypto_stream_xor_wrap_update F F.STATEBYTES st c m).thrown = none ∧
    (sn_crypto_stream_xor_wrap_update F F.STATEBYTES st c m).c.length = m.length ∧
    (∀ i, i < m.length - m.length % 64 →
      (sn_crypto_stream_xor_wrap_update F F.STATEBYTES st c m).c.getD i 0
        = m.getD i 0 ^^^ block st.n st.k ((st.block_counter + i / 64) % 2 ^ 64) (i % 64)) ∧
    (∀ i, i < m.length % 64 →
      (sn_crypto_stream_xor_wrap_update F F.STATEBYTES st c m).c.getD
          (m.length - m.length % 64 + i) 0
        = m.getD (m.length - m.length % 64 + i) 0 ^^^
          block st.n st.k
            ((st.block_counter + (m.length - m.length % 64) / 64) % 2 ^ 64) i) ∧
    (sn_crypto_stream_xor_wrap_update F F.STATEBYTES st c m).state.remainder
      = ((m.length % 64 : Nat) : Int) ∧
    (sn_crypto_stream_xor_wrap_update F F.STATEBYTES st c m).state.block_counter
      = (st.block_counter + (m.length - m.length % 64) / 64
          + (if 0 < m.length % 64 then 1 else 0)) % 2 ^ 64 := by
  have hinv : session_inv block st.n st.k (64 * st.block_counter) st := by
    refine ⟨rfl, rfl, ?_, ?_, ?_⟩
    · rw [hr]; omega
    · omega
    · intro h; omega
  obtain ⟨h1, h2, _, _, h3, h4, _⟩ :=
    update_step F block hspec st.n st.k (64 * st.block_counter) st c m hinv hlen hrange
  refine ⟨h1, ?_, ?_, ?_, ?_, ?_⟩
  · rw [h2, xor_from_length]
  · intro i hi
    rw [h2, xor_from_getD _ _ _ _ (by omega)]
    unfold keystream
    have e1 : (64 * st.block_counter + i) / 64 = st.block_counter + i / 64 := by omega
    have e2 : (64 * st.block_counter + i) % 64 = i % 64 := by omega
    rw [e1, e2]
  · intro i hi
    rw [h2, xor_from_getD _ _ _ _ (by omega)]
    unfold keystream
    have e1 : (64 * st.block_counter + (m.length - m.length % 64 + i)) / 64
        = st.block_counter + (m.length - m.length % 64) / 64 := by omega
    have e2 : (64 * st.block_counter + (m.length - m.length % 64 + i)) % 64 = i := by omega
    rw [e1, e2]
  · rw [h3]; congr 1; omega
  · rw [h4]
    split <;> omega

/-- Witness of C23: the fresh toy session (remainder 0, block 0) and a 70-byte input: one
whole block and a 6-byte tail, leaving `remainder = 6` and `block_counter = 2`. -/
theorem C23_aligned_update_blocks_then_tail_witness :
    xor_ic_spec toy_family.xor_ic toy_block ∧ demo_ready.remainder = 0 ∧
    demo_ready.block_counter < 2 ^ 64 ∧ ¬ toy_family.ic_bits < 64 ∧
    (sn_crypto_stream_xor_wrap_update toy_family toy_family.STATEBYTES demo_ready
        (List.replicate 70 0) (List.replicate 70 1)).state.remainder = ((70 % 64 : Nat) : Int) ∧
    (sn_crypto_stream_xor_wrap_update toy_family toy_family.STATEBYTES demo_ready
        (List.replicate 70 0) (List.replicate 70 1)).state.block_counter = 2 :=
  have h := C23_aligned_update_blocks_then_tail toy_family toy_block (fun _ _ _ _ => rfl)
    demo_ready (List.replicate 70 0) (List.replicate 70 1) (by decide) (by decide) (by simp)
    (fun h => absurd h (by decide))
  ⟨fun _ _ _ _ => rfl, by decide, by decide, by decide,
    by simpa using h.2.2.2.2.1,
    by rw [h.2.2.2.2.2]; simp only [List.length_replicate]; decide⟩

/-- C24 as stated fails: after `init` and a one-byte update of the byte 7 on the toy family,
which ends with the tail 1, byte 0 of the cache is the ciphertext byte `7 XOR 132`, not the
keystream byte 132 of block `block_counter - 1`; and the cache depends on the plaintext: the
byte 5 instead of 7 leaves a different cache. -/
theorem C24_whole_cache_is_keystream_counterexample :
    demo_after_one_byte.remainder = 1 ∧ demo_after_one_byte.block_counter = 1 ∧
    toy_block demo_nonce demo_key (demo_after_one_byte.block_counter - 1) 0 = 132 ∧
    demo_after_one_byte.next_block.getD 0 0 = 7 ^^^ 132 ∧
    demo_after_one_byte.next_block.getD 0 0
      ≠ toy_block demo_nonce demo_key (demo_after_one_byte.block_counter - 1) 0 ∧
    (sn_crypto_stream_xor_wrap_update toy_family 120 demo_ready [0] [5]).state.next_block
      ≠ demo_after_one_byte.next_block := by
  decide

/-- C24, amended: for every family (`ic` of at most 64 bits), every state with
`remainder = r0 < 64` and every accepted update that runs the tail step (the input left after
the gap is not empty and not a multiple of 64, so the new remainder `r = (r0 + L) mod 64` is
non-zero), under a primitive that XORs with the keystream: cache bytes `r..63` equal bytes
`r..63` of the keystream block the primitive was called at, which is `block_counter - 1`
(modulo `2 ^ 64`) converted to the type of `ic` (so modulo `2 ^ 32` for chacha20_ietf), for
every plaintext; and cache bytes `0..r-1` hold the ciphertext of the tail,
`m[L - r + j] XOR` byte `j` of that keystream block. -/
theorem C24_cache_after_tail_step (F : Family)
    (block : List Nat → List Nat → Nat → Nat → Nat) (hspec : xor_ic_spec F.xor_ic block)
    (hw : F.ic_bits ≤ 64)
    (st : sn_crypto_stream_xor_state) (c m : List Nat) (r0 : Nat)
    (hr : st.remainder = (r0 : Int)) (hr0 : r0 < 64) (hlen : c.length = m.length)
    (hreach : r0 = 0 ∨ 64 - r0 < m.length) (htail : (r0 + m.length) % 64 ≠ 0) :
    (∀ j, (r0 + m.length) % 64 ≤ j → j < 64 →
      (sn_crypto_stream_xor_wrap_update F F.STATEBYTES st c m).state.next_block.getD j 0
        = block st.n st.k
            (((sn_crypto_stream_xor_wrap_update F F.STATEBYTES st c m).state.block_counter
              + (2 ^ 64 - 1)) % 2 ^ 64 % 2 ^ F.ic_bits) j) ∧
    (∀ j, j < (r0 + m.length) % 64 →
      (sn_crypto_stream_xor_wrap_update F F.STATEBYTES st c m).state.next_block.getD j 0
        = m.getD (m.length - (r0 + m.length) % 64 + j) 0 ^^^
          block st.n st.k
            (((sn_crypto_stream_xor_wrap_update F F.STATEBYTES st c m).state.block_counter
              + (2 ^ 64 - 1)) % 2 ^ 64 % 2 ^ F.ic_bits) j) := by
  have hX : ∀ B : Nat, B % 2 ^ F.ic_bits % 2 ^ 64 = B % 2 ^ F.ic_bits := fun B =>
    Nat.mod_eq_of_lt (lt_of_lt_of_le (Nat.mod_lt _ (Nat.two_pow_pos _))
      (Nat.pow_le_pow_right (by decide) hw))
  have hst := update_reaches_blocks F st c m r0 hr hr0 hlen hreach
  have hgl : (if r0 = 0 then 0 else 64 - r0) ≤ m.length := by
    split <;> omega
  have hL : (m.drop (if r0 = 0 then 0 else 64 - r0)).length
      = m.length - (if r0 = 0 then 0 else 64 - r0) := List.length_drop _ _
  have hmod : (m.drop (if r0 = 0 then 0 else 64 - r0)).length % 64 = (r0 + m.length) % 64 := by
    rw [hL]; split <;> omega
  obtain ⟨hnb, hbc⟩ := update_blocks_cache F block hspec { st with remainder := 0 }
    (m.drop (if r0 = 0 then 0 else 64 - r0)) (by rw [hmod]; exact htail)
  rw [hst, hnb, hbc]
  have hB : ∀ B : Nat, ((B % 2 ^ 64 + 1) % 2 ^ 64 + (2 ^ 64 - 1)) % 2 ^ 64 = B % 2 ^ 64 := by
    intro B; omega
  rw [hB]
  have hdl : (List.drop ((m.drop (if r0 = 0 then 0 else 64 - r0)).length
      - (m.drop (if r0 = 0 then 0 else 64 - r0)).length % 64)
        (m.drop (if r0 = 0 then 0 else 64 - r0))).length = (r0 + m.length) % 64 := by
    rw [List.length_drop, hmod]; omega
  have hidx : ∀ j, (if r0 = 0 then 0 else 64 - r0)
      + ((m.drop (if r0 = 0 then 0 else 64 - r0)).length
        - (m.drop (if r0 = 0 then 0 else 64 - r0)).length % 64 + j)
      = m.length - (r0 + m.length) % 64 + j := by
    intro j
    rw [hmod, hL]
    split <;> omega
  constructor
  · intro j h1 h2
    rw [xor_from_getD _ _ _ _ (by rw [List.length_append, hdl, List.length_replicate, hmod]; omega)]
    rw [List.getD_append_right _ _ _ _ (by rw [hdl]; exact h1), getD_replicate_zero,
      Nat.zero_xor, keystream_block _ _ _ _ _ h2, hX]
  · intro j h1
    have h2 : j < 64 := by omega
    rw [xor_from_getD _ _ _ _ (by rw [List.length_append, hdl, List.length_replicate, hmod]; omega)]
    rw [List.getD_append _ _ _ _ (by rw [hdl]; exact h1), getD_drop, getD_drop,
      keystream_block _ _ _ _ _ h2, hX, hidx]

/-- Witness of C24: the toy session after one byte (`remainder = 1`) and a 70-byte input,
which fills the 63-byte gap and leaves a 7-byte tail. -/
theorem C24_cache_after_tail_step_witness :
    xor_ic_spec toy_family.xor_ic toy_block ∧ toy_family.ic_bits ≤ 64 ∧
    demo_after_one_byte.remainder = ((1 : Nat) : Int) ∧ (1 + 70) % 64 ≠ 0 ∧
    (∀ j, (1 + (List.replicate 70 1).length) % 64 ≤ j → j < 64 →
      (sn_crypto_stream_xor_wrap_update toy_family toy_family.STATEBYTES demo_after_one_byte
        (List.replicate 70 0) (List.replicate 70 1)).state.next_block.getD j 0
        = toy_block demo_after_one_byte.n demo_after_one_byte.k
            (((sn_crypto_stream_xor_wrap_update toy_family toy_family.STATEBYTES
              demo_after_one_byte (List.replicate 70 0)
              (List.replicate 70 1)).state.block_counter + (2 ^ 64 - 1)) % 2 ^ 64
              % 2 ^ toy_family.ic_bits) j) :=
  ⟨fun _ _ _ _ => rfl, by decide, by decide, by decide,
    (C24_cache_after_tail_step toy_family toy_block (fun _ _ _ _ => rfl) (by decide)
      demo_after_one_byte
      (List.replicate 70 0) (List.replicate 70 1) 1 (by decide) (by decide) (by simp)
      (Or.inr (by simp)) (by simp)).1⟩

/-- C25: after `init` and any sequence of updates whose input lengths sum to `T`, every call
having been accepted, `remainder = T mod 64` (so it lies in 0..63 and never is 64) and
`block_counter = ceil (T / 64)` modulo `2 ^ 64`, whatever the split of `T` into updates and
whatever the primitive. -/
theorem C25_counters_depend_on_total_only (F : Family) (st0 : sn_crypto_stream_xor_state)
    (n k : List Nat) (hn : n.length = F.NONCEBYTES) (hk : k.length = F.KEYBYTES)
    (ms : List (List Nat)) :
    ∃ st out, xor_session F F.STATEBYTES
        (sn_crypto_stream_xor_wrap_init F F.STATEBYTES st0 n k).state ms = some (st, out) ∧
      st.remainder = ((ms.flatten.length % 64 : Nat) : Int) ∧
      0 ≤ st.remainder ∧ st.remainder < 64 ∧
      st.block_counter = (ms.flatten.length + 63) / 64 % 2 ^ 64 := by
  have hinit := init_accepted F st0 n k hn hk
  obtain ⟨st, out, h1, h2, h3, _, _⟩ := xor_session_counters F ms 0
    (sn_crypto_stream_xor_wrap_init F F.STATEBYTES st0 n k).state
    (by rw [hinit]; rfl) (by rw [hinit]; rfl)
  simp only [Nat.zero_add] at h2 h3
  refine ⟨st, out, h1, h2, ?_, ?_, h3⟩
  · rw [h2]; omega
  · rw [h2]; omega

/-- Witness of C25: 70 bytes as 10 + 60 and as 64 + 6 give the same counters. -/
theorem C25_counters_depend_on_total_only_witness :
    demo_nonce.length = toy_family.NONCEBYTES ∧ demo_key.length = toy_family.KEYBYTES ∧
    (∃ st out, xor_session toy_family toy_family.STATEBYTES
        (sn_crypto_stream_xor_wrap_init toy_family toy_family.STATEBYTES junk_state
          demo_nonce demo_key).state [List.replicate 10 1, List.replicate 60 2]
          = some (st, out) ∧
      st.remainder = 6 ∧ st.block_counter = 2) ∧
    (∃ st out, xor_session toy_family toy_family.STATEBYTES
        (sn_crypto_stream_xor_wrap_init toy_family toy_family.STATEBYTES junk_state
          demo_nonce demo_key).state [List.replicate 64 1, List.replicate 6 2]
          = some (st, out) ∧
      st.remainder = 6 ∧ st.block_counter = 2) :=
  ⟨by decide, by decide,
    match C25_counters_depend_on_total_only toy_family junk_state demo_nonce demo_key
      (by decide) (by decide) [List.replicate 10 1, List.replicate 60 2] with
    | ⟨st, out, h1, h2, _, _, h3⟩ => ⟨st, out, h1, by rw [h2]; decide, by rw [h3]; decide⟩,
    match C25_counters_depend_on_total_only toy_family junk_state demo_nonce demo_key
      (by decide) (by decide) [List.replicate 64 1, List.replicate 6 2] with
    | ⟨st, out, h1, h2, _, _, h3⟩ => ⟨st, out, h1, by rw [h2]; decide, by rw [h3]; decide⟩⟩

/-- C26: after `init` followed by any sequence of accepted updates, under a primitive that
XORs with the keystream and takes `ic` as a `uint64_t` (or, when its `ic` is narrower, while
the input stays within the first `2 ^ ic_bits` blocks, so that the counter reaches the
primitive as it is), whenever the remainder `r` is non-zero it lies in 1..63 and the
cache bytes at positions `r..63` equal bytes `r..63` of the keystream block numbered
`block_counter - 1` (modulo `2 ^ 64`) for the session's nonce and key, whatever the
plaintexts and the split. -/
theorem C26_unused_cache_bytes_are_keystream (F : Family)
    (block : List Nat → List Nat → Nat → Nat → Nat) (hspec : xor_ic_spec F.xor_ic block)
    (st0 : sn_crypto_stream_xor_state) (n k : List Nat)
    (hn : n.length = F.NONCEBYTES) (hk : k.length = F.KEYBYTES) (ms : List (List Nat))
    (hrange : F.ic_bits < 64 → ms.flatten.length ≤ 64 * 2 ^ F.ic_bits) :
    ∃ st out, xor_session F F.STATEBYTES
        (sn_crypto_stream_xor_wrap_init F F.STATEBYTES st0 n k).state ms = some (st, out) ∧
      st.n = n ∧ st.k = k ∧
      (st.remainder ≠ 0 →
        ∃ r : Nat, st.remainder = (r : Int) ∧ 0 < r ∧ r < 64 ∧
          ∀ j, r ≤ j → j < 64 →
            st.next_block.getD j 0
              = block n k ((st.block_counter + (2 ^ 64 - 1)) % 2 ^ 64) j) := by
  obtain ⟨st, h1, h2⟩ := xor_session_spec F block hspec n k ms 0 _
    (init_session_inv F block st0 n k hn hk)
    (fun hw => by rw [Nat.zero_add]; exact hrange hw)
  refine ⟨st, _, h1, h2.1, h2.2.1, ?_⟩
  intro hne
  have hrem := h2.2.2.1
  have hT : (0 + ms.flatten.length) % 64 ≠ 0 := by
    intro h0
    rw [h0] at hrem
    exact hne hrem
  exact ⟨(0 + ms.flatten.length) % 64, hrem, by omega, by omega,
    session_inv_cache block n k _ st h2 hT⟩

/-- Witness of C26: the toy session after the chunks 60 + 10 bytes, which stops at
`remainder = 6`. -/
theorem C26_unused_cache_bytes_are_keystream_witness :
    xor_ic_spec toy_family.xor_ic toy_block ∧
    demo_nonce.length = toy_family.NONCEBYTES ∧ demo_key.length = toy_family.KEYBYTES ∧
    ¬ toy_family.ic_bits < 64 ∧
    ∃ st out, xor_session toy_family toy_family.STATEBYTES
        (sn_crypto_stream_xor_wrap_init toy_family toy_family.STATEBYTES junk_state
          demo_nonce demo_key).state [List.replicate 60 1, List.replicate 10 2]
          = some (st, out) ∧
      st.n = demo_nonce ∧ st.k = demo_key ∧
      (st.remainder ≠ 0 →
        ∃ r : Nat, st.remainder = (r : Int) ∧ 0 < r ∧ r < 64 ∧
          ∀ j, r ≤ j → j < 64 →
            st.next_block.getD j 0
              = toy_block demo_nonce demo_key
                  ((st.block_counter + (2 ^ 64 - 1)) % 2 ^ 64) j) :=
  ⟨fun _ _ _ _ => rfl, by decide, by decide, by decide,
    C26_unused_cache_bytes_are_keystream toy_family toy_block (fun _ _ _ _ => rfl) junk_state
      demo_nonce demo_key (by decide) (by decide) [List.replicate 60 1, List.replicate 10 2]
      (fun h => absurd h (by decide))⟩

/-- C27 as stated fails for a state whose `remainder` is 64, a value of the range 0..64 the
data model gives the field: the empty update is accepted, skips the gap loop and stores
`remainder = 0`, so the state is not what it was. -/
theorem C27_empty_update_unchanged_counterexample :
    (sn_crypto_stream_xor_wrap_update toy_family 120 { junk_state with remainder := 64 }
      [] []).thrown = none ∧
    (sn_crypto_stream_xor_wrap_update toy_family 120 { junk_state with remainder := 64 }
      [] []).state.remainder = 0 ∧
    (sn_crypto_stream_xor_wrap_update toy_family 120 { junk_state with remainder := 64 }
      [] []).state ≠ { junk_state with remainder := 64 } := by
  decide

/-- C27, amended: for every state whose `remainder` is not 64 (zero or non-zero; every state
reached from `init` has it in 0..63) and whose `block_counter` is a `uint64_t`, under a
primitive that writes as many bytes as it reads, an update with zero-length input and output
is accepted, returns the state as it was (nonce, key, cache, remainder and block counter)
and writes no output byte. -/
theorem C27_empty_update_is_identity (F : Family)
    (hwrites : ∀ m n ic k, (F.xor_ic m n ic k).length = m.length)
    (st : sn_crypto_stream_xor_state) (hr : st.remainder ≠ 64)
    (hb : st.block_counter < 2 ^ 64) :
    sn_crypto_stream_xor_wrap_update F F.STATEBYTES st [] [] = ⟨none, st, []⟩ := by
  have hnil : ∀ n ic k, F.xor_ic [] n ic k = [] := fun n ic k =>
    List.length_eq_zero.mp (hwrites [] n ic k)
  by_cases h0 : st.remainder = 0
  · have hmod : st.block_counter % 2 ^ 64 = st.block_counter := Nat.mod_eq_of_lt hb
    have hst : { st with remainder := 0, block_counter := st.block_counter } = st := by
      cases st
      simp only at h0
      simp only [h0]
    simp only [sn_crypto_stream_xor_wrap_update, SN_THROWS, bne_self_eq_false, h0, ne_eq,
      not_true_eq_false, if_false, Bool.false_eq_true, update_blocks, List.length_nil,
      Nat.zero_and, Nat.cast_zero, Nat.sub_zero, List.take_nil, hnil, Nat.zero_div,
      Nat.add_zero, hmod, hst]
  · simp only [sn_crypto_stream_xor_wrap_update, SN_THROWS, bne_self_eq_false, h0, ne_eq,
      not_false_eq_true, if_true, if_false, Bool.false_eq_true, gap_loop, List.length_nil,
      List.drop_nil, hr]

/-- Witness of C27: the toy session after one byte (`remainder = 1`). -/
theorem C27_empty_update_is_identity_witness :
    demo_after_one_byte.remainder ≠ 64 ∧ demo_after_one_byte.block_counter < 2 ^ 64 ∧
    sn_crypto_stream_xor_wrap_update toy_family toy_family.STATEBYTES demo_after_one_byte
      [] [] = ⟨none, demo_after_one_byte, []⟩ :=
  ⟨by decide, by decide,
    C27_empty_update_is_identity toy_family (fun m n ic k => xor_from_length _ m _)
      demo_after_one_byte (by decide) (by decide)⟩

/-- C28: for every state, state buffer size, output buffer and input, accepted or rejected,
`update` leaves the stored nonce `n` and key `k` unchanged. -/
theorem C28_update_keeps_nonce_and_key (F : Family) (state_size : Nat)
    (st : sn_crypto_stream_xor_state) (c m : List Nat) :
    (sn_crypto_stream_xor_wrap_update F state_size st c m).state.n = st.n ∧
    (sn_crypto_stream_xor_wrap_update F state_size st c m).state.k = st.k := by
  unfold sn_crypto_stream_xor_wrap_update SN_THROWS
  split
  · exact ⟨rfl, rfl⟩
  · split
    · exact ⟨rfl, rfl⟩
    · split
      · simp only
        split
        · exact ⟨rfl, rfl⟩
        · exact update_blocks_frame F _ _
      · exact update_blocks_frame F _ _

/-- C29: under a primitive that XORs with the keystream and takes `ic` as a `uint64_t` (or,
when its `ic` is narrower, for a message of at most `2 ^ ic_bits` blocks, so that the counter
reaches the primitive as it is), for every nonce and key of the family's lengths, every
message `M` and every split `P1` of `M`: `init` + updates over `P1`
are accepted and give a ciphertext `C` of the length of `M`, and for every split `P2` of `C`
a fresh `init` with the same nonce and key (on any state buffer) + updates over `P2` are
accepted and give back `M` exactly. -/
theorem C29_incremental_xor_is_involutive (F : Family)
    (block : List Nat → List Nat → Nat → Nat → Nat) (hspec : xor_ic_spec F.xor_ic block)
    (st0 : sn_crypto_stream_xor_state) (n k : List Nat)
    (hn : n.length = F.NONCEBYTES) (hk : k.length = F.KEYBYTES)
    (M : List Nat) (P1 : List (List Nat)) (hP1 : P1.flatten = M)
    (hrange : F.ic_bits < 64 → M.length ≤ 64 * 2 ^ F.ic_bits) :
    ∃ st1 C, xor_session F F.STATEBYTES
        (sn_crypto_stream_xor_wrap_init F F.STATEBYTES st0 n k).state P1 = some (st1, C) ∧
      C.length = M.length ∧
      ∀ (st0b : sn_crypto_stream_xor_state) (P2 : List (List Nat)), P2.flatten = C →
        ∃ st2, xor_session F F.STATEBYTES
          (sn_crypto_stream_xor_wrap_init F F.STATEBYTES st0b n k).state P2 = some (st2, M) := by
  obtain ⟨st1, h1, _⟩ := xor_session_spec F block hspec n k P1 0 _
    (init_session_inv F block st0 n k hn hk)
    (fun hw => by rw [Nat.zero_add, hP1]; exact hrange hw)
  refine ⟨st1, _, h1, by rw [hP1, xor_from_length], ?_⟩
  intro st0b P2 hP2
  obtain ⟨st2, h2, _⟩ := xor_session_spec F block hspec n k P2 0 _
    (init_session_inv F block st0b n k hn hk)
    (fun hw => by rw [Nat.zero_add, hP2, xor_from_length, hP1]; exact hrange hw)
  refine ⟨st2, ?_⟩
  rw [h2, hP2, hP1, xor_from_involutive]

/-- Witness of C29: the 5-byte message 1..5 split as 2 + 3 on the toy family; the ciphertext
split as 4 + 0 + 1 gives the message back. -/
theorem C29_incremental_xor_is_involutive_witness :
    xor_ic_spec toy_family.xor_ic toy_block ∧
    demo_nonce.length = toy_family.NONCEBYTES ∧ demo_key.length = toy_family.KEYBYTES ∧
    ¬ toy_family.ic_bits < 64 ∧
    ∃ st1 C, xor_session toy_family toy_family.STATEBYTES
        (sn_crypto_stream_xor_wrap_init toy_family toy_family.STATEBYTES junk_state
          demo_nonce demo_key).state [[1, 2], [3, 4, 5]] = some (st1, C) ∧
      ∃ st2, xor_session toy_family toy_family.STATEBYTES
        (sn_crypto_stream_xor_wrap_init toy_family toy_family.STATEBYTES demo_closed
          demo_nonce demo_key).state [C.take 4, [], C.drop 4] = some (st2, [1, 2, 3, 4, 5]) :=
  ⟨fun _ _ _ _ => rfl, by decide, by decide, by decide,
    match C29_incremental_xor_is_involutive toy_family toy_block (fun _ _ _ _ => rfl)
      junk_state demo_nonce demo_key (by decide) (by decide) [1, 2, 3, 4, 5]
      [[1, 2], [3, 4, 5]] rfl (fun h => absurd h (by decide)) with
    | ⟨st1, C, h1, _, h3⟩ =>
      ⟨st1, C, h1, h3 demo_closed [C.take 4, [], C.drop 4] (by simp)⟩⟩

/-- C30: for 32-bit lengths, `pull`'s length assertions pass exactly when
`c_len >= ABYTES`, `tag_len = 1` and `m_len + ABYTES = c_len` as integers: an accepted call
never wraps the unsigned subtraction `c_len - ABYTES`. -/
theorem C30_pull_length_check_exact (ABYTES c_len m_len tag_len : Nat)
    (hc : c_len < 2 ^ 32) :
    pull_length_check ABYTES c_len m_len tag_len = true ↔
      (ABYTES ≤ c_len ∧ tag_len = 1 ∧ m_len + ABYTES = c_len) := by
  simp only [pull_length_check, Bool.and_eq_true, decide_eq_true_eq, beq_iff_eq, ge_iff_le]
  constructor
  · rintro ⟨⟨⟨h1, h2⟩, h3⟩, _⟩
    refine ⟨h1, h2, ?_⟩
    have e : c_len + 2 ^ 32 - ABYTES = (c_len - ABYTES) + 2 ^ 32 := by omega
    rw [e] at h3
    omega
  · rintro ⟨h1, h2, h3⟩
    refine ⟨⟨⟨h1, h2⟩, ?_⟩, by omega⟩
    have e : c_len + 2 ^ 32 - ABYTES = (c_len - ABYTES) + 2 ^ 32 := by omega
    rw [e]
    omega

/-- Witness of C30: a 20-byte ciphertext, a 3-byte message view and a 1-byte tag view with
`ABYTES = 17`. -/
theorem C30_pull_length_check_exact_witness :
    (20 : Nat) < 2 ^ 32 ∧ pull_length_check 17 20 3 1 = true ∧ 3 + 17 = 20 :=
  ⟨by decide, (C30_pull_length_check_exact 17 20 3 1 (by decide)).mpr ⟨by decide, rfl, rfl⟩,
    rfl⟩

end SodiumNative
